import Mathlib

/-!
Verification development for the MISP to STIX conversion orchestration engine
(files `misp_to_stix1.py` and `misp_to_stix2.py`).  The Python classes are
shallowly embedded: every method relevant to the checked properties becomes an
executable Lean function over explicit state records; Python exceptions become
`Except` values whose error payload carries the mutated-so-far state (matching
the fact that mutations performed before a `raise` persist on the parser
object); Python dicts become insertion-ordered association lists; the Python
`set` used for warnings becomes a duplicate-free insertion list.

External collaborators (the per-type transformation tables, the object-model
constructors and helper members inherited from classes outside the embedded
files) are either taken as function parameters or modelled from the
specification; each spec-modelled definition says so in its doc comment.
-/

deriving instance DecidableEq for Except

namespace MispStix

/-- Lookup in an insertion-ordered association list (Python `dict[k]` /
`k in dict` on dicts that are only ever extended). -/
def alookup {α : Type} (l : List (String × α)) (k : String) : Option α :=
  match l.find? (fun p => p.1 = k) with
  | some p => some p.2
  | none => none

/-- Python dict assignment `d[k] = v`: replaces the value in place when the key
is present, appends otherwise. -/
def dinsert {α : Type} (l : List (String × α)) (k : String) (v : α) : List (String × α) :=
  if (l.find? (fun p => p.1 = k)).isSome then
    l.map (fun p => if p.1 = k then (k, v) else p)
  else l ++ [(k, v)]

/-- Python `set.add`: appends the element when it is not already present. -/
def sadd (l : List String) (s : String) : List String :=
  if s ∈ l then l else l ++ [s]

/-- Python `list.insert(n, x)`. -/
def pyinsert {α : Type} (n : Nat) (x : α) (xs : List α) : List α :=
  xs.take n ++ [x] ++ xs.drop n

/-- Python `str.startswith(pre)` (character-list implementation, so that
closed statements evaluate inside the kernel). -/
def strStartsWith (s pre : String) : Bool :=
  pre.data.isPrefixOf s.data

/-- Helper for `pySplit`: split a character list on a separator character. -/
def splitOnChar (c : Char) : List Char → List (List Char)
  | [] => [[]]
  | x :: xs =>
    let r := splitOnChar c xs
    if x = c then [] :: r
    else
      match r with
      | [] => [[x]]
      | y :: ys => (x :: y) :: ys

/-- Python `str.split(sep)` for a one-character separator: `"a:b:c"` splits
into `a`, `b`, `c`; a string without the separator yields the singleton list. -/
def pySplit (s : String) (c : Char) : List String :=
  (splitOnChar c s.data).map String.mk

/-- Python `str.upper()` (character-list implementation). -/
def strToUpper (s : String) : String :=
  String.mk (s.data.map Char.toUpper)

end MispStix


namespace Stix1

open MispStix

/-! ## Data model of the MISP input (misp_to_stix1.py) -/

/-- One galaxy cluster (`cluster` dict): stable identifier, display value,
description.  Metadata is irrelevant to the checked claims and omitted. -/
structure Cluster where
  uuid : String
  value : String
  description : String
deriving DecidableEq, Repr

/-- One galaxy annotation (`galaxy` dict). -/
structure Galaxy where
  gtype : String
  gname : String
  clusters : List Cluster
deriving DecidableEq, Repr

/-- A MISP attribute as consumed by `_resolve_attributes`. -/
structure Attr1 where
  atype : String
  category : String
  value : String
  uuid : String
  to_ids : Bool
  tags : List String
  galaxies : List Galaxy
deriving DecidableEq, Repr

/-- A member attribute of a composite MISP object (only the fields the object
pipeline reads; object-attribute tags and galaxies are not modelled because the
checked claims do not exercise `_handle_object_tags_and_galaxies`). -/
structure ObjAttr where
  objectRelation : String
  value : String
  to_ids : Bool
deriving DecidableEq, Repr

/-- A composite MISP object as consumed by `_resolve_objects`. -/
structure MispObj where
  oname : String
  uuid : String
  metaCategory : String
  attributes : List ObjAttr
deriving DecidableEq, Repr

/-! ## Output entities -/

/-- Payload of a cybox observable: either an object built by one of the
per-type producers (abstracted by its identifier), or the `Custom` object
built by `_parse_custom_attribute` / `_parse_custom_object`, which carries
name/value properties. -/
inductive Payload where
  | produced (tag : String)
  | custom (props : List (String × String))
deriving DecidableEq, Repr

/-- A cybox `Observable` as assembled by `_create_observable`. -/
structure Observable1 where
  id_ : String
  objectId : String
  payload : Payload
deriving DecidableEq, Repr

/-- One STIX 1 marking structure inside a `MarkingSpecification`. -/
inductive MarkingStruct where
  | tlp (color : String)
  | statement (s : String)
deriving DecidableEq, Repr

/-- A `RelatedTTP` handle (idref plus relationship label). -/
structure RelTTP where
  idref : String
  relationship : String
deriving DecidableEq, Repr

/-- A `RelatedCOA` handle. -/
structure RelCOA where
  idref : String
  relationship : String
deriving DecidableEq, Repr

/-- A `RelatedThreatActor` handle. -/
structure RelTA where
  idref : String
  relationship : String
deriving DecidableEq, Repr

/-- A `COATaken` wrapper (idref of the course of action taken). -/
structure COATaken where
  idref : String
deriving DecidableEq, Repr

/-- A STIX 1 TTP descriptor entity built from a galaxy cluster. -/
structure TTP where
  id_ : String
  title : String
  payload : Option Cluster
deriving DecidableEq, Repr

/-- A STIX 1 course-of-action descriptor entity. -/
structure COA where
  id_ : String
  title : String
  description : String
deriving DecidableEq, Repr

/-- A STIX 1 threat-actor descriptor entity. -/
structure ThreatActorE where
  id_ : String
  title : String
deriving DecidableEq, Repr

/-- A STIX 1 indicator as assembled by `_create_indicator_from_attribute` or
`_create_indicator_from_object` and decorated by the attribute pipeline. -/
structure Indicator1 where
  id_ : String
  title : String
  indicatorTypes : List String
  observables : List Observable1
  indicatedTtps : List RelTTP
  suggestedCoas : List RelCOA
  handling : Option (List MarkingStruct)
deriving DecidableEq, Repr

/-- `RelatedIndicator` entry on the incident (relationship = category). -/
structure RelInd where
  relationship : String
  indicator : Indicator1
deriving DecidableEq, Repr

/-- `RelatedObservable` entry on the incident (relationship = category). -/
structure RelObs where
  relationship : String
  observable : Observable1
deriving DecidableEq, Repr

/-- Whether a marking structure is a TLP (vocabulary) marking. -/
def MarkingStruct.isTlp : MarkingStruct → Bool
  | .tlp _ => true
  | .statement _ => false

/-- Whether a marking structure is a simple (statement) marking. -/
def MarkingStruct.isStatement : MarkingStruct → Bool
  | .tlp _ => false
  | .statement _ => true

/-! ## Marking handling (`_set_handling`, `_set_color`, `_fetch_colors`) -/

/-- Modelled from the spec: `stix1_mapping.TLP_order`, the fixed total order
over the four TLP sensitivity levels (the mapping module is part of this
repository but is not among the provided sources).  Lookup of a key outside
the table is a Python `KeyError`, modelled as `none`. -/
def TLP_order : List (String × Nat) :=
  [("WHITE", 1), ("GREEN", 2), ("AMBER", 3), ("RED", 4)]

/-- The color extracted from one tag by `_fetch_colors`:
`tag.split(':')[-1].upper()`. -/
def tagColor (t : String) : String :=
  strToUpper (((pySplit t ':').getLast?).getD "")

/-- Embedding of `_fetch_colors`. -/
def fetchColors (tags : List String) : List String :=
  tags.map tagColor

/-- The numeric severity of a color under the fixed total order (`0` when the
color is outside the vocabulary). -/
def orderVal (c : String) : Nat :=
  (alookup TLP_order c).getD 0

/-- One iteration of the `_set_color` loop. -/
def setColorStep (acc : Option (Nat × Option String)) (color : String) :
    Option (Nat × Option String) :=
  match acc with
  | none => none
  | some (tlpColor, best) =>
    match alookup TLP_order color with
    | none => none
    | some colorNum =>
      if colorNum > tlpColor then some (colorNum, some color) else some (tlpColor, best)

/-- Embedding of `_set_color`: keep the color with the largest `TLP_order`
value (strictly-greater updates, so the first occurrence of the maximum wins).
`none` models the `KeyError` raised on a color missing from the table, and the
`UnboundLocalError` raised when no color was ever seen. -/
def setColor (colors : List String) : Option String :=
  (colors.foldl setColorStep (some (0, none))).bind (fun p => p.2)

/-- Embedding of `_set_handling`: split the tags into `tlp:`-prefixed and
simple ones, emit one TLP marking structure with the winning color when any
TLP tag is present, then one simple (statement) marking structure per simple
tag.  `none` models a `KeyError` escaping from `_set_color`. -/
def setHandling (tags : List String) : Option (List MarkingStruct) :=
  let tlpTags := tags.filter (fun t => strStartsWith t "tlp:")
  let simpleTags := tags.filter (fun t => ¬ strStartsWith t "tlp:")
  if tlpTags.isEmpty then
    some (simpleTags.map MarkingStruct.statement)
  else
    match setColor (fetchColors tlpTags) with
    | none => none
    | some color => some (MarkingStruct.tlp color :: simpleTags.map MarkingStruct.statement)

/-! ## Parser state (`MISPtoSTIX1Parser.__init__`)

The instance-level caches (`self.ttps`, `self.courses_of_action`,
`self.threat_actors`, `self.contextualised_data`, `self.errors`,
`self.warnings`) are initialised once per parser instance and are NOT reset by
`parse_misp_event`; only the incident accumulators are fresh per event. -/

structure P1State where
  errors : List String
  warnings : List String
  ttps : List (String × TTP)
  coursesOfAction : List (String × COA)
  threatActors : List (String × ThreatActorE)
  ctxTtps : List (String × RelTTP)
  ctxCoas : List (String × COATaken)
  ctxTas : List (String × RelTA)
  relInd : List RelInd
  relObs : List RelObs
deriving DecidableEq, Repr

/-- State of a freshly constructed parser instance. -/
def initState : P1State :=
  { errors := [], warnings := [], ttps := [], coursesOfAction := [], threatActors := []
    ctxTtps := [], ctxCoas := [], ctxTas := [], relInd := [], relObs := [] }

/-! ## Galaxy parsing functions -/

/-- Which TTP sub-builder a recognised TTP-producing galaxy type dispatches to. -/
inductive TtpFeature where
  | attackPattern
  | malware
  | tool
  | vulnerability
deriving DecidableEq, Repr

/-- The descriptor kind a recognised galaxy type produces. -/
inductive GalaxyKind where
  | ttpKind (f : TtpFeature)
  | coaKind
  | taKind
deriving DecidableEq, Repr

/-- Modelled from the spec: `stix1_mapping.galaxy_types_mapping` (the mapping
module is part of this repository but is not among the provided sources).  It
maps recognised galaxy type names to their per-kind handlers; unrecognised
types are absent and produce a warning. -/
def galaxyTypesMapping : String → Option GalaxyKind := fun t =>
  if t = "mitre-attack-pattern" then some (.ttpKind .attackPattern)
  else if t = "malware" ∨ t = "banker" ∨ t = "ransomware" then some (.ttpKind .malware)
  else if t = "tool" ∨ t = "rat" then some (.ttpKind .tool)
  else if t = "branded-vulnerability" then some (.ttpKind .vulnerability)
  else if t = "course-of-action" then some .coaKind
  else if t = "threat-actor" then some .taKind
  else none

/-- Embedding of `_create_ttp_from_galaxy`. -/
def createTtpFromGalaxy (ns gname uuid : String) : TTP :=
  { id_ := ns ++ ":TTP-" ++ uuid, title := gname ++ " (MISP Galaxy)", payload := none }

/-- Embedding of the `_parse_<feature>_galaxy` cluster builders
(`_parse_attack_pattern_galaxy`, `_parse_malware_galaxy`, `_parse_tool_galaxy`,
`_parse_vulnerability_galaxy`): each populates the TTP's behavior/resource
payload from the cluster without touching its identifier. -/
def parseFeatureGalaxy (cluster : Cluster) (ttp : TTP) : TTP :=
  { ttp with payload := some cluster }

/-- Embedding of `_create_related_ttp` (idref-only TTP wrapped in `RelatedTTP`). -/
def createRelatedTtp (ttpId category : String) : RelTTP :=
  { idref := ttpId, relationship := category }

/-- Embedding of `_create_related_coa`. -/
def createRelatedCoa (coaId category : String) : RelCOA :=
  { idref := coaId, relationship := category }

/-- Embedding of `_create_related_threat_actor`. -/
def createRelatedTa (taId category : String) : RelTA :=
  { idref := taId, relationship := category }

/-- Embedding of `_create_coa_taken`. -/
def createCoaTaken (coaId : String) : COATaken :=
  { idref := coaId }

/-- Embedding of `_create_course_of_action_from_galaxy`. -/
def createCoaFromGalaxy (ns : String) (cluster : Cluster) : COA :=
  { id_ := ns ++ ":CourseOfAction-" ++ cluster.uuid
    title := cluster.value, description := cluster.description }

/-- Embedding of `_create_threat_actor_from_galaxy`. -/
def createTaFromGalaxy (ns : String) (cluster : Cluster) : ThreatActorE :=
  { id_ := ns ++ ":ThreatActor-" ++ cluster.uuid, title := cluster.value }

/-- Embedding of `_quick_fetch_tag_names`. -/
def quickFetchTagNames (g : Galaxy) : List String :=
  g.clusters.map (fun c => "misp-galaxy:" ++ g.gtype ++ "=\x22" ++ c.value ++ "\x22")

/-- One iteration of the `_get_related_ttps` loop. -/
def getRelatedTtpsStep (ns gname : String)
    (acc : List (String × RelTTP) × List (String × TTP)) (cluster : Cluster) :
    List (String × RelTTP) × List (String × TTP) :=
  match alookup acc.2 cluster.uuid with
  | some ttp =>
    (dinsert acc.1 cluster.uuid (createRelatedTtp ttp.id_ gname), acc.2)
  | none =>
    let ttp := parseFeatureGalaxy cluster (createTtpFromGalaxy ns gname cluster.uuid)
    (dinsert acc.1 cluster.uuid (createRelatedTtp ttp.id_ gname),
     acc.2 ++ [(cluster.uuid, ttp)])

/-- Embedding of `_get_related_ttps`: per cluster, reuse the cached TTP's
identifier when the cluster UUID is already in `self.ttps`, otherwise build
a new TTP, register it, and reference it. -/
def getRelatedTtps (ns : String) (g : Galaxy) (ttps : List (String × TTP)) :
    List (String × RelTTP) × List (String × TTP) :=
  g.clusters.foldl (getRelatedTtpsStep ns g.gname) ([], ttps)

/-- One iteration of the `_handle_related_ttps` loop. -/
def ctxTtpStep (ctx : List (String × RelTTP)) (p : String × RelTTP) :
    List (String × RelTTP) :=
  if (alookup ctx p.1).isSome then ctx else ctx ++ [p]

/-- Embedding of `_handle_related_ttps`: record each related TTP under
`contextualised_data['ttp']` unless the UUID is already present. -/
def handleRelatedTtps (related : List (String × RelTTP)) (ctx : List (String × RelTTP)) :
    List (String × RelTTP) :=
  related.foldl ctxTtpStep ctx

/-- One iteration of the `_parse_course_of_action_attribute_galaxy` loop. -/
def coaAttrStep (ns gname : String) (acc : Indicator1 × List (String × COA)) (cluster : Cluster) :
    Indicator1 × List (String × COA) :=
  match alookup acc.2 cluster.uuid with
  | some coa =>
    ({ acc.1 with suggestedCoas := acc.1.suggestedCoas ++ [createRelatedCoa coa.id_ gname] },
     acc.2)
  | none =>
    let coa := createCoaFromGalaxy ns cluster
    ({ acc.1 with suggestedCoas := acc.1.suggestedCoas ++ [createRelatedCoa coa.id_ gname] },
     acc.2 ++ [(cluster.uuid, coa)])

/-- Embedding of `_parse_course_of_action_attribute_galaxy`. -/
def parseCoaAttributeGalaxy (ns : String) (g : Galaxy) (ind : Indicator1)
    (coas : List (String × COA)) : Indicator1 × List (String × COA) :=
  g.clusters.foldl (coaAttrStep ns g.gname) (ind, coas)

/-- One iteration of the `_parse_course_of_action_event_galaxy` loop. -/
def coaEventStep (ns : String) (st : P1State) (cluster : Cluster) : P1State :=
  match alookup st.coursesOfAction cluster.uuid with
  | some coa =>
    { st with ctxCoas := dinsert st.ctxCoas cluster.uuid (createCoaTaken coa.id_) }
  | none =>
    let coa := createCoaFromGalaxy ns cluster
    { st with ctxCoas := dinsert st.ctxCoas cluster.uuid (createCoaTaken coa.id_)
              coursesOfAction := st.coursesOfAction ++ [(cluster.uuid, coa)] }

/-- Embedding of `_parse_course_of_action_event_galaxy`. -/
def parseCoaEventGalaxy (ns : String) (g : Galaxy) (st : P1State) : P1State :=
  g.clusters.foldl (coaEventStep ns) st

/-- One iteration of the `_parse_threat_actor_galaxy` loop. -/
def taEventStep (ns gname : String) (st : P1State) (cluster : Cluster) : P1State :=
  if (alookup st.ctxTas cluster.uuid).isSome then st
  else
    match alookup st.threatActors cluster.uuid with
    | some ta =>
      { st with ctxTas := st.ctxTas ++ [(cluster.uuid, createRelatedTa ta.id_ gname)] }
    | none =>
      let ta := createTaFromGalaxy ns cluster
      { st with ctxTas := st.ctxTas ++ [(cluster.uuid, createRelatedTa ta.id_ gname)]
                threatActors := st.threatActors ++ [(cluster.uuid, ta)] }

/-- Embedding of `_parse_threat_actor_galaxy` (event scope). -/
def parseThreatActorGalaxy (ns : String) (g : Galaxy) (st : P1State) : P1State :=
  g.clusters.foldl (taEventStep ns g.gname) st

/-! ## Attribute parsing pipeline -/

/-- Modelled from the spec: `stix1_mapping.misp_indicator_type` with the
`'Malware Artifacts'` fallback of `_set_indicator_type`; the table's content
does not affect any checked claim, so the model always takes the fallback. -/
def mispIndicatorType (_t : String) : String := "Malware Artifacts"

/-- Embedding of `_create_indicator_from_attribute` (producer/confidence are
collaborator values and omitted). -/
def createIndicatorFromAttribute (ns : String) (a : Attr1) : Indicator1 :=
  { id_ := ns ++ ":Indicator-" ++ a.uuid
    title := a.category ++ ": " ++ a.value ++ " (MISP Attribute)"
    indicatorTypes := [], observables := [], indicatedTtps := [], suggestedCoas := []
    handling := none }

/-- Embedding of `_create_observable`: sets the wrapped object's parent id and
the observable id from the namespace, feature name and source UUID. -/
def createObservable (ns : String) (payload : Payload) (uuid feature : String) : Observable1 :=
  { id_ := ns ++ ":Observable-" ++ uuid
    objectId := ns ++ ":" ++ feature ++ "-" ++ uuid
    payload := payload }

/-- The observable built by `_parse_custom_attribute`: a `Custom` object whose
single property carries the raw attribute type and value. -/
def customAttrObservable (ns : String) (a : Attr1) : Observable1 :=
  createObservable ns (.custom [(a.atype, a.value)]) a.uuid "Custom"

/-- Embedding of the per-galaxy dispatch inside
`_handle_attribute_tags_and_galaxies`: recognised TTP-kind galaxies call
`_parse_<feature>_attribute_galaxy`, course-of-action galaxies call
`_parse_course_of_action_attribute_galaxy`, the threat-actor handler takes no
indicator argument so the attribute-scope call raises (`.error`), and
unrecognised types record a warning and contribute no tag names. -/
def handleAttributeGalaxy (ns atype : String) (g : Galaxy) (ind : Indicator1) (st : P1State) :
    Except P1State (List String × Indicator1 × P1State) :=
  match galaxyTypesMapping g.gtype with
  | some (.ttpKind _) =>
    let r := getRelatedTtps ns g st.ttps
    .ok (quickFetchTagNames g,
         { ind with indicatedTtps := ind.indicatedTtps ++ r.1.map Prod.snd },
         { st with ttps := r.2 })
  | some .coaKind =>
    let r := parseCoaAttributeGalaxy ns g ind st.coursesOfAction
    .ok (quickFetchTagNames g, r.1, { st with coursesOfAction := r.2 })
  | some .taKind => .error st
  | none =>
    .ok ([], ind,
         { st with warnings := sadd st.warnings (g.gtype ++ " galaxy in " ++ atype ++ " attribute not mapped.") })

/-- One iteration of the `_handle_attribute_tags_and_galaxies` galaxy loop:
with no galaxies the attribute's tag names are returned unchanged; otherwise
the galaxies are processed (mutating the caches and the indicator) and the tag
names already consumed by galaxy handling are filtered out of the returned
tuple.  An exception raised mid-loop keeps the cache mutations made so far. -/
def attrGalaxyStep (ns atype : String)
    (acc : Except P1State (List String × Indicator1 × P1State)) (g : Galaxy) :
    Except P1State (List String × Indicator1 × P1State) :=
  match acc with
  | .error e => .error e
  | .ok (tagNames, ind, st) =>
    match handleAttributeGalaxy ns atype g ind st with
    | .error st1 => .error st1
    | .ok (names, ind1, st1) => .ok (tagNames ++ names, ind1, st1)

/-- Embedding of `_handle_attribute_tags_and_galaxies` (see the doc comment of
`attrGalaxyStep` for the per-galaxy dispatch). -/
def handleAttributeTagsAndGalaxies (ns : String) (a : Attr1) (ind : Indicator1) (st : P1State) :
    Except P1State (List String × Indicator1 × P1State) :=
  if a.galaxies.isEmpty then .ok (a.tags, ind, st)
  else
    match a.galaxies.foldl (attrGalaxyStep ns a.atype) (.ok ([], ind, st)) with
    | .error st1 => .error st1
    | .ok (tagNames, ind1, st1) =>
      .ok (a.tags.filter (fun t => ¬ tagNames.contains t), ind1, st1)

/-- Embedding of `_handle_attribute`: indicator wrapping (with galaxy handles
and handling) when `to_ids` is set, bare related-observable wrapping
otherwise.  The error payload carries the state mutated before the raise. -/
def handleAttribute (ns : String) (a : Attr1) (observable : Observable1) (st : P1State) :
    Except P1State P1State :=
  if a.to_ids then
    let ind0 := createIndicatorFromAttribute ns a
    let ind1 := { ind0 with indicatorTypes := ind0.indicatorTypes ++ [mispIndicatorType a.atype]
                            observables := ind0.observables ++ [observable] }
    match handleAttributeTagsAndGalaxies ns a ind1 st with
    | .error st' => .error st'
    | .ok (tags, ind2, st') =>
      if tags.isEmpty then
        .ok { st' with relInd := st'.relInd ++ [⟨a.category, ind2⟩] }
      else
        match setHandling tags with
        | none => .error st'
        | some h =>
          .ok { st' with relInd := st'.relInd ++ [⟨a.category, { ind2 with handling := some h }⟩] }
  else
    .ok { st with relObs := st.relObs ++ [⟨a.category, observable⟩] }

/-- The error message recorded by the `except` clause of `_resolve_attributes`. -/
def attributeErrorMsg (a : Attr1) : String :=
  "Error with the " ++ a.atype ++ " attribute: " ++ a.value ++ "."

/-- One iteration of the `_resolve_attributes` loop.  The per-type producers of
the type-mapping table are the `table` parameter (absent entry = unmapped
type); a producer's `.error` models an exception raised while building the
observable.  Any exception is caught at this per-item boundary and recorded
with the attribute's type and value. -/
def attributeStep (table : String → Option (Attr1 → Except Unit Observable1)) (ns : String)
    (st : P1State) (a : Attr1) : P1State :=
  let res : Except P1State P1State :=
    match table a.atype with
    | some producer =>
      match producer a with
      | .error _ => .error st
      | .ok obs => handleAttribute ns a obs st
    | none =>
      match handleAttribute ns a (customAttrObservable ns a) st with
      | .error st' => .error st'
      | .ok st' =>
        .ok { st' with warnings := sadd st'.warnings ("MISP Attribute type " ++ a.atype ++ " not mapped.") }
  match res with
  | .ok st' => st'
  | .error st' => { st' with errors := st'.errors ++ [attributeErrorMsg a] }

/-- Embedding of `_resolve_attributes`. -/
def resolveAttributes (table : String → Option (Attr1 → Except Unit Observable1)) (ns : String)
    (st : P1State) (attrs : List Attr1) : P1State :=
  attrs.foldl (attributeStep table ns) st

/-! ## Object parsing pipeline -/

/-- Embedding of `_fetch_ids_flags`: true exactly when some member attribute
has its `to_ids` flag set. -/
def fetchIdsFlags (attrs : List ObjAttr) : Bool :=
  attrs.any (fun a => a.to_ids)

/-- The observable built by `_parse_custom_object` (name/value properties from
the member attributes; the warning it records is added by the caller model). -/
def customObjObservable (ns : String) (o : MispObj) : Observable1 :=
  createObservable ns (.custom (o.attributes.map (fun a => (a.objectRelation, a.value)))) o.uuid "Custom"

/-- Embedding of `_create_indicator_from_object`. -/
def createIndicatorFromObject (ns : String) (o : MispObj) : Indicator1 :=
  { id_ := ns ++ ":Indicator-" ++ o.uuid
    title := o.metaCategory ++ ": " ++ o.oname ++ " (MISP Object)"
    indicatorTypes := [], observables := [], indicatedTtps := [], suggestedCoas := []
    handling := none }

/-- Embedding of `_handle_misp_object`: related observable labeled with the
object's meta-category. -/
def handleMispObject (o : MispObj) (obs : Observable1) (st : P1State) : P1State :=
  { st with relObs := st.relObs ++ [⟨o.metaCategory, obs⟩] }

/-- Embedding of `_handle_misp_object_with_context` (member-attribute tags and
galaxies are not modelled, so the tag tuple is empty and no handling is set). -/
def handleMispObjectWithContext (ns : String) (o : MispObj) (obs : Observable1) (st : P1State) :
    P1State :=
  let ind0 := createIndicatorFromObject ns o
  let ind1 := { ind0 with indicatorTypes := [mispIndicatorType o.oname], observables := [obs] }
  { st with relInd := st.relInd ++ [⟨o.metaCategory, ind1⟩] }

/-- One iteration of the `_resolve_objects` loop.  The per-item `try/except`
present in `_resolve_attributes` is commented out here in the source, so a
producer exception propagates (`.error`), aborting the loop with no error
entry recorded. -/
def objectStep (otable : String → Option (MispObj → Except Unit Observable1)) (ns : String)
    (acc : Except P1State P1State) (o : MispObj) : Except P1State P1State :=
  match acc with
  | .error e => .error e
  | .ok st =>
    if o.oname = "original-imported-file" then .ok st
    else
      let toIds := fetchIdsFlags o.attributes
      let pr : Except Unit Observable1 × P1State :=
        match otable o.oname with
        | some producer => (producer o, st)
        | none =>
          (Except.ok (customObjObservable ns o),
           { st with warnings := sadd st.warnings ("MISP Object name " ++ o.oname ++ " not mapped.") })
      match pr.1 with
      | .error _ => .error pr.2
      | .ok obs =>
        .ok (if toIds then handleMispObjectWithContext ns o obs pr.2 else handleMispObject o obs pr.2)

/-- Embedding of `_resolve_objects`. -/
def resolveObjects (otable : String → Option (MispObj → Except Unit Observable1)) (ns : String)
    (st : P1State) (objs : List MispObj) : Except P1State P1State :=
  objs.foldl (objectStep otable ns) (.ok st)

/-! ## Event-level galaxies and the whole parse -/

/-- Embedding of the per-galaxy dispatch inside `_handle_tags_and_galaxies`
(event scope): `_parse_<feature>_event_galaxy` for TTP kinds,
`_parse_course_of_action_event_galaxy`, `_parse_threat_actor_galaxy`, and the
warning branch for unmapped galaxy types. -/
def handleEventGalaxy (ns : String) (g : Galaxy) (st : P1State) : List String × P1State :=
  match galaxyTypesMapping g.gtype with
  | some (.ttpKind _) =>
    let r := getRelatedTtps ns g st.ttps
    (quickFetchTagNames g,
     { st with ttps := r.2, ctxTtps := handleRelatedTtps r.1 st.ctxTtps })
  | some .coaKind => (quickFetchTagNames g, parseCoaEventGalaxy ns g st)
  | some .taKind => (quickFetchTagNames g, parseThreatActorGalaxy ns g st)
  | none => ([], { st with warnings := sadd st.warnings (g.gtype ++ " galaxy in event not mapped.") })

/-- The MISP event as consumed by `parse_misp_event` (fields the embedded
methods read). -/
structure Event1 where
  uuid : String
  info : String
  tags : List String
  galaxies : List Galaxy
  attributes : List Attr1
  objects : List MispObj
deriving DecidableEq, Repr

/-- One iteration of the event-scope `_handle_tags_and_galaxies` galaxy loop. -/
def eventGalaxyStep (ns : String) (acc : List String × P1State) (g : Galaxy) :
    List String × P1State :=
  let r := handleEventGalaxy ns g acc.2
  (acc.1 ++ r.1, r.2)

/-- Embedding of `_handle_tags_and_galaxies` (event scope): process the event
galaxies, then return the event tags not consumed by galaxy handling. -/
def handleTagsAndGalaxies (ns : String) (ev : Event1) (st : P1State) : List String × P1State :=
  if ev.galaxies.isEmpty then (ev.tags, st)
  else
    let r := ev.galaxies.foldl (eventGalaxyStep ns) ([], st)
    (ev.tags.filter (fun t => ¬ r.1.contains t), r.2)

/-- The STIX package assembled for one event: the incident's typed relationship
lists plus the package-level descriptor entities added at the end of
`parse_misp_event` (which iterates over the instance-level caches, including
entries created while parsing earlier events on the same instance). -/
structure Package1 where
  incidentId : String
  handling : Option (List MarkingStruct)
  relInd : List RelInd
  relObs : List RelObs
  coasTaken : List COATaken
  attributedTas : List RelTA
  leveragedTtps : List RelTTP
  pkgCoas : List COA
  pkgTas : List ThreatActorE
  pkgTtps : List TTP
deriving DecidableEq, Repr

/-- Embedding of `parse_misp_event` / `_generate_stix_objects`: fresh incident
accumulators, event-level tags and galaxies (with the incident handling set
only when tags remain), attribute resolution (per-item error isolation),
object resolution (exceptions propagate), then assembly of the incident lists
from `contextualised_data` and of the package entity lists from the
instance-level caches. -/
def parseMispEvent1 (table : String → Option (Attr1 → Except Unit Observable1))
    (otable : String → Option (MispObj → Except Unit Observable1))
    (ns : String) (ev : Event1) (st0 : P1State) : Except P1State (Package1 × P1State) :=
  let stA := { st0 with relInd := [], relObs := [] }
  let r := handleTagsAndGalaxies ns ev stA
  match (if r.1.isEmpty then some none else (setHandling r.1).map some) with
  | none => .error r.2
  | some handling =>
    let st := resolveAttributes table ns r.2 ev.attributes
    match resolveObjects otable ns st ev.objects with
    | .error st' => .error st'
    | .ok st' =>
      .ok ({ incidentId := ns ++ ":Incident-" ++ ev.uuid
             handling := handling
             relInd := st'.relInd
             relObs := st'.relObs
             coasTaken := st'.ctxCoas.map Prod.snd
             attributedTas := st'.ctxTas.map Prod.snd
             leveragedTtps := st'.ctxTtps.map Prod.snd
             pkgCoas := st'.coursesOfAction.map Prod.snd
             pkgTas := st'.threatActors.map Prod.snd
             pkgTtps := st'.ttps.map Prod.snd }, st')

end Stix1

namespace Stix2

open MispStix

/-! ## Data model of the MISP input (misp_to_stix2.py) -/

/-- The owning organisation (`misp_event['Orgc']`). -/
structure Orgc where
  uuid : String
  oname : String
deriving DecidableEq, Repr

/-- A MISP attribute as consumed by the STIX 2 `_resolve_attributes`. -/
structure Attr2 where
  atype : String
  category : String
  value : String
  uuid : String
  to_ids : Bool
  comment : String
  tags : List String
deriving DecidableEq, Repr

/-- The MISP event as consumed by the STIX 2 `parse_misp_event`. -/
structure Event2 where
  uuid : String
  info : String
  published : Bool
  publishTimestamp : String
  orgc : Orgc
  attributes : List Attr2
  tags : List String
deriving DecidableEq, Repr

/-! ## Output objects -/

/-- The STIX 2 domain objects the embedded pipeline emits. -/
inductive SDO2 where
  | identityO (id_ : String) (oname : String)
  | indicatorO (id_ : String) (pattern : String) (markingRefs : List String) (createdByRef : String)
  | customO (id_ : String) (atype : String) (value : String)
  | markingO (id_ : String)
  | reportO (id_ : String) (rname : String) (createdByRef : String) (published : Option String)
      (markingRefs : List String) (objectRefs : List String)
deriving DecidableEq, Repr

/-- The `id` property of an SDO. -/
def SDO2.sid : SDO2 → String
  | .identityO i _ => i
  | .indicatorO i _ _ _ => i
  | .customO i _ _ => i
  | .markingO i => i
  | .reportO i _ _ _ _ _ => i

/-- Whether an SDO is a report. -/
def SDO2.isReport : SDO2 → Bool
  | .reportO _ _ _ _ _ _ => true
  | _ => false

/-- Whether an SDO is an identity. -/
def SDO2.isIdentity : SDO2 → Bool
  | .identityO _ _ => true
  | _ => false

/-- Whether an SDO is a marking definition. -/
def SDO2.isMarking : SDO2 → Bool
  | .markingO _ => true
  | _ => false

/-- The `created_by_ref` property, for the SDO kinds that carry one. -/
def SDO2.createdByRef? : SDO2 → Option String
  | .indicatorO _ _ _ c => some c
  | .reportO _ _ c _ _ _ => some c
  | _ => none

/-! ## Parser state (`MISPtoSTIX2Parser.__init__` / `parse_misp_event`) -/

/-- Parser-instance state.  `orgs` and `mcache` (`self._orgs`,
`self._markings`) are initialised once per instance and persist across
`parse_misp_event` calls; `objects`, `refs`, `errors` and `warnings` are the
per-event accumulators; `ctr` indexes the next `uuid4()` draw from the
ambient randomness source. -/
structure P2St where
  orgs : List String
  mcache : List (String × String)
  identityId : String
  objects : List SDO2
  refs : List String
  errors : List String
  warnings : List String
  ctr : Nat
deriving DecidableEq, Repr

/-- State of a freshly constructed STIX 2 parser instance. -/
def init2 : P2St :=
  { orgs := [], mcache := [], identityId := "", objects := [], refs := []
    errors := [], warnings := [], ctr := 0 }

/-! ## Marking creation -/

/-- Modelled from the spec: the canonical prebuilt TLP marking definitions the
object-model library ships (`stix2_mapping.tlp_markings_v20`; the mapping
module is part of this repository but is not among the provided sources).
Well-known classification entries are reused by value under fixed
schema-version-specific identifiers. -/
def tlpMarkingsV20 : List (String × String) :=
  [("tlp:white", "marking-definition--613f2e26-407d-48c7-9eca-b8e91df99dc9"),
   ("tlp:green", "marking-definition--34098fce-860f-48ae-8e50-ebd3cc5e41da"),
   ("tlp:amber", "marking-definition--f88d31f6-486f-44da-b317-01333bde0b82"),
   ("tlp:red", "marking-definition--5e57c739-391a-4eb3-b6be-7d15ca92d5ed")]

/-- Embedding of `_create_marking_definition_args`: split the tag on the first
colon via `marking.split(':')` — the tuple unpacking raises `ValueError`
(`none`) unless the split yields exactly two parts — and mint an identifier
embedding a fresh `uuid4()` draw.  Returns `(id, definition_type,
definition)`. -/
def createMarkingDefinitionArgs (marking : String) (fresh : String) :
    Option (String × String × String) :=
  match pySplit marking ':' with
  | [dt, d] => some ("marking-definition--" ++ fresh, dt, d)
  | _ => none

/-- Embedding of `MISPtoSTIX20Parser._create_marking`.  `validate` is the
object-model constructor contract of the spec: `false` models the
schema-validation exception (`TLPMarkingDefinitionError`, `ValueError`) that
the source catches and turns into a silent drop (`.ok (st, none)`).  The
split failure inside `_create_marking_definition_args` happens OUTSIDE the
`try` block, so it escapes as `.error`. -/
def createMarking (validate : String → String → Bool) (supply : Nat → String)
    (st : P2St) (marking : String) : Except P2St (P2St × Option String) :=
  match alookup tlpMarkingsV20 marking with
  | some mid => .ok ({ st with mcache := dinsert st.mcache marking mid }, some mid)
  | none =>
    match createMarkingDefinitionArgs marking (supply st.ctr) with
    | none => .error st
    | some (mid, dt, d) =>
      let st1 := { st with ctr := st.ctr + 1 }
      if validate dt d then
        .ok ({ st1 with mcache := dinsert st1.mcache marking mid }, some mid)
      else .ok (st1, none)

/-- One iteration of the `_handle_markings` loop: reuse cached marking
entities by tag string, create the missing ones, silently skip the ones
whose creation returned nothing; an exception escaping `_create_marking`
aborts the loop. -/
def handleMarkingsStep (validate : String → String → Bool) (supply : Nat → String)
    (acc : Except P2St (P2St × List String)) (marking : String) :
    Except P2St (P2St × List String) :=
  match acc with
  | .error e => .error e
  | .ok (st, ids) =>
    match alookup st.mcache marking with
    | some mid => .ok (st, ids ++ [mid])
    | none =>
      match createMarking validate supply st marking with
      | .error st1 => .error st1
      | .ok (st1, some mid) => .ok (st1, ids ++ [mid])
      | .ok (st1, none) => .ok (st1, ids)

/-- Embedding of `_handle_markings`. -/
def handleMarkings (validate : String → String → Bool) (supply : Nat → String)
    (st : P2St) (markings : List String) : Except P2St (P2St × List String) :=
  markings.foldl (handleMarkingsStep validate supply) (.ok (st, []))

/-! ## Identity, attributes, report -/

/-- Embedding of `_append_SDO` (append the object to `self._objects` and its
id to `self._object_refs`). -/
def appendSDO (st : P2St) (sdo : SDO2) : P2St :=
  { st with objects := st.objects ++ [sdo], refs := st.refs ++ [sdo.sid] }

/-- Embedding of `_set_identity`: remember `identity--<orgc uuid>` as the
creator reference; append a new identity entity (and cache the organisation)
only when the organisation was not already seen by this instance and its
identifier is not in the caller-supplied `ids`; return the insertion index
for the report (1 when an identity was just emitted, 0 otherwise). -/
def setIdentity (ids : List String) (ev : Event2) (st : P2St) : Nat × P2St :=
  let u := ev.orgc.uuid
  let iid := "identity--" ++ u
  let st1 := { st with identityId := iid }
  if u ∉ st1.orgs ∧ iid ∉ ids then
    (1, { st1 with orgs := st1.orgs ++ [u]
                   objects := st1.objects ++ [.identityO iid ev.orgc.oname] })
  else (0, st1)

/-- Embedding of `_handle_attribute_indicator`: the indicator identifier is
`indicator--<attribute uuid>`; the attribute's tags (the tag-collection
helper lives outside the provided sources and is modelled from the spec as
the attribute's tag names) are resolved into marking references; the
indicator is appended through `_append_SDO`. -/
def handleAttributeIndicator (validate : String → String → Bool) (supply : Nat → String)
    (st : P2St) (a : Attr2) (pattern : String) : Except P2St P2St :=
  let indicatorId := "indicator--" ++ a.uuid
  let markings := a.tags
  if markings.isEmpty then
    .ok (appendSDO st (.indicatorO indicatorId pattern [] st.identityId))
  else
    match handleMarkings validate supply st markings with
    | .error st1 => .error st1
    | .ok (st1, mids) =>
      .ok (appendSDO st1 (.indicatorO indicatorId pattern mids st1.identityId))

/-- Modelled from the spec: `_parse_custom_attribute` for the STIX 2 parser
(called by `_resolve_attributes` but not defined in the provided sources): a
generic custom entity preserving the raw type name and value. -/
def parseCustomAttribute2 (st : P2St) (a : Attr2) : P2St :=
  appendSDO st (.customO ("x-misp-object--" ++ a.uuid) a.atype a.value)

/-- The per-item `try/except` boundary of the STIX 2 `_resolve_attributes`:
a caught exception appends an error naming the attribute's type and value to
the instance state carried by the exception. -/
def attrCatch (st : P2St) (a : Attr2) (res : Except P2St P2St) : P2St :=
  match res with
  | .ok st1 => st1
  | .error st1 =>
    { st1 with
      errors := st1.errors ++ ["Error with the " ++ a.atype ++ " attribute: " ++ a.value ++ "."] }

/-- One iteration of the STIX 2 `_resolve_attributes` loop: mapped types
dispatch to their producer (pattern producers feed
`_handle_attribute_indicator` when `to_ids` is set; the observable branch of
the provided sources builds a local dict and appends nothing); unmapped types
fall back to the custom producer plus a warning; any exception is caught at
this per-item boundary and recorded with the attribute's type and value. -/
def attributeStep2 (table : String → Option (Attr2 → Except Unit String))
    (validate : String → String → Bool) (supply : Nat → String)
    (st : P2St) (a : Attr2) : P2St :=
  let res : Except P2St P2St :=
    match table a.atype with
    | some producer =>
      match producer a with
      | .error _ => .error st
      | .ok pattern =>
        if a.to_ids then handleAttributeIndicator validate supply st a pattern
        else .ok st
    | none =>
      let st1 := parseCustomAttribute2 st a
      .ok { st1 with
            warnings := sadd st1.warnings ("MISP Attribute type " ++ a.atype ++ " not mapped.") }
  attrCatch st a res

/-- Embedding of the STIX 2 `_resolve_attributes`. -/
def resolveAttributes2 (table : String → Option (Attr2 → Except Unit String))
    (validate : String → String → Bool) (supply : Nat → String)
    (st : P2St) (attrs : List Attr2) : P2St :=
  attrs.foldl (attributeStep2 table validate supply) st

/-- Modelled from the spec: `_handle_event_tags_and_galaxies` (defined outside
the provided sources): collects the event's tag names; event-level galaxies
are not modelled for the STIX 2 parser, so nothing is subtracted. -/
def handleEventTagsAndGalaxies (ev : Event2) : List String := ev.tags

/-- The `if self._markings:` block of `_generate_event_report`: append every
cached marking-definition entity to the output through `_append_SDO`. -/
def mcacheAppend (st : P2St) : P2St :=
  if st.mcache.isEmpty then st
  else st.mcache.foldl (fun st p => appendSDO st (.markingO p.2)) st

/-- Embedding of `_generate_event_report`: resolve event-level markings into
the report's marking references, append every cached marking-definition
entity to the output, then assemble the report (identifier
`report--<event uuid>`, creator the identity identifier, publication
timestamp only when the event is published, `object_refs` the accumulated
reference list). -/
def generateEventReport (validate : String → String → Bool) (supply : Nat → String)
    (ev : Event2) (st : P2St) : Except P2St (P2St × SDO2) :=
  let markings := handleEventTagsAndGalaxies ev
  match (if markings.isEmpty then (.ok (st, []) : Except P2St (P2St × List String))
         else handleMarkings validate supply st markings) with
  | .error st1 => .error st1
  | .ok (st1, mrefs) =>
    let st2 := mcacheAppend st1
    .ok (st2, .reportO ("report--" ++ ev.uuid) ev.info st2.identityId
          (if ev.published then some ev.publishTimestamp else none) mrefs st2.refs)

/-- The tail of `parse_misp_event`: insert the generated report into the
object sequence at the index `_set_identity` returned (an exception escaping
report generation aborts the parse). -/
def parseFinish (idx : Nat) (res : Except P2St (P2St × SDO2)) :
    Except P2St (P2St × List SDO2) :=
  match res with
  | .error st1 => .error st1
  | .ok (st1, report) =>
    let finalObjs := pyinsert idx report st1.objects
    .ok ({ st1 with objects := finalObjs }, finalObjs)

/-- Embedding of the STIX 2 `parse_misp_event`: reset the per-event
accumulators, set the identity (remembering the index at which it was
created), resolve the attributes, generate the report and insert it at the
identity's index.  The second component of the result is the final flat
object sequence (what `stix_objects` yields for the flat-sequence shape). -/
def parseMispEvent2 (table : String → Option (Attr2 → Except Unit String))
    (validate : String → String → Bool) (supply : Nat → String)
    (ids : List String) (ev : Event2) (st0 : P2St) : Except P2St (P2St × List SDO2) :=
  let stA := { st0 with objects := [], refs := [], errors := [], warnings := [] }
  let r := setIdentity ids ev stA
  let stC := resolveAttributes2 table validate supply r.2 ev.attributes
  parseFinish r.1 (generateEventReport validate supply ev stC)

end Stix2


namespace Stix1

open MispStix

/-! ## Sample inputs used by witnesses and counterexamples -/

/-- A type-mapping table with no entries (every attribute type is unmapped). -/
def emptyTable : String → Option (Attr1 → Except Unit Observable1) := fun _ => none

/-- A sample attribute-type table: type `boom` raises inside its producer,
type `AS` produces an observable. -/
def c1Table : String → Option (Attr1 → Except Unit Observable1) := fun t =>
  if t = "boom" then some (fun _ => .error ())
  else if t = "AS" then
    some (fun a => .ok (createObservable "MISP" (.produced "AS") a.uuid "AS"))
  else none

/-- A sample object-name table: name `boom-object` raises inside its producer,
name `asn` produces an observable. -/
def c1OTable : String → Option (MispObj → Except Unit Observable1) := fun n =>
  if n = "boom-object" then some (fun _ => .error ())
  else if n = "asn" then
    some (fun o => .ok (createObservable "MISP" (.produced "AS") o.uuid "AS"))
  else none

/-- An attribute whose producer raises. -/
def c1Attr1 : Attr1 := ⟨"boom", "cat", "v1", "u1", false, [], []⟩

/-- An attribute whose producer succeeds. -/
def c1Attr2 : Attr1 := ⟨"AS", "Network activity", "AS123", "u2", false, [], []⟩

/-- An object whose producer raises. -/
def c1Obj1 : MispObj := ⟨"boom-object", "ou1", "network", [⟨"asn", "AS1", false⟩]⟩

/-- An object whose producer succeeds, with no detection-intent flag set. -/
def c1Obj2 : MispObj := ⟨"asn", "ou2", "network", [⟨"asn", "AS2", false⟩]⟩

/-- An unmapped-type attribute with no tags and no galaxies. -/
def c6Attr : Attr1 := ⟨"not-mapped-type", "Network activity", "x", "uuid-a", false, [], []⟩

/-- An object-name table with no entries. -/
def noObjTable : String → Option (MispObj → Except Unit Observable1) := fun _ => none

/-- A sample malware galaxy cluster. -/
def c8Cluster : Cluster := ⟨"cluster-u", "Emotet", "banking malware"⟩

/-- A sample malware galaxy holding that cluster. -/
def c8Galaxy : Galaxy := ⟨"malware", "Malware", [c8Cluster]⟩

/-- Two attributes that both reference the same cluster through their galaxy. -/
def c8Attr1 : Attr1 := ⟨"AS", "Network activity", "AS1", "au1", true, [], [c8Galaxy]⟩

/-- Second attribute referencing the same cluster. -/
def c8Attr2 : Attr1 := ⟨"AS", "Network activity", "AS2", "au2", true, [], [c8Galaxy]⟩

/-- An event whose two attributes share one galaxy cluster. -/
def c8Event : Event1 := ⟨"ev-uuid", "info", [], [], [c8Attr1, c8Attr2], []⟩

/-- An event carrying the sample galaxy at event level (used twice on one
engine instance for the cross-event claims). -/
def c2Event : Event1 := ⟨"ev2-uuid", "info2", [], [c8Galaxy], [], []⟩

/-- The TTP descriptor the sample cluster produces. -/
def c2Ttp : TTP := ⟨"MISP:TTP-cluster-u", "Malware (MISP Galaxy)", some c8Cluster⟩

/-- First parse of the sample event on a fresh instance. -/
def c2ParseA : Except P1State (Package1 × P1State) :=
  parseMispEvent1 c1Table noObjTable "MISP" c2Event initState

/-- An empty package, used as fallback when destructuring parse results. -/
def emptyPackage : Package1 := ⟨"", none, [], [], [], [], [], [], [], []⟩

/-- Package produced by the first parse. -/
def c2PkgA : Package1 :=
  match c2ParseA with
  | .ok (pkg, _) => pkg
  | .error _ => emptyPackage

/-- Instance state after the first parse. -/
def c2St1 : P1State :=
  match c2ParseA with
  | .ok (_, st) => st
  | .error st => st

/-- Second parse of the same event on the same instance. -/
def c2ParseB : Except P1State (Package1 × P1State) :=
  parseMispEvent1 c1Table noObjTable "MISP" c2Event c2St1

/-- Package produced by the second parse. -/
def c2PkgB : Package1 :=
  match c2ParseB with
  | .ok (pkg, _) => pkg
  | .error _ => emptyPackage

/-- Instance state after the second parse. -/
def c2St2 : P1State :=
  match c2ParseB with
  | .ok (_, st) => st
  | .error st => st

/-- Parse of the two-attribute shared-cluster event on a fresh instance. -/
def c8Parse : Except P1State (Package1 × P1State) :=
  parseMispEvent1 c1Table noObjTable "MISP" c8Event initState

/-- Package produced by that parse. -/
def c8Pkg : Package1 :=
  match c8Parse with
  | .ok (pkg, _) => pkg
  | .error _ => emptyPackage

/-- Instance state after that parse. -/
def c8St : P1State :=
  match c8Parse with
  | .ok (_, st) => st
  | .error st => st

/-- The second parse's package, when the second parse succeeds. -/
def c2RunB : Option Package1 :=
  match c2ParseB with
  | .ok (pkg, _) => some pkg
  | .error _ => none

/-! ## Cache well-formedness invariants -/

/-- Well-formedness of the TTP cache: duplicate-free keys and identifiers
determined by the key. -/
def ttpsWf (ns : String) (st : P1State) : Prop :=
  (st.ttps.map Prod.fst).Nodup ∧ ∀ p ∈ st.ttps, p.2.id_ = ns ++ ":TTP-" ++ p.1

/-- Well-formedness of the course-of-action cache. -/
def coasWf (ns : String) (st : P1State) : Prop :=
  (st.coursesOfAction.map Prod.fst).Nodup ∧
  ∀ p ∈ st.coursesOfAction, p.2.id_ = ns ++ ":CourseOfAction-" ++ p.1

/-- Well-formedness of the threat-actor cache. -/
def tasWf (ns : String) (st : P1State) : Prop :=
  (st.threatActors.map Prod.fst).Nodup ∧
  ∀ p ∈ st.threatActors, p.2.id_ = ns ++ ":ThreatActor-" ++ p.1

/-- A TTP relationship handle references a cached TTP's identifier. -/
def relTtpOk (st : P1State) (rt : RelTTP) : Prop :=
  ∃ u t, alookup st.ttps u = some t ∧ rt.idref = t.id_

/-- A course-of-action relationship handle references a cached entity. -/
def relCoaOk (st : P1State) (rc : RelCOA) : Prop :=
  ∃ u c, alookup st.coursesOfAction u = some c ∧ rc.idref = c.id_

/-- Every relationship handle attached to an indicator references a cached
descriptor. -/
def indOk (st : P1State) (ind : Indicator1) : Prop :=
  (∀ rt ∈ ind.indicatedTtps, relTtpOk st rt) ∧ (∀ rc ∈ ind.suggestedCoas, relCoaOk st rc)

/-- Full parser-state invariant: well-formed caches, valid handles in the
incident's related indicators, and contextualised-data entries whose handle
references the cached descriptor stored under the same UUID. -/
def stInv (ns : String) (st : P1State) : Prop :=
  ttpsWf ns st ∧ coasWf ns st ∧ tasWf ns st ∧
  (∀ ri ∈ st.relInd, indOk st ri.indicator) ∧
  (∀ p ∈ st.ctxTtps, ∃ t, alookup st.ttps p.1 = some t ∧ p.2.idref = t.id_) ∧
  (∀ p ∈ st.ctxCoas, ∃ c, alookup st.coursesOfAction p.1 = some c ∧ p.2.idref = c.id_) ∧
  (∀ p ∈ st.ctxTas, ∃ t, alookup st.threatActors p.1 = some t ∧ p.2.idref = t.id_)

/-- The instance-level caches only grow across a computation. -/
def cacheGrows (st st2 : P1State) : Prop :=
  (∃ e, st2.ttps = st.ttps ++ e) ∧
  (∃ e, st2.coursesOfAction = st.coursesOfAction ++ e) ∧
  (∃ e, st2.threatActors = st.threatActors ++ e)

end Stix1

namespace Stix2

open MispStix

/-! ## Sample inputs used by witnesses and counterexamples -/

/-- An object-model validator accepting every definition. -/
def acceptAll : String → String → Bool := fun _ _ => true

/-- An object-model validator rejecting markings whose definition type is
`bad`. -/
def rejectBad : String → String → Bool := fun dt _ => ¬ (dt = "bad")

/-- One deterministic uuid4 randomness source. -/
def supplyA : Nat → String := fun n => "aaaa-" ++ toString n

/-- A second, different uuid4 randomness source. -/
def supplyB : Nat → String := fun n => "bbbb-" ++ toString n

/-- A type table mapping type AS to a pattern producer. -/
def table2AS : String → Option (Attr2 → Except Unit String) := fun t =>
  if t = "AS" then
    some (fun a => .ok ("[autonomous-system:number = '" ++ a.value ++ "']"))
  else none

/-- An attribute of the mapped type with detection intent and no tags. -/
def c5Attr : Attr2 := ⟨"AS", "Network activity", "AS123", "attr-u1", true, "", []⟩

/-- An event with one mapped attribute and no tags. -/
def c5Event : Event2 := ⟨"ev-u", "info", false, "", ⟨"org-u", "OrgName"⟩, [c5Attr], []⟩

/-- Its parse on a fresh instance. -/
def c5Run : Except P2St (P2St × List SDO2) :=
  parseMispEvent2 table2AS acceptAll supplyA [] c5Event init2

/-- The flat object sequence that parse yields. -/
def c5Objects : List SDO2 :=
  match c5Run with
  | .ok (_, objs) => objs
  | .error _ => []

/-- An event with no attributes and one non-vocabulary tag. -/
def c3Event : Event2 := ⟨"ev-u", "info", false, "", ⟨"org-u", "OrgName"⟩, [], ["custom:stmt"]⟩

/-- Two parses of that event on fresh instances, differing only in the uuid4
randomness source. -/
def c3Run1 : Except P2St (P2St × List SDO2) :=
  parseMispEvent2 table2AS acceptAll supplyA [] c3Event init2

/-- Second parse, second randomness source. -/
def c3Run2 : Except P2St (P2St × List SDO2) :=
  parseMispEvent2 table2AS acceptAll supplyB [] c3Event init2

/-- Objects of the first parse. -/
def c3Objects1 : List SDO2 :=
  match c3Run1 with
  | .ok (_, objs) => objs
  | .error _ => []

/-- Objects of the second parse. -/
def c3Objects2 : List SDO2 :=
  match c3Run2 with
  | .ok (_, objs) => objs
  | .error _ => []

/-- First event of the identity-singleton run. -/
def c9Event1 : Event2 := ⟨"ev-u1", "info1", false, "", ⟨"org-u", "OrgName"⟩, [c5Attr], []⟩

/-- Second event from the same organisation. -/
def c9Event2 : Event2 := ⟨"ev-u2", "info2", false, "", ⟨"org-u", "OrgName"⟩, [], []⟩

/-- First parse of the identity-singleton run. -/
def c9Run1 : Except P2St (P2St × List SDO2) :=
  parseMispEvent2 table2AS acceptAll supplyA [] c9Event1 init2

/-- State after the first parse. -/
def c9St1 : P2St :=
  match c9Run1 with
  | .ok (st, _) => st
  | .error st => st

/-- Objects of the first parse. -/
def c9Objects1 : List SDO2 :=
  match c9Run1 with
  | .ok (_, objs) => objs
  | .error _ => []

/-- Second parse on the same instance. -/
def c9Run2 : Except P2St (P2St × List SDO2) :=
  parseMispEvent2 table2AS acceptAll supplyA [] c9Event2 c9St1

/-- State after the second parse. -/
def c9St2 : P2St :=
  match c9Run2 with
  | .ok (st, _) => st
  | .error st => st

/-- Objects of the second parse. -/
def c9Objects2 : List SDO2 :=
  match c9Run2 with
  | .ok (_, objs) => objs
  | .error _ => []

/-- A seen-identifiers set already containing the organisation's identity. -/
def c9Ids3 : List String := ["identity--org-u"]

/-- A parse on a fresh instance with the identity suppressed by the
caller-supplied seen-identifiers set. -/
def c9Run3 : Except P2St (P2St × List SDO2) :=
  parseMispEvent2 table2AS acceptAll supplyA c9Ids3 c9Event2 init2

/-- State after the suppressed parse. -/
def c9St3 : P2St :=
  match c9Run3 with
  | .ok (st, _) => st
  | .error st => st

/-- Objects of the suppressed parse. -/
def c9Objects3 : List SDO2 :=
  match c9Run3 with
  | .ok (_, objs) => objs
  | .error _ => []

/-- State after the c5 parse. -/
def c5St : P2St :=
  match c5Run with
  | .ok (st, _) => st
  | .error st => st

/-- A mapped attribute carrying only TLP-vocabulary tags. -/
def c3TLPAttr : Attr2 := ⟨"AS", "Network activity", "AS123", "attr-u1", true, "", ["tlp:red"]⟩

/-- An event whose tags all belong to the TLP vocabulary. -/
def c3EvTLP : Event2 :=
  ⟨"ev-u", "info", false, "", ⟨"org-u", "OrgName"⟩, [c3TLPAttr], ["tlp:green"]⟩

/-- The parser state reached by an outcome of `_create_marking` (the marking
cache and draw counter advance whether or not the tag survived; on an escaped
exception the mutations made so far persist on the instance). -/
def exMark : Except P2St (P2St × Option String) → P2St
  | .error st => st
  | .ok (st, _) => st

/-- The parser state reached by an outcome of `_handle_markings`. -/
def exMarks : Except P2St (P2St × List String) → P2St
  | .error st => st
  | .ok (st, _) => st

/-- Everything of the parser state except the marking cache and the draw
counter (the only fields `_create_marking` writes). -/
def coreEq (a b : P2St) : Prop :=
  a.orgs = b.orgs ∧ a.identityId = b.identityId ∧ a.objects = b.objects ∧
    a.refs = b.refs ∧ a.errors = b.errors ∧ a.warnings = b.warnings

/-- A run of output objects containing neither an identity nor a report. -/
def tailOk (tail : List SDO2) : Prop :=
  ∀ o ∈ tail, o.isIdentity = false ∧ o.isReport = false

/-- A parsing stage that only appends non-identity, non-report objects to the
output and leaves the creator reference and the organisation cache alone. -/
def appendOnly (st st1 : P2St) : Prop :=
  (∃ tail, st1.objects = st.objects ++ tail ∧ tailOk tail) ∧
    st1.identityId = st.identityId ∧ st1.orgs = st.orgs

end Stix2

/-!
# Theorems

Helper lemmas about the embedded primitives first, then one theorem per
checked claim (with its witness or counterexample).
-/

namespace MispStix

theorem alookup_nil {α : Type} (k : String) : alookup ([] : List (String × α)) k = none := rfl

theorem alookup_cons {α : Type} (p : String × α) (l : List (String × α)) (k : String) :
    alookup (p :: l) k = if p.1 = k then some p.2 else alookup l k := by
  simp only [alookup, List.find?]
  by_cases h : p.1 = k <;> simp [h]

theorem alookup_append_of_isSome {α : Type} (l e : List (String × α)) (k : String)
    (h : (alookup l k).isSome) : alookup (l ++ e) k = alookup l k := by
  induction l with
  | nil => simp [alookup] at h
  | cons p t ih =>
    rw [List.cons_append, alookup_cons, alookup_cons]
    by_cases hp : p.1 = k
    · simp [hp]
    · simp only [if_neg hp]
      exact ih (by rwa [alookup_cons, if_neg hp] at h)

theorem alookup_append_of_none {α : Type} (l e : List (String × α)) (k : String)
    (h : alookup l k = none) : alookup (l ++ e) k = alookup e k := by
  induction l with
  | nil => simp
  | cons p t ih =>
    rw [alookup_cons] at h
    rw [List.cons_append, alookup_cons]
    by_cases hp : p.1 = k
    · simp [hp] at h
    · rw [if_neg hp]
      exact ih (by rwa [if_neg hp] at h)

theorem mem_of_alookup {α : Type} (l : List (String × α)) (k : String) (v : α)
    (h : alookup l k = some v) : (k, v) ∈ l := by
  induction l with
  | nil => simp [alookup] at h
  | cons p t ih =>
    rw [alookup_cons] at h
    by_cases hp : p.1 = k
    · rw [if_pos hp] at h
      have hpv : p = (k, v) := by
        cases p
        simp_all

      rw [← hpv]
      exact List.mem_cons_self _ _
    · rw [if_neg hp] at h
      exact List.mem_cons_of_mem _ (ih h)

theorem alookup_none_of_forall {α : Type} (l : List (String × α)) (k : String)
    (h : ∀ p ∈ l, p.1 ≠ k) : alookup l k = none := by
  induction l with
  | nil => rfl
  | cons p t ih =>
    rw [alookup_cons, if_neg (h p (List.mem_cons_self p t))]
    exact ih (fun q hq => h q (List.mem_cons_of_mem _ hq))

theorem forall_of_alookup_none {α : Type} (l : List (String × α)) (k : String)
    (h : alookup l k = none) : ∀ p ∈ l, p.1 ≠ k := by
  induction l with
  | nil =>
    intro p hp
    simp at hp
  | cons q t ih =>
    rw [alookup_cons] at h
    by_cases hq : q.1 = k
    · simp [hq] at h
    · rw [if_neg hq] at h
      intro p hp
      rcases List.mem_cons.mp hp with rfl | hp
      · exact hq
      · exact ih h p hp

theorem mem_dinsert {α : Type} {l : List (String × α)} {k : String} {v : α} {x : String × α}
    (h : x ∈ dinsert l k v) : x ∈ l ∨ x = (k, v) := by
  unfold dinsert at h
  by_cases hc : (l.find? (fun p => p.1 = k)).isSome
  · rw [if_pos hc] at h
    rcases List.mem_map.mp h with ⟨p, hp, he⟩
    by_cases hk : p.1 = k
    · right
      rw [if_pos hk] at he
      exact he.symm
    · left
      rw [if_neg hk] at he
      exact he ▸ hp
  · rw [if_neg hc] at h
    rcases List.mem_append.mp h with h | h
    · exact Or.inl h
    · exact Or.inr (List.mem_singleton.mp h)

/-- Left cancellation for string append, used to show that distinct source
UUIDs produce distinct output identifiers. -/
theorem str_append_left_cancel {a b c : String} (h : a ++ b = a ++ c) : b = c := by
  have hd : a.data ++ b.data = a.data ++ c.data := by
    have h1 := congrArg String.data h
    simpa [String.data_append] using h1
  have hbc : b.data = c.data := List.append_cancel_left hd
  exact congrArg String.mk hbc

theorem str_tag_injective (pre : String) : Function.Injective (fun u => pre ++ u) := by
  intro a b h
  exact str_append_left_cancel h

end MispStix

namespace Stix1

open MispStix

theorem alookup_mem_values {α : Type} (l : List (String × α)) (k : String) (v : α)
    (h : alookup l k = some v) : v ∈ l.map Prod.snd :=
  List.mem_map.mpr ⟨(k, v), mem_of_alookup l k v h, rfl⟩

theorem orderVal_pos (c : String) (h : (alookup TLP_order c).isSome) : 1 ≤ orderVal c := by
  cases hv : alookup TLP_order c with
  | none => rw [hv] at h; simp at h
  | some n =>
    have hn : n ∈ TLP_order.map Prod.snd := alookup_mem_values _ _ _ hv
    have hn4 : n = 1 ∨ n = 2 ∨ n = 3 ∨ n = 4 := by simpa [TLP_order] using hn
    have : orderVal c = n := by simp [orderVal, hv]
    rw [this]
    rcases hn4 with rfl | rfl | rfl | rfl <;> omega

theorem setColor_fold (colors : List String) :
    ∀ (n : Nat) (b : Option String),
      (∀ c ∈ colors, (alookup TLP_order c).isSome) →
      ∃ n2 b2, colors.foldl setColorStep (some (n, b)) = some (n2, b2) ∧
        n ≤ n2 ∧
        ((b2 = b ∧ n2 = n) ∨ ∃ c, b2 = some c ∧ c ∈ colors ∧ n2 = orderVal c) ∧
        (∀ c ∈ colors, orderVal c ≤ n2) := by
  induction colors with
  | nil =>
    intro n b _
    exact ⟨n, b, rfl, le_refl n, Or.inl ⟨rfl, rfl⟩, by simp⟩
  | cons c0 rest ih =>
    intro n b hv
    have hc0 : (alookup TLP_order c0).isSome := hv c0 (List.mem_cons_self _ _)
    obtain ⟨k, hk⟩ := Option.isSome_iff_exists.mp hc0
    have hov : orderVal c0 = k := by simp [orderVal, hk]
    have hvrest : ∀ c ∈ rest, (alookup TLP_order c).isSome :=
      fun c hc => hv c (List.mem_cons_of_mem _ hc)
    have hstep : rest.foldl setColorStep (setColorStep (some (n, b)) c0) =
        rest.foldl setColorStep (if k > n then some (k, some c0) else some (n, b)) := by
      simp [setColorStep, hk]
    rw [List.foldl_cons, hstep]
    by_cases hgt : k > n
    · rw [if_pos hgt]
      obtain ⟨n2, b2, heq, hle, hd, hmax⟩ := ih k (some c0) hvrest
      refine ⟨n2, b2, heq, by omega, ?_, ?_⟩
      · rcases hd with ⟨hb, hn⟩ | ⟨c, hb, hc, hn⟩
        · exact Or.inr ⟨c0, hb, List.mem_cons_self _ _, by rw [hn, hov]⟩
        · exact Or.inr ⟨c, hb, List.mem_cons_of_mem _ hc, hn⟩
      · intro c hc
        rcases List.mem_cons.mp hc with rfl | hc
        · rw [hov]; exact hle
        · exact hmax c hc
    · rw [if_neg hgt]
      obtain ⟨n2, b2, heq, hle, hd, hmax⟩ := ih n b hvrest
      refine ⟨n2, b2, heq, hle, ?_, ?_⟩
      · rcases hd with ⟨hb, hn⟩ | ⟨c, hb, hc, hn⟩
        · exact Or.inl ⟨hb, hn⟩
        · exact Or.inr ⟨c, hb, List.mem_cons_of_mem _ hc, hn⟩
      · intro c hc
        rcases List.mem_cons.mp hc with rfl | hc
        · rw [hov]; omega
        · exact hmax c hc

theorem setColor_spec (colors : List String) (hne : colors ≠ [])
    (hv : ∀ c ∈ colors, (alookup TLP_order c).isSome) :
    ∃ c, setColor colors = some c ∧ c ∈ colors ∧ ∀ c2 ∈ colors, orderVal c2 ≤ orderVal c := by
  obtain ⟨n2, b2, heq, _, hd, hmax⟩ := setColor_fold colors 0 none hv
  rcases hd with ⟨hb, hn⟩ | ⟨c, hb, hc, hn⟩
  · exfalso
    obtain ⟨c0, rest, rfl⟩ := List.exists_cons_of_ne_nil hne
    have h1 : 1 ≤ orderVal c0 := orderVal_pos c0 (hv c0 (List.mem_cons_self _ _))
    have h2 : orderVal c0 ≤ n2 := hmax c0 (List.mem_cons_self _ _)
    omega
  · refine ⟨c, ?_, hc, fun c2 h2 => hn ▸ hmax c2 h2⟩
    simp [setColor, heq, hb]

theorem filter_statement_map (l : List String) :
    (l.map MarkingStruct.statement).filter MarkingStruct.isStatement =
      l.map MarkingStruct.statement := by
  induction l with
  | nil => rfl
  | cons a t ih => simp [MarkingStruct.isStatement, ih]

theorem countP_tlp_map_statement (l : List String) :
    (l.map MarkingStruct.statement).countP MarkingStruct.isTlp = 0 := by
  induction l with
  | nil => rfl
  | cons a t ih => simp [List.countP_cons, MarkingStruct.isTlp, ih]

theorem tlp_not_mem_map_statement (c : String) (l : List String) :
    MarkingStruct.tlp c ∉ l.map MarkingStruct.statement := by
  simp

/-- C7: for every non-empty tag list resolved into a handling structure (with
every TLP-prefixed tag carrying a vocabulary color), the result contains at
most one TLP (vocabulary) marking — so no duplicate vocabulary definitions are
minted; the TLP marking's color is a highest-severity color among the
TLP-prefixed tags under the fixed total order; and there is exactly one
statement marking per non-TLP tag, in order. -/
theorem c7_marking_resolution_order (tags : List String) (_hne : tags ≠ [])
    (hv : ∀ t ∈ tags, strStartsWith t "tlp:" = true → (alookup TLP_order (tagColor t)).isSome) :
    ∃ ms, setHandling tags = some ms ∧
      ms.countP MarkingStruct.isTlp ≤ 1 ∧
      ms.filter MarkingStruct.isStatement =
        (tags.filter (fun t => ¬ strStartsWith t "tlp:")).map MarkingStruct.statement ∧
      ∀ c, MarkingStruct.tlp c ∈ ms →
        c ∈ fetchColors (tags.filter (fun t => strStartsWith t "tlp:")) ∧
        ∀ c2 ∈ fetchColors (tags.filter (fun t => strStartsWith t "tlp:")), orderVal c2 ≤ orderVal c := by
  have hset : setHandling tags =
      if (tags.filter (fun t => strStartsWith t "tlp:")).isEmpty then
        some ((tags.filter (fun t => ¬ strStartsWith t "tlp:")).map MarkingStruct.statement)
      else
        match setColor (fetchColors (tags.filter (fun t => strStartsWith t "tlp:"))) with
        | none => none
        | some color =>
          some (MarkingStruct.tlp color ::
            (tags.filter (fun t => ¬ strStartsWith t "tlp:")).map MarkingStruct.statement) := rfl
  by_cases he : (tags.filter (fun t => strStartsWith t "tlp:")).isEmpty
  · rw [hset, if_pos he]
    refine ⟨_, rfl, ?_, filter_statement_map _, ?_⟩
    · rw [countP_tlp_map_statement]; omega
    · intro c hc
      exact absurd hc (tlp_not_mem_map_statement c _)
  · have hne2 : tags.filter (fun t => strStartsWith t "tlp:") ≠ [] := by
      intro h
      rw [h] at he
      exact he rfl
    have hv2 : ∀ c ∈ fetchColors (tags.filter (fun t => strStartsWith t "tlp:")),
        (alookup TLP_order c).isSome := by
      intro c hc
      rcases List.mem_map.mp hc with ⟨t, ht, rfl⟩
      have hm := List.mem_filter.mp ht
      exact hv t hm.1 hm.2
    have hcols : fetchColors (tags.filter (fun t => strStartsWith t "tlp:")) ≠ [] := by
      intro h
      exact hne2 (List.map_eq_nil_iff.mp h)
    obtain ⟨c, hcs, hcmem, hcmax⟩ := setColor_spec _ hcols hv2
    rw [hset, if_neg he, hcs]
    refine ⟨_, rfl, ?_, ?_, ?_⟩
    · rw [List.countP_cons, countP_tlp_map_statement]
      simp [MarkingStruct.isTlp]
    · rw [List.filter_cons]
      have : MarkingStruct.isStatement (MarkingStruct.tlp c) = false := rfl
      rw [this]
      simp only [Bool.false_eq_true, if_false]
      exact filter_statement_map _
    · intro c2 hc2
      rcases List.mem_cons.mp hc2 with hh | hh
      · have : c2 = c := by injection hh
        subst this
        exact ⟨hcmem, hcmax⟩
      · exact absurd hh (tlp_not_mem_map_statement c2 _)

/-- Witness for C7 at the example named by the claim: the tags tlp:green,
tlp:amber and custom-stmt resolve to the amber vocabulary marking plus one
statement marking for custom-stmt. -/
theorem c7_marking_resolution_order_witness :
    (∃ ms, setHandling ["tlp:green", "tlp:amber", "custom-stmt"] = some ms ∧
      ms.countP MarkingStruct.isTlp ≤ 1 ∧
      ms.filter MarkingStruct.isStatement =
        ((["tlp:green", "tlp:amber", "custom-stmt"].filter
          (fun t => ¬ strStartsWith t "tlp:")).map MarkingStruct.statement) ∧
      ∀ c, MarkingStruct.tlp c ∈ ms →
        c ∈ fetchColors (["tlp:green", "tlp:amber", "custom-stmt"].filter
              (fun t => strStartsWith t "tlp:")) ∧
        ∀ c2 ∈ fetchColors (["tlp:green", "tlp:amber", "custom-stmt"].filter
              (fun t => strStartsWith t "tlp:")), orderVal c2 ≤ orderVal c) ∧
    setHandling ["tlp:green", "tlp:amber", "custom-stmt"] =
      some [MarkingStruct.tlp "AMBER", MarkingStruct.statement "custom-stmt"] :=
  ⟨c7_marking_resolution_order ["tlp:green", "tlp:amber", "custom-stmt"]
      (by decide) (by decide),
   by decide⟩

theorem setHandling_isSome (tags : List String)
    (hv : ∀ t ∈ tags, strStartsWith t "tlp:" = true → (alookup TLP_order (tagColor t)).isSome) :
    ∃ ms, setHandling tags = some ms := by
  have hset : setHandling tags =
      if (tags.filter (fun t => strStartsWith t "tlp:")).isEmpty then
        some ((tags.filter (fun t => ¬ strStartsWith t "tlp:")).map MarkingStruct.statement)
      else
        match setColor (fetchColors (tags.filter (fun t => strStartsWith t "tlp:"))) with
        | none => none
        | some color =>
          some (MarkingStruct.tlp color ::
            (tags.filter (fun t => ¬ strStartsWith t "tlp:")).map MarkingStruct.statement) := rfl
  by_cases he : (tags.filter (fun t => strStartsWith t "tlp:")).isEmpty
  · rw [hset, if_pos he]
    exact ⟨_, rfl⟩
  · have hne2 : tags.filter (fun t => strStartsWith t "tlp:") ≠ [] := by
      intro h
      rw [h] at he
      exact he rfl
    have hv2 : ∀ c ∈ fetchColors (tags.filter (fun t => strStartsWith t "tlp:")),
        (alookup TLP_order c).isSome := by
      intro c hc
      rcases List.mem_map.mp hc with ⟨t, ht, rfl⟩
      have hm := List.mem_filter.mp ht
      exact hv t hm.1 hm.2
    have hcols : fetchColors (tags.filter (fun t => strStartsWith t "tlp:")) ≠ [] := by
      intro h
      exact hne2 (List.map_eq_nil_iff.mp h)
    obtain ⟨c, hcs, _, _⟩ := setColor_spec _ hcols hv2
    rw [hset, if_neg he, hcs]
    exact ⟨_, rfl⟩

/-- C6 (amended): converting an attribute whose type is absent from the
type-mapping table — provided the attribute carries no galaxies and each of
its TLP-prefixed tags carries a vocabulary color, so that tag handling raises
no exception — records exactly one coverage warning naming the type, adds
nothing to the error list, and emits a custom entity preserving the raw type
name and value (wrapped as an indicator when to_ids is set, as a bare related
observable otherwise). -/
theorem c6_unmapped_attribute_fallback
    (table : String → Option (Attr1 → Except Unit Observable1)) (ns : String)
    (st : P1State) (a : Attr1)
    (hmiss : table a.atype = none)
    (hgal : a.galaxies = [])
    (htags : ∀ t ∈ a.tags, strStartsWith t "tlp:" = true → (alookup TLP_order (tagColor t)).isSome)
    (hwarn : ("MISP Attribute type " ++ a.atype ++ " not mapped.") ∉ st.warnings) :
    (customAttrObservable ns a).payload = Payload.custom [(a.atype, a.value)] ∧
    (attributeStep table ns st a).errors = st.errors ∧
    (attributeStep table ns st a).warnings =
      st.warnings ++ ["MISP Attribute type " ++ a.atype ++ " not mapped."] ∧
    (a.to_ids = true →
      ∃ ind, (attributeStep table ns st a).relInd = st.relInd ++ [⟨a.category, ind⟩] ∧
        ind.observables = [customAttrObservable ns a] ∧
        (attributeStep table ns st a).relObs = st.relObs) ∧
    (a.to_ids = false →
      (attributeStep table ns st a).relObs =
        st.relObs ++ [⟨a.category, customAttrObservable ns a⟩] ∧
      (attributeStep table ns st a).relInd = st.relInd) := by
  have hmsg : sadd st.warnings ("MISP Attribute type " ++ a.atype ++ " not mapped.") =
      st.warnings ++ ["MISP Attribute type " ++ a.atype ++ " not mapped."] := by
    unfold sadd
    rw [if_neg hwarn]
  by_cases hto : a.to_ids = true
  · by_cases htag0 : a.tags.isEmpty
    · have hstep : attributeStep table ns st a =
          { st with
            relInd := st.relInd ++
              [⟨a.category,
                { createIndicatorFromAttribute ns a with
                  indicatorTypes := [mispIndicatorType a.atype]
                  observables := [customAttrObservable ns a] }⟩]
            warnings := sadd st.warnings ("MISP Attribute type " ++ a.atype ++ " not mapped.") } := by
        simp [attributeStep, hmiss, handleAttribute, handleAttributeTagsAndGalaxies, hgal, hto,
          htag0, createIndicatorFromAttribute]
      rw [hstep]
      refine ⟨rfl, rfl, hmsg, fun _ => ⟨_, rfl, rfl, rfl⟩, fun hf => by rw [hto] at hf; cases hf⟩
    · have htagne : ¬ a.tags.isEmpty = true := htag0
      obtain ⟨ms, hms⟩ := setHandling_isSome a.tags htags
      have hstep : attributeStep table ns st a =
          { st with
            relInd := st.relInd ++
              [⟨a.category,
                { createIndicatorFromAttribute ns a with
                  indicatorTypes := [mispIndicatorType a.atype]
                  observables := [customAttrObservable ns a]
                  handling := some ms }⟩]
            warnings := sadd st.warnings ("MISP Attribute type " ++ a.atype ++ " not mapped.") } := by
        simp [attributeStep, hmiss, handleAttribute, handleAttributeTagsAndGalaxies, hgal, hto,
          htagne, hms, createIndicatorFromAttribute]
      rw [hstep]
      refine ⟨rfl, rfl, hmsg, fun _ => ⟨_, rfl, rfl, rfl⟩, fun hf => by rw [hto] at hf; cases hf⟩
  · have hto2 : a.to_ids = false := by
      cases h : a.to_ids
      · rfl
      · exact absurd h hto
    have hstep : attributeStep table ns st a =
        { st with
          relObs := st.relObs ++ [⟨a.category, customAttrObservable ns a⟩]
          warnings := sadd st.warnings ("MISP Attribute type " ++ a.atype ++ " not mapped.") } := by
      simp [attributeStep, hmiss, handleAttribute, hto2]
    rw [hstep]
    exact ⟨rfl, rfl, hmsg, fun ht => absurd ht (by rw [hto2]; simp), fun _ => ⟨rfl, rfl⟩⟩

/-- Witness for C6 at a concrete unmapped attribute with no tags. -/
theorem c6_unmapped_attribute_fallback_witness :
    (customAttrObservable "MISP" c6Attr).payload = Payload.custom [(c6Attr.atype, c6Attr.value)] ∧
    (attributeStep emptyTable "MISP" initState c6Attr).errors = initState.errors ∧
    (attributeStep emptyTable "MISP" initState c6Attr).warnings =
      initState.warnings ++ ["MISP Attribute type " ++ c6Attr.atype ++ " not mapped."] ∧
    (c6Attr.to_ids = true →
      ∃ ind, (attributeStep emptyTable "MISP" initState c6Attr).relInd =
          initState.relInd ++ [⟨c6Attr.category, ind⟩] ∧
        ind.observables = [customAttrObservable "MISP" c6Attr] ∧
        (attributeStep emptyTable "MISP" initState c6Attr).relObs = initState.relObs) ∧
    (c6Attr.to_ids = false →
      (attributeStep emptyTable "MISP" initState c6Attr).relObs =
        initState.relObs ++ [⟨c6Attr.category, customAttrObservable "MISP" c6Attr⟩] ∧
      (attributeStep emptyTable "MISP" initState c6Attr).relInd = initState.relInd) :=
  c6_unmapped_attribute_fallback emptyTable "MISP" initState c6Attr rfl rfl
    (by decide) (by decide)

/-- Counterexample for C6 as stated: an unmapped-type attribute whose TLP tag
carries a color outside the vocabulary ends up in the error list (the
KeyError raised by `_set_handling` is caught at the per-item boundary), no
warning is recorded, and no custom entity reaches the output. -/
theorem c6_counterexample_error_not_warning :
    (attributeStep emptyTable "MISP" initState
        ⟨"not-mapped-type", "Network activity", "x", "uuid-a", true, ["tlp:bogus"], []⟩).errors =
      ["Error with the not-mapped-type attribute: x."] ∧
    (attributeStep emptyTable "MISP" initState
        ⟨"not-mapped-type", "Network activity", "x", "uuid-a", true, ["tlp:bogus"], []⟩).warnings = [] ∧
    (attributeStep emptyTable "MISP" initState
        ⟨"not-mapped-type", "Network activity", "x", "uuid-a", true, ["tlp:bogus"], []⟩).relInd = [] ∧
    (attributeStep emptyTable "MISP" initState
        ⟨"not-mapped-type", "Network activity", "x", "uuid-a", true, ["tlp:bogus"], []⟩).relObs = [] := by
  decide

/-- C1 evaluation at the failing input: per-item isolation holds in
`_resolve_attributes` (the attribute whose producer raises yields exactly one
error entry naming its type and value, contributes nothing to the output, and
the next attribute is still converted), but fails in `_resolve_objects`,
whose per-item `try/except` is commented out in the source: the exception
raised while converting the first object propagates, no error entry is
recorded, and the second object is never converted. -/
theorem c1_per_item_isolation_eval :
    (resolveAttributes c1Table "MISP" initState [c1Attr1, c1Attr2]).errors
      = [attributeErrorMsg c1Attr1] ∧
    (resolveAttributes c1Table "MISP" initState [c1Attr1, c1Attr2]).relObs
      = [⟨c1Attr2.category, createObservable "MISP" (.produced "AS") c1Attr2.uuid "AS"⟩] ∧
    (resolveAttributes c1Table "MISP" initState [c1Attr1, c1Attr2]).relInd = [] ∧
    resolveObjects c1OTable "MISP" initState [c1Obj1, c1Obj2] = .error initState := by
  decide

/-- C10: `_fetch_ids_flags` returns true exactly when some member attribute
has its to_ids flag set, and an object whose flag is false (whose name is not
skipped and whose producer succeeds) is wired to the incident as a related
observable whose relationship label is the object's meta-category. -/
theorem c10_detection_flag :
    (∀ attrs : List ObjAttr, fetchIdsFlags attrs = true ↔ ∃ a ∈ attrs, a.to_ids = true) ∧
    (∀ (otable : String → Option (MispObj → Except Unit Observable1)) (ns : String)
        (o : MispObj) (st : P1State) (producer : MispObj → Except Unit Observable1)
        (obs : Observable1),
      o.oname ≠ "original-imported-file" →
      otable o.oname = some producer →
      producer o = .ok obs →
      fetchIdsFlags o.attributes = false →
      resolveObjects otable ns st [o] =
        .ok { st with relObs := st.relObs ++ [⟨o.metaCategory, obs⟩] }) := by
  constructor
  · intro attrs
    simp [fetchIdsFlags, List.any_eq_true]
  · intro otable ns o st producer obs hname hprod hok hflag
    simp [resolveObjects, objectStep, hname, hprod, hok, hflag, handleMispObject]

/-- Witness for C10 at a concrete object with no to_ids flag set. -/
theorem c10_detection_flag_witness :
    fetchIdsFlags c1Obj2.attributes = false ∧
    resolveObjects c1OTable "MISP" initState [c1Obj2] =
      .ok { initState with
            relObs := [⟨c1Obj2.metaCategory,
              createObservable "MISP" (.produced "AS") c1Obj2.uuid "AS"⟩] } :=
  ⟨by decide,
   c10_detection_flag.2 c1OTable "MISP" c1Obj2 initState _ _ (by decide) rfl rfl (by decide)⟩

/-! ## Generic lemmas for the cache invariants -/

theorem cacheGrows_refl (st : P1State) : cacheGrows st st :=
  ⟨⟨[], by simp⟩, ⟨[], by simp⟩, ⟨[], by simp⟩⟩

theorem cacheGrows_trans {a b c : P1State} (h1 : cacheGrows a b) (h2 : cacheGrows b c) :
    cacheGrows a c := by
  obtain ⟨⟨e1, he1⟩, ⟨e2, he2⟩, ⟨e3, he3⟩⟩ := h1
  obtain ⟨⟨f1, hf1⟩, ⟨f2, hf2⟩, ⟨f3, hf3⟩⟩ := h2
  exact ⟨⟨e1 ++ f1, by rw [hf1, he1, List.append_assoc]⟩,
         ⟨e2 ++ f2, by rw [hf2, he2, List.append_assoc]⟩,
         ⟨e3 ++ f3, by rw [hf3, he3, List.append_assoc]⟩⟩

theorem nodup_append_single {α : Type} {l : List α} {a : α} (h : l.Nodup) (ha : a ∉ l) :
    (l ++ [a]).Nodup := by
  rw [List.nodup_append]
  refine ⟨h, List.nodup_singleton a, ?_⟩
  intro x hx hxa
  rw [List.mem_singleton.mp hxa] at hx
  exact ha hx

theorem key_notMem_of_alookup_none {α : Type} (l : List (String × α)) (k : String)
    (h : alookup l k = none) : k ∉ l.map Prod.fst := by
  intro hk
  rcases List.mem_map.mp hk with ⟨p, hp, he⟩
  exact forall_of_alookup_none l k h p hp he

theorem alookup_single_self {α : Type} (k : String) (v : α) :
    alookup [(k, v)] k = some v := by
  rw [alookup_cons]
  simp

theorem alookup_replace_other {α : Type} (l : List (String × α)) (k k2 : String) (v : α)
    (h : k2 ≠ k) :
    alookup (l.map (fun p => if p.1 = k then (k, v) else p)) k2 = alookup l k2 := by
  induction l with
  | nil => rfl
  | cons p t ih =>
    rw [List.map_cons, alookup_cons, alookup_cons]
    by_cases hp : p.1 = k
    · have h1 : ((if p.1 = k then (k, v) else p).1 = k2) = False := by
        rw [if_pos hp]
        simp only [eq_iff_iff, iff_false]
        exact fun hh => h hh.symm
      have h2 : ¬ (p.1 = k2) := by
        rw [hp]
        exact fun hh => h hh.symm
      rw [if_neg (by rw [h1]; exact id), if_neg h2]
      exact ih
    · rw [if_neg hp]
      by_cases hq : p.1 = k2
      · rw [if_pos hq, if_pos hq]
      · rw [if_neg hq, if_neg hq]
        exact ih

theorem alookup_map_replace_self {α : Type} (l : List (String × α)) (k : String) (v : α)
    (hs : (alookup l k).isSome) :
    alookup (l.map (fun p => if p.1 = k then (k, v) else p)) k = some v := by
  induction l with
  | nil => simp [alookup] at hs
  | cons p t ih =>
    rw [List.map_cons, alookup_cons]
    by_cases hp : p.1 = k
    · rw [if_pos hp]
      simp
    · rw [if_neg hp, if_neg hp]
      apply ih
      rw [alookup_cons, if_neg hp] at hs
      exact hs

theorem alookup_dinsert_self {α : Type} (l : List (String × α)) (k : String) (v : α) :
    alookup (dinsert l k v) k = some v := by
  unfold dinsert
  by_cases hc : (l.find? (fun p => p.1 = k)).isSome
  · rw [if_pos hc]
    apply alookup_map_replace_self
    unfold alookup
    cases hf : l.find? (fun p => p.1 = k)
    · rw [hf] at hc
      simp at hc
    · simp
  · rw [if_neg hc]
    have hnone : alookup l k = none := by
      unfold alookup
      cases hf : l.find? (fun p => p.1 = k)
      · rfl
      · rw [hf] at hc
        simp at hc
    rw [alookup_append_of_none _ _ _ hnone]
    exact alookup_single_self k v

theorem alookup_dinsert_other {α : Type} (l : List (String × α)) (k k2 : String) (v : α)
    (h : k2 ≠ k) : alookup (dinsert l k v) k2 = alookup l k2 := by
  unfold dinsert
  by_cases hc : (l.find? (fun p => p.1 = k)).isSome
  · rw [if_pos hc]
    exact alookup_replace_other l k k2 v h
  · rw [if_neg hc]
    cases hl : alookup l k2
    · rw [alookup_append_of_none _ _ _ hl, alookup_cons]
      rw [if_neg (fun hh => h hh.symm)]
      rfl
    · rw [alookup_append_of_isSome _ _ _ (by rw [hl]; rfl)]
      exact hl

theorem alookup_dinsert_isSome {α : Type} (l : List (String × α)) (k k2 : String) (v : α)
    (h : (alookup l k2).isSome) : (alookup (dinsert l k v) k2).isSome := by
  by_cases hk : k2 = k
  · rw [hk, alookup_dinsert_self]
    rfl
  · rw [alookup_dinsert_other l k k2 v hk]
    exact h

theorem alookup_append_isSome {α : Type} (l e : List (String × α)) (k : String)
    (h : (alookup l k).isSome) : (alookup (l ++ e) k).isSome := by
  rw [alookup_append_of_isSome l e k h]
  exact h

theorem countP_eq_one_of_nodup_map {α : Type} (f : α → String) (l : List α)
    (hnd : (l.map f).Nodup) {x : α} (hx : x ∈ l) :
    l.countP (fun y => f y == f x) = 1 := by
  induction l with
  | nil => cases hx
  | cons a t ih =>
    rw [List.map_cons, List.nodup_cons] at hnd
    rw [List.countP_cons]
    rcases List.mem_cons.mp hx with rfl | hx
    · have hz : t.countP (fun y => f y == f x) = 0 := by
        rw [List.countP_eq_zero]
        intro y hy
        have : f y ≠ f x := by
          intro he
          exact hnd.1 (he ▸ List.mem_map_of_mem f hy)
        simp [this]
      simp [hz]
    · have hne : (f a == f x) = false := by
        have : f a ≠ f x := by
          intro he
          exact hnd.1 (he ▸ List.mem_map_of_mem f hx)
        simp [this]
      rw [hne, ih hnd.2 hx]
      simp

theorem stInv_init (ns : String) : stInv ns initState := by
  refine ⟨⟨?_, ?_⟩, ⟨?_, ?_⟩, ⟨?_, ?_⟩, ?_, ?_, ?_, ?_⟩ <;> simp [initState]

theorem relTtpOk_mono {st st2 : P1State} (h : ∃ e, st2.ttps = st.ttps ++ e) {rt : RelTTP}
    (hok : relTtpOk st rt) : relTtpOk st2 rt := by
  obtain ⟨e, he⟩ := h
  obtain ⟨u, t, ha, hi⟩ := hok
  refine ⟨u, t, ?_, hi⟩
  rw [he, alookup_append_of_isSome _ _ _ (by rw [ha]; rfl)]
  exact ha

theorem relCoaOk_mono {st st2 : P1State}
    (h : ∃ e, st2.coursesOfAction = st.coursesOfAction ++ e) {rc : RelCOA}
    (hok : relCoaOk st rc) : relCoaOk st2 rc := by
  obtain ⟨e, he⟩ := h
  obtain ⟨u, c, ha, hi⟩ := hok
  refine ⟨u, c, ?_, hi⟩
  rw [he, alookup_append_of_isSome _ _ _ (by rw [ha]; rfl)]
  exact ha

theorem indOk_mono {st st2 : P1State} (hT : ∃ e, st2.ttps = st.ttps ++ e)
    (hC : ∃ e, st2.coursesOfAction = st.coursesOfAction ++ e) {ind : Indicator1}
    (hok : indOk st ind) : indOk st2 ind :=
  ⟨fun rt hrt => relTtpOk_mono hT (hok.1 rt hrt),
   fun rc hrc => relCoaOk_mono hC (hok.2 rc hrc)⟩

/-! ## Specification of the TTP dedup machinery (`_get_related_ttps`) -/

theorem getRelatedTtpsStep_spec (ns gname : String) (cluster : Cluster)
    (rel : List (String × RelTTP)) (ttps : List (String × TTP))
    (hnd : (ttps.map Prod.fst).Nodup)
    (hid : ∀ p ∈ ttps, p.2.id_ = ns ++ ":TTP-" ++ p.1)
    (hrel : ∀ p ∈ rel, ∃ t, alookup ttps p.1 = some t ∧ p.2.idref = t.id_) :
    ∃ e,
      (getRelatedTtpsStep ns gname (rel, ttps) cluster).2 = ttps ++ e ∧
      ((getRelatedTtpsStep ns gname (rel, ttps) cluster).2.map Prod.fst).Nodup ∧
      (∀ p ∈ (getRelatedTtpsStep ns gname (rel, ttps) cluster).2,
        p.2.id_ = ns ++ ":TTP-" ++ p.1) ∧
      (∀ p ∈ (getRelatedTtpsStep ns gname (rel, ttps) cluster).1,
        ∃ t, alookup (getRelatedTtpsStep ns gname (rel, ttps) cluster).2 p.1 = some t ∧
          p.2.idref = t.id_) ∧
      (alookup (getRelatedTtpsStep ns gname (rel, ttps) cluster).1 cluster.uuid).isSome ∧
      (∀ u, (alookup rel u).isSome →
        (alookup (getRelatedTtpsStep ns gname (rel, ttps) cluster).1 u).isSome) := by
  unfold getRelatedTtpsStep
  cases hl : alookup ttps cluster.uuid with
  | some t =>
    simp only [hl]
    refine ⟨[], by simp, hnd, hid, ?_, ?_, ?_⟩
    · intro p hp
      rcases mem_dinsert hp with hp2 | hp2
      · exact hrel p hp2
      · rw [hp2]
        exact ⟨t, hl, rfl⟩
    · rw [alookup_dinsert_self]
      rfl
    · intro u hu
      exact alookup_dinsert_isSome _ _ _ _ hu
  | none =>
    simp only [hl]
    have hnotin : cluster.uuid ∉ ttps.map Prod.fst := key_notMem_of_alookup_none _ _ hl
    refine ⟨[(cluster.uuid,
        parseFeatureGalaxy cluster (createTtpFromGalaxy ns gname cluster.uuid))],
      rfl, ?_, ?_, ?_, ?_, ?_⟩
    · rw [List.map_append]
      exact nodup_append_single hnd (by simpa using hnotin)
    · intro p hp
      rcases List.mem_append.mp hp with hp2 | hp2
      · exact hid p hp2
      · rw [List.mem_singleton.mp hp2]
        rfl
    · intro p hp
      rcases mem_dinsert hp with hp2 | hp2
      · obtain ⟨t, ha, hi⟩ := hrel p hp2
        refine ⟨t, ?_, hi⟩
        rw [alookup_append_of_isSome _ _ _ (by rw [ha]; rfl)]
        exact ha
      · rw [hp2]
        refine ⟨_, ?_, rfl⟩
        rw [alookup_append_of_none _ _ _ hl]
        exact alookup_single_self _ _
    · rw [alookup_dinsert_self]
      rfl
    · intro u hu
      exact alookup_dinsert_isSome _ _ _ _ hu

theorem getRelatedTtps_fold_spec (ns gname : String) (clusters : List Cluster) :
    ∀ (rel : List (String × RelTTP)) (ttps : List (String × TTP)),
      (ttps.map Prod.fst).Nodup →
      (∀ p ∈ ttps, p.2.id_ = ns ++ ":TTP-" ++ p.1) →
      (∀ p ∈ rel, ∃ t, alookup ttps p.1 = some t ∧ p.2.idref = t.id_) →
      ∃ e,
        (clusters.foldl (getRelatedTtpsStep ns gname) (rel, ttps)).2 = ttps ++ e ∧
        ((clusters.foldl (getRelatedTtpsStep ns gname) (rel, ttps)).2.map Prod.fst).Nodup ∧
        (∀ p ∈ (clusters.foldl (getRelatedTtpsStep ns gname) (rel, ttps)).2,
          p.2.id_ = ns ++ ":TTP-" ++ p.1) ∧
        (∀ p ∈ (clusters.foldl (getRelatedTtpsStep ns gname) (rel, ttps)).1,
          ∃ t, alookup (clusters.foldl (getRelatedTtpsStep ns gname) (rel, ttps)).2 p.1 =
              some t ∧ p.2.idref = t.id_) ∧
        (∀ c ∈ clusters,
          (alookup (clusters.foldl (getRelatedTtpsStep ns gname) (rel, ttps)).1 c.uuid).isSome) ∧
        (∀ u, (alookup rel u).isSome →
          (alookup (clusters.foldl (getRelatedTtpsStep ns gname) (rel, ttps)).1 u).isSome) := by
  induction clusters with
  | nil =>
    intro rel ttps h1 h2 h3
    exact ⟨[], by simp, h1, h2, h3, by simp, fun u hu => hu⟩
  | cons c cs ih =>
    intro rel ttps h1 h2 h3
    obtain ⟨e1, he1, hn1, hi1, hr1, hp1, hk1⟩ :=
      getRelatedTtpsStep_spec ns gname c rel ttps h1 h2 h3
    obtain ⟨e2, he2, hn2, hi2, hr2, hp2, hk2⟩ :=
      ih (getRelatedTtpsStep ns gname (rel, ttps) c).1
         (getRelatedTtpsStep ns gname (rel, ttps) c).2 hn1 hi1 hr1
    rw [List.foldl_cons]
    refine ⟨e1 ++ e2, ?_, hn2, hi2, hr2, ?_, ?_⟩
    · rw [he2, he1, List.append_assoc]
    · intro c2 hc2
      rcases List.mem_cons.mp hc2 with rfl | hc2
      · exact hk2 c2.uuid hp1
      · exact hp2 c2 hc2
    · intro u hu
      exact hk2 u (hk1 u hu)

/-! ## Specification of the course-of-action dedup machinery -/

theorem coaAttrStep_spec (ns gname : String) (cluster : Cluster) (ind : Indicator1)
    (coas : List (String × COA))
    (hnd : (coas.map Prod.fst).Nodup)
    (hid : ∀ p ∈ coas, p.2.id_ = ns ++ ":CourseOfAction-" ++ p.1)
    (hsc : ∀ rc ∈ ind.suggestedCoas, ∃ u c, alookup coas u = some c ∧ rc.idref = c.id_) :
    ∃ e,
      (coaAttrStep ns gname (ind, coas) cluster).2 = coas ++ e ∧
      ((coaAttrStep ns gname (ind, coas) cluster).2.map Prod.fst).Nodup ∧
      (∀ p ∈ (coaAttrStep ns gname (ind, coas) cluster).2,
        p.2.id_ = ns ++ ":CourseOfAction-" ++ p.1) ∧
      (coaAttrStep ns gname (ind, coas) cluster).1.indicatedTtps = ind.indicatedTtps ∧
      (∀ rc ∈ (coaAttrStep ns gname (ind, coas) cluster).1.suggestedCoas,
        ∃ u c, alookup (coaAttrStep ns gname (ind, coas) cluster).2 u = some c ∧
          rc.idref = c.id_) := by
  unfold coaAttrStep
  cases hl : alookup coas cluster.uuid with
  | some coa =>
    simp only [hl]
    refine ⟨[], by simp, hnd, hid, by trivial, ?_⟩
    intro rc hrc
    rcases List.mem_append.mp hrc with hrc2 | hrc2
    · exact hsc rc hrc2
    · rw [List.mem_singleton.mp hrc2]
      exact ⟨cluster.uuid, coa, hl, rfl⟩
  | none =>
    simp only [hl]
    have hnotin : cluster.uuid ∉ coas.map Prod.fst := key_notMem_of_alookup_none _ _ hl
    refine ⟨[(cluster.uuid, createCoaFromGalaxy ns cluster)], rfl, ?_, ?_, by trivial, ?_⟩
    · rw [List.map_append]
      exact nodup_append_single hnd (by simpa using hnotin)
    · intro p hp
      rcases List.mem_append.mp hp with hp2 | hp2
      · exact hid p hp2
      · rw [List.mem_singleton.mp hp2]
        rfl
    · intro rc hrc
      rcases List.mem_append.mp hrc with hrc2 | hrc2
      · obtain ⟨u, c, ha, hi⟩ := hsc rc hrc2
        refine ⟨u, c, ?_, hi⟩
        rw [alookup_append_of_isSome _ _ _ (by rw [ha]; rfl)]
        exact ha
      · rw [List.mem_singleton.mp hrc2]
        refine ⟨cluster.uuid, createCoaFromGalaxy ns cluster, ?_, rfl⟩
        rw [alookup_append_of_none _ _ _ hl]
        exact alookup_single_self _ _

theorem coaAttr_fold_spec (ns gname : String) (clusters : List Cluster) :
    ∀ (ind : Indicator1) (coas : List (String × COA)),
      (coas.map Prod.fst).Nodup →
      (∀ p ∈ coas, p.2.id_ = ns ++ ":CourseOfAction-" ++ p.1) →
      (∀ rc ∈ ind.suggestedCoas, ∃ u c, alookup coas u = some c ∧ rc.idref = c.id_) →
      ∃ e,
        (clusters.foldl (coaAttrStep ns gname) (ind, coas)).2 = coas ++ e ∧
        ((clusters.foldl (coaAttrStep ns gname) (ind, coas)).2.map Prod.fst).Nodup ∧
        (∀ p ∈ (clusters.foldl (coaAttrStep ns gname) (ind, coas)).2,
          p.2.id_ = ns ++ ":CourseOfAction-" ++ p.1) ∧
        (clusters.foldl (coaAttrStep ns gname) (ind, coas)).1.indicatedTtps =
          ind.indicatedTtps ∧
        (∀ rc ∈ (clusters.foldl (coaAttrStep ns gname) (ind, coas)).1.suggestedCoas,
          ∃ u c, alookup (clusters.foldl (coaAttrStep ns gname) (ind, coas)).2 u = some c ∧
            rc.idref = c.id_) := by
  induction clusters with
  | nil =>
    intro ind coas h1 h2 h3
    exact ⟨[], by simp, h1, h2, rfl, h3⟩
  | cons c cs ih =>
    intro ind coas h1 h2 h3
    obtain ⟨e1, he1, hn1, hi1, ht1, hs1⟩ := coaAttrStep_spec ns gname c ind coas h1 h2 h3
    obtain ⟨e2, he2, hn2, hi2, ht2, hs2⟩ :=
      ih (coaAttrStep ns gname (ind, coas) c).1 (coaAttrStep ns gname (ind, coas) c).2
        hn1 hi1 hs1
    rw [List.foldl_cons]
    refine ⟨e1 ++ e2, ?_, hn2, hi2, ?_, hs2⟩
    · rw [he2, he1, List.append_assoc]
    · rw [ht2, ht1]

/-! ## The attribute-scope galaxy dispatch preserves the invariant -/

theorem getRelatedTtps_spec (ns : String) (g : Galaxy) (ttps : List (String × TTP))
    (hnd : (ttps.map Prod.fst).Nodup)
    (hid : ∀ p ∈ ttps, p.2.id_ = ns ++ ":TTP-" ++ p.1) :
    ∃ e, (getRelatedTtps ns g ttps).2 = ttps ++ e ∧
      ((getRelatedTtps ns g ttps).2.map Prod.fst).Nodup ∧
      (∀ p ∈ (getRelatedTtps ns g ttps).2, p.2.id_ = ns ++ ":TTP-" ++ p.1) ∧
      (∀ p ∈ (getRelatedTtps ns g ttps).1,
        ∃ t, alookup (getRelatedTtps ns g ttps).2 p.1 = some t ∧ p.2.idref = t.id_) ∧
      (∀ c ∈ g.clusters, (alookup (getRelatedTtps ns g ttps).1 c.uuid).isSome) := by
  obtain ⟨e, h1, h2, h3, h4, h5, _⟩ :=
    getRelatedTtps_fold_spec ns g.gname g.clusters [] ttps hnd hid (by intro p hp; cases hp)
  exact ⟨e, h1, h2, h3, h4, h5⟩

theorem parseCoaAttributeGalaxy_spec (ns : String) (g : Galaxy) (ind : Indicator1)
    (coas : List (String × COA))
    (hnd : (coas.map Prod.fst).Nodup)
    (hid : ∀ p ∈ coas, p.2.id_ = ns ++ ":CourseOfAction-" ++ p.1)
    (hsc : ∀ rc ∈ ind.suggestedCoas, ∃ u c, alookup coas u = some c ∧ rc.idref = c.id_) :
    ∃ e,
      (parseCoaAttributeGalaxy ns g ind coas).2 = coas ++ e ∧
      ((parseCoaAttributeGalaxy ns g ind coas).2.map Prod.fst).Nodup ∧
      (∀ p ∈ (parseCoaAttributeGalaxy ns g ind coas).2,
        p.2.id_ = ns ++ ":CourseOfAction-" ++ p.1) ∧
      (parseCoaAttributeGalaxy ns g ind coas).1.indicatedTtps = ind.indicatedTtps ∧
      (∀ rc ∈ (parseCoaAttributeGalaxy ns g ind coas).1.suggestedCoas,
        ∃ u c, alookup (parseCoaAttributeGalaxy ns g ind coas).2 u = some c ∧
          rc.idref = c.id_) :=
  coaAttr_fold_spec ns g.gname g.clusters ind coas hnd hid hsc

theorem handleAttributeGalaxy_spec (ns atype : String) (g : Galaxy) (ind : Indicator1)
    (st : P1State) (hinv : stInv ns st) (hind : indOk st ind) :
    (∀ st1, handleAttributeGalaxy ns atype g ind st = .error st1 →
      stInv ns st1 ∧ cacheGrows st st1 ∧ st1.ctxTtps = st.ctxTtps) ∧
    (∀ names ind1 st1, handleAttributeGalaxy ns atype g ind st = .ok (names, ind1, st1) →
      stInv ns st1 ∧ cacheGrows st st1 ∧ indOk st1 ind1 ∧ st1.ctxTtps = st.ctxTtps) := by
  obtain ⟨⟨hTn, hTi⟩, ⟨hCn, hCi⟩, ⟨hAn, hAi⟩, hRel, hXT, hXC, hXA⟩ := hinv
  unfold handleAttributeGalaxy
  cases hm : galaxyTypesMapping g.gtype with
  | none =>
    simp only []
    constructor
    · intro st1 h
      cases h
    · intro names ind1 st1 h
      cases h
      exact ⟨⟨⟨hTn, hTi⟩, ⟨hCn, hCi⟩, ⟨hAn, hAi⟩, hRel, hXT, hXC, hXA⟩,
        cacheGrows_refl st, hind, rfl⟩
  | some k =>
    cases k with
    | ttpKind f =>
      simp only []
      obtain ⟨e1, he1, hn1, hi1, hr1, hp1⟩ := getRelatedTtps_spec ns g st.ttps hTn hTi
      constructor
      · intro st1 h
        cases h
      · intro names ind1 st1 h
        cases h
        have hgrow : cacheGrows st { st with ttps := (getRelatedTtps ns g st.ttps).2 } :=
          ⟨⟨e1, he1⟩, ⟨[], by simp⟩, ⟨[], by simp⟩⟩
        refine ⟨?_, hgrow, ?_, rfl⟩
        · refine ⟨⟨hn1, hi1⟩, ⟨hCn, hCi⟩, ⟨hAn, hAi⟩, ?_, ?_, hXC, hXA⟩
          · intro ri hri
            exact indOk_mono ⟨e1, he1⟩ ⟨[], by simp⟩ (hRel ri hri)
          · intro p hp
            obtain ⟨t, ha, hi⟩ := hXT p hp
            refine ⟨t, ?_, hi⟩
            show alookup (getRelatedTtps ns g st.ttps).2 p.1 = some t
            rw [he1, alookup_append_of_isSome _ _ _ (by rw [ha]; rfl)]
            exact ha
        · constructor
          · intro rt hrt
            rcases List.mem_append.mp hrt with hrt2 | hrt2
            · exact relTtpOk_mono ⟨e1, he1⟩ (hind.1 rt hrt2)
            · rcases List.mem_map.mp hrt2 with ⟨p, hp, he⟩
              obtain ⟨t, ha, hi⟩ := hr1 p hp
              exact ⟨p.1, t, ha, he ▸ hi⟩
          · intro rc hrc
            exact relCoaOk_mono ⟨[], by simp⟩ (hind.2 rc hrc)
    | coaKind =>
      simp only []
      obtain ⟨e1, he1, hn1, hi1, ht1, hs1⟩ :=
        parseCoaAttributeGalaxy_spec ns g ind st.coursesOfAction hCn hCi hind.2
      constructor
      · intro st1 h
        cases h
      · intro names ind1 st1 h
        cases h
        have hgrow : cacheGrows st
            { st with coursesOfAction := (parseCoaAttributeGalaxy ns g ind st.coursesOfAction).2 } :=
          ⟨⟨[], by simp⟩, ⟨e1, he1⟩, ⟨[], by simp⟩⟩
        refine ⟨?_, hgrow, ?_, rfl⟩
        · refine ⟨⟨hTn, hTi⟩, ⟨hn1, hi1⟩, ⟨hAn, hAi⟩, ?_, hXT, ?_, hXA⟩
          · intro ri hri
            exact indOk_mono ⟨[], by simp⟩ ⟨e1, he1⟩ (hRel ri hri)
          · intro p hp
            obtain ⟨c, ha, hi⟩ := hXC p hp
            refine ⟨c, ?_, hi⟩
            show alookup (parseCoaAttributeGalaxy ns g ind st.coursesOfAction).2 p.1 = some c
            rw [he1, alookup_append_of_isSome _ _ _ (by rw [ha]; rfl)]
            exact ha
        · constructor
          · intro rt hrt
            rw [ht1] at hrt
            exact relTtpOk_mono ⟨[], by simp⟩ (hind.1 rt hrt)
          · intro rc hrc
            exact hs1 rc hrc
    | taKind =>
      simp only []
      constructor
      · intro st1 h
        cases h
        exact ⟨⟨⟨hTn, hTi⟩, ⟨hCn, hCi⟩, ⟨hAn, hAi⟩, hRel, hXT, hXC, hXA⟩,
          cacheGrows_refl st, rfl⟩
      · intro names ind1 st1 h
        cases h

theorem attrGalaxies_fold_error_absorb (ns atype : String) (gs : List Galaxy) (e : P1State) :
    gs.foldl (attrGalaxyStep ns atype) (.error e) = .error e := by
  induction gs with
  | nil => rfl
  | cons g t ih =>
    rw [List.foldl_cons]
    exact ih

theorem attrGalaxies_fold_spec (ns atype : String) (gs : List Galaxy) :
    ∀ (names : List String) (ind : Indicator1) (st : P1State),
      stInv ns st → indOk st ind →
      (∀ st1, gs.foldl (attrGalaxyStep ns atype) (.ok (names, ind, st)) = .error st1 →
        stInv ns st1 ∧ cacheGrows st st1 ∧ st1.ctxTtps = st.ctxTtps) ∧
      (∀ names1 ind1 st1,
        gs.foldl (attrGalaxyStep ns atype) (.ok (names, ind, st)) = .ok (names1, ind1, st1) →
        stInv ns st1 ∧ cacheGrows st st1 ∧ indOk st1 ind1 ∧ st1.ctxTtps = st.ctxTtps) := by
  induction gs with
  | nil =>
    intro names ind st hinv hind
    constructor
    · intro st1 h
      cases h
    · intro names1 ind1 st1 h
      cases h
      exact ⟨hinv, cacheGrows_refl st, hind, rfl⟩
  | cons g t ih =>
    intro names ind st hinv hind
    rw [List.foldl_cons]
    have hstep : attrGalaxyStep ns atype (.ok (names, ind, st)) g =
        match handleAttributeGalaxy ns atype g ind st with
        | .error st1 => .error st1
        | .ok (names2, ind2, st2) => .ok (names ++ names2, ind2, st2) := rfl
    cases hg : handleAttributeGalaxy ns atype g ind st with
    | error st2 =>
      obtain ⟨hinv2, hgrow2, hctx2⟩ := (handleAttributeGalaxy_spec ns atype g ind st hinv hind).1 st2 hg
      rw [hstep, hg]
      constructor
      · intro st1 h
        rw [attrGalaxies_fold_error_absorb] at h
        cases h
        exact ⟨hinv2, hgrow2, hctx2⟩
      · intro names1 ind1 st1 h
        rw [attrGalaxies_fold_error_absorb] at h
        cases h
    | ok r =>
      obtain ⟨names2, ind2, st2⟩ := r
      obtain ⟨hinv2, hgrow2, hind2, hctx2⟩ :=
        (handleAttributeGalaxy_spec ns atype g ind st hinv hind).2 names2 ind2 st2 hg
      rw [hstep, hg]
      constructor
      · intro st1 h
        obtain ⟨hinv3, hgrow3, hctx3⟩ := (ih (names ++ names2) ind2 st2 hinv2 hind2).1 st1 h
        exact ⟨hinv3, cacheGrows_trans hgrow2 hgrow3, by rw [hctx3, hctx2]⟩
      · intro names1 ind1 st1 h
        obtain ⟨hinv3, hgrow3, hind3, hctx3⟩ :=
          (ih (names ++ names2) ind2 st2 hinv2 hind2).2 names1 ind1 st1 h
        exact ⟨hinv3, cacheGrows_trans hgrow2 hgrow3, hind3, by rw [hctx3, hctx2]⟩

theorem handleAttributeTagsAndGalaxies_spec (ns : String) (a : Attr1) (ind : Indicator1)
    (st : P1State) (hinv : stInv ns st) (hind : indOk st ind) :
    (∀ st1, handleAttributeTagsAndGalaxies ns a ind st = .error st1 →
      stInv ns st1 ∧ cacheGrows st st1 ∧ st1.ctxTtps = st.ctxTtps) ∧
    (∀ tags1 ind1 st1, handleAttributeTagsAndGalaxies ns a ind st = .ok (tags1, ind1, st1) →
      stInv ns st1 ∧ cacheGrows st st1 ∧ indOk st1 ind1 ∧ st1.ctxTtps = st.ctxTtps) := by
  unfold handleAttributeTagsAndGalaxies
  by_cases hgal : a.galaxies.isEmpty
  · rw [if_pos hgal]
    constructor
    · intro st1 h
      cases h
    · intro tags1 ind1 st1 h
      cases h
      exact ⟨hinv, cacheGrows_refl st, hind, rfl⟩
  · rw [if_neg hgal]
    cases hf : a.galaxies.foldl (attrGalaxyStep ns a.atype) (.ok ([], ind, st)) with
    | error st2 =>
      obtain ⟨hinv2, hgrow2, hctx2⟩ := (attrGalaxies_fold_spec ns a.atype a.galaxies [] ind st hinv hind).1 st2 hf
      constructor
      · intro st1 h
        cases h
        exact ⟨hinv2, hgrow2, hctx2⟩
      · intro tags1 ind1 st1 h
        cases h
    | ok r =>
      obtain ⟨names2, ind2, st2⟩ := r
      obtain ⟨hinv2, hgrow2, hind2, hctx2⟩ :=
        (attrGalaxies_fold_spec ns a.atype a.galaxies [] ind st hinv hind).2 names2 ind2 st2 hf
      constructor
      · intro st1 h
        cases h
      · intro tags1 ind1 st1 h
        cases h
        exact ⟨hinv2, hgrow2, hind2, hctx2⟩

theorem handleAttribute_spec (ns : String) (a : Attr1) (obs : Observable1) (st : P1State)
    (hinv : stInv ns st) :
    (∀ st1, handleAttribute ns a obs st = .error st1 →
      stInv ns st1 ∧ cacheGrows st st1 ∧ st1.ctxTtps = st.ctxTtps) ∧
    (∀ st1, handleAttribute ns a obs st = .ok st1 →
      stInv ns st1 ∧ cacheGrows st st1 ∧ st1.ctxTtps = st.ctxTtps) := by
  unfold handleAttribute
  cases hto : a.to_ids with
  | false =>
    simp only [Bool.false_eq_true, if_false]
    constructor
    · intro st1 h
      cases h
    · intro st1 h
      cases h
      obtain ⟨hT, hC, hA, hRel, hXT, hXC, hXA⟩ := hinv
      exact ⟨⟨hT, hC, hA, hRel, hXT, hXC, hXA⟩, cacheGrows_refl st, rfl⟩
  | true =>
    simp only [if_true]
    have hind1 : indOk st
        { createIndicatorFromAttribute ns a with
          indicatorTypes := (createIndicatorFromAttribute ns a).indicatorTypes ++
            [mispIndicatorType a.atype]
          observables := (createIndicatorFromAttribute ns a).observables ++ [obs] } := by
      constructor
      · intro rt hrt
        cases hrt
      · intro rc hrc
        cases hrc
    cases htg : handleAttributeTagsAndGalaxies ns a
        { createIndicatorFromAttribute ns a with
          indicatorTypes := (createIndicatorFromAttribute ns a).indicatorTypes ++
            [mispIndicatorType a.atype]
          observables := (createIndicatorFromAttribute ns a).observables ++ [obs] } st with
    | error st2 =>
      obtain ⟨hinv2, hgrow2, hctx2⟩ :=
        (handleAttributeTagsAndGalaxies_spec ns a _ st hinv hind1).1 st2 htg
      constructor
      · intro st1 h
        cases h
        exact ⟨hinv2, hgrow2, hctx2⟩
      · intro st1 h
        cases h
    | ok r =>
      obtain ⟨tags2, ind2, st2⟩ := r
      obtain ⟨hinv2, hgrow2, hind2, hctx2⟩ :=
        (handleAttributeTagsAndGalaxies_spec ns a _ st hinv hind1).2 tags2 ind2 st2 htg
      obtain ⟨hT2, hC2, hA2, hRel2, hXT2, hXC2, hXA2⟩ := hinv2
      by_cases htags : tags2.isEmpty
      · simp only [htags, if_true]
        constructor
        · intro st1 h
          cases h
        · intro st1 h
          cases h
          refine ⟨⟨hT2, hC2, hA2, ?_, hXT2, hXC2, hXA2⟩, hgrow2, hctx2⟩
          intro ri hri
          rcases List.mem_append.mp hri with hri2 | hri2
          · exact hRel2 ri hri2
          · rw [List.mem_singleton.mp hri2]
            exact hind2
      · simp only [htags, if_false]
        cases hsh : setHandling tags2 with
        | none =>
          constructor
          · intro st1 h
            cases h
            exact ⟨⟨hT2, hC2, hA2, hRel2, hXT2, hXC2, hXA2⟩, hgrow2, hctx2⟩
          · intro st1 h
            cases h
        | some hml =>
          constructor
          · intro st1 h
            cases h
          · intro st1 h
            cases h
            refine ⟨⟨hT2, hC2, hA2, ?_, hXT2, hXC2, hXA2⟩, hgrow2, hctx2⟩
            intro ri hri
            rcases List.mem_append.mp hri with hri2 | hri2
            · exact hRel2 ri hri2
            · rw [List.mem_singleton.mp hri2]
              exact hind2

theorem attributeStep_spec (table : String → Option (Attr1 → Except Unit Observable1))
    (ns : String) (st : P1State) (a : Attr1) (hinv : stInv ns st) :
    stInv ns (attributeStep table ns st a) ∧ cacheGrows st (attributeStep table ns st a) ∧
    (attributeStep table ns st a).ctxTtps = st.ctxTtps := by
  unfold attributeStep
  cases ht : table a.atype with
  | some producer =>
    simp only []
    cases hp : producer a with
    | error u =>
      simp only []
      obtain ⟨hT, hC, hA, hRel, hXT, hXC, hXA⟩ := hinv
      exact ⟨⟨hT, hC, hA, hRel, hXT, hXC, hXA⟩, cacheGrows_refl st, by trivial⟩
    | ok obs =>
      simp only []
      cases hh : handleAttribute ns a obs st with
      | error st2 =>
        obtain ⟨hinv2, hgrow2, hctx2⟩ := (handleAttribute_spec ns a obs st hinv).1 st2 hh
        obtain ⟨hT2, hC2, hA2, hRel2, hXT2, hXC2, hXA2⟩ := hinv2
        exact ⟨⟨hT2, hC2, hA2, hRel2, hXT2, hXC2, hXA2⟩, hgrow2, hctx2⟩
      | ok st2 =>
        exact (handleAttribute_spec ns a obs st hinv).2 st2 hh
  | none =>
    simp only []
    cases hh : handleAttribute ns a (customAttrObservable ns a) st with
    | error st2 =>
      obtain ⟨hinv2, hgrow2, hctx2⟩ :=
        (handleAttribute_spec ns a (customAttrObservable ns a) st hinv).1 st2 hh
      obtain ⟨hT2, hC2, hA2, hRel2, hXT2, hXC2, hXA2⟩ := hinv2
      exact ⟨⟨hT2, hC2, hA2, hRel2, hXT2, hXC2, hXA2⟩, hgrow2, hctx2⟩
    | ok st2 =>
      obtain ⟨hinv2, hgrow2, hctx2⟩ :=
        (handleAttribute_spec ns a (customAttrObservable ns a) st hinv).2 st2 hh
      obtain ⟨hT2, hC2, hA2, hRel2, hXT2, hXC2, hXA2⟩ := hinv2
      exact ⟨⟨hT2, hC2, hA2, hRel2, hXT2, hXC2, hXA2⟩, hgrow2, hctx2⟩

theorem resolveAttributes_spec (table : String → Option (Attr1 → Except Unit Observable1))
    (ns : String) (attrs : List Attr1) :
    ∀ st, stInv ns st →
      stInv ns (resolveAttributes table ns st attrs) ∧
      cacheGrows st (resolveAttributes table ns st attrs) ∧
      (resolveAttributes table ns st attrs).ctxTtps = st.ctxTtps := by
  induction attrs with
  | nil =>
    intro st hinv
    exact ⟨hinv, cacheGrows_refl st, rfl⟩
  | cons a t ih =>
    intro st hinv
    obtain ⟨hinv1, hgrow1, hctx1⟩ := attributeStep_spec table ns st a hinv
    obtain ⟨hinv2, hgrow2, hctx2⟩ := ih (attributeStep table ns st a) hinv1
    refine ⟨hinv2, cacheGrows_trans hgrow1 hgrow2, ?_⟩
    rw [show resolveAttributes table ns st (a :: t) =
      resolveAttributes table ns (attributeStep table ns st a) t from rfl]
    rw [hctx2, hctx1]

/-! ## The object pipeline preserves the invariant and leaves the caches alone -/

theorem objectStep_spec (otable : String → Option (MispObj → Except Unit Observable1))
    (ns : String) (st : P1State) (o : MispObj) (hinv : stInv ns st) :
    (∀ st1, objectStep otable ns (.ok st) o = .error st1 →
      stInv ns st1 ∧ st1.ttps = st.ttps ∧ st1.coursesOfAction = st.coursesOfAction ∧
      st1.threatActors = st.threatActors ∧ st1.ctxTtps = st.ctxTtps) ∧
    (∀ st1, objectStep otable ns (.ok st) o = .ok st1 →
      stInv ns st1 ∧ st1.ttps = st.ttps ∧ st1.coursesOfAction = st.coursesOfAction ∧
      st1.threatActors = st.threatActors ∧ st1.ctxTtps = st.ctxTtps) := by
  obtain ⟨hT, hC, hA, hRel, hXT, hXC, hXA⟩ := hinv
  unfold objectStep
  by_cases hname : o.oname = "original-imported-file"
  · simp only [hname, if_true]
    constructor
    · intro st1 h
      cases h
    · intro st1 h
      cases h
      exact ⟨⟨hT, hC, hA, hRel, hXT, hXC, hXA⟩, rfl, rfl, rfl, rfl⟩
  · simp only [hname, if_false]
    cases ho : otable o.oname with
    | some producer =>
      simp only []
      cases hp : producer o with
      | error u =>
        simp only []
        constructor
        · intro st1 h
          cases h
          exact ⟨⟨hT, hC, hA, hRel, hXT, hXC, hXA⟩, rfl, rfl, rfl, rfl⟩
        · intro st1 h
          cases h
      | ok obs =>
        simp only []
        constructor
        · intro st1 h
          cases h
        · intro st1 h
          cases h
          by_cases hids : fetchIdsFlags o.attributes
          · simp only [hids, if_true]
            refine ⟨⟨hT, hC, hA, ?_, hXT, hXC, hXA⟩, rfl, rfl, rfl, rfl⟩
            intro ri hri
            rcases List.mem_append.mp hri with hri2 | hri2
            · exact hRel ri hri2
            · rw [List.mem_singleton.mp hri2]
              constructor
              · intro rt hrt
                cases hrt
              · intro rc hrc
                cases hrc
          · simp only [hids, if_false]
            exact ⟨⟨hT, hC, hA, hRel, hXT, hXC, hXA⟩, rfl, rfl, rfl, rfl⟩
    | none =>
      simp only []
      constructor
      · intro st1 h
        cases h
      · intro st1 h
        cases h
        by_cases hids : fetchIdsFlags o.attributes
        · simp only [hids, if_true]
          refine ⟨⟨hT, hC, hA, ?_, hXT, hXC, hXA⟩, rfl, rfl, rfl, rfl⟩
          intro ri hri
          rcases List.mem_append.mp hri with hri2 | hri2
          · exact hRel ri hri2
          · rw [List.mem_singleton.mp hri2]
            constructor
            · intro rt hrt
              cases hrt
            · intro rc hrc
              cases hrc
        · simp only [hids, if_false]
          exact ⟨⟨hT, hC, hA, hRel, hXT, hXC, hXA⟩, rfl, rfl, rfl, rfl⟩

theorem objects_fold_error_absorb (otable : String → Option (MispObj → Except Unit Observable1))
    (ns : String) (objs : List MispObj) (e : P1State) :
    objs.foldl (objectStep otable ns) (.error e) = .error e := by
  induction objs with
  | nil => rfl
  | cons o t ih =>
    rw [List.foldl_cons]
    exact ih

theorem resolveObjects_spec (otable : String → Option (MispObj → Except Unit Observable1))
    (ns : String) (objs : List MispObj) :
    ∀ st, stInv ns st →
      (∀ st1, resolveObjects otable ns st objs = .error st1 →
        stInv ns st1 ∧ st1.ttps = st.ttps ∧ st1.coursesOfAction = st.coursesOfAction ∧
        st1.threatActors = st.threatActors ∧ st1.ctxTtps = st.ctxTtps) ∧
      (∀ st1, resolveObjects otable ns st objs = .ok st1 →
        stInv ns st1 ∧ st1.ttps = st.ttps ∧ st1.coursesOfAction = st.coursesOfAction ∧
        st1.threatActors = st.threatActors ∧ st1.ctxTtps = st.ctxTtps) := by
  induction objs with
  | nil =>
    intro st hinv
    constructor
    · intro st1 h
      cases h
    · intro st1 h
      cases h
      exact ⟨hinv, rfl, rfl, rfl, rfl⟩
  | cons o t ih =>
    intro st hinv
    have hre : resolveObjects otable ns st (o :: t) =
        t.foldl (objectStep otable ns) (objectStep otable ns (.ok st) o) := rfl
    cases hs : objectStep otable ns (.ok st) o with
    | error st2 =>
      obtain ⟨hinv2, h1, h2, h3, h4⟩ := (objectStep_spec otable ns st o hinv).1 st2 hs
      rw [hre, hs, objects_fold_error_absorb]
      constructor
      · intro st1 h
        cases h
        exact ⟨hinv2, h1, h2, h3, h4⟩
      · intro st1 h
        cases h
    | ok st2 =>
      obtain ⟨hinv2, h1, h2, h3, h4⟩ := (objectStep_spec otable ns st o hinv).2 st2 hs
      rw [hre, hs]
      have hrt : t.foldl (objectStep otable ns) (Except.ok st2) = resolveObjects otable ns st2 t :=
        rfl
      rw [hrt]
      constructor
      · intro st1 h
        obtain ⟨hinv3, g1, g2, g3, g4⟩ := (ih st2 hinv2).1 st1 h
        exact ⟨hinv3, by rw [g1, h1], by rw [g2, h2], by rw [g3, h3], by rw [g4, h4]⟩
      · intro st1 h
        obtain ⟨hinv3, g1, g2, g3, g4⟩ := (ih st2 hinv2).2 st1 h
        exact ⟨hinv3, by rw [g1, h1], by rw [g2, h2], by rw [g3, h3], by rw [g4, h4]⟩

/-! ## Event-scope galaxy handling preserves the invariant -/

theorem ctxTtpStep_append (ctx : List (String × RelTTP)) (p : String × RelTTP) :
    ∃ e, ctxTtpStep ctx p = ctx ++ e := by
  unfold ctxTtpStep
  by_cases hc : (alookup ctx p.1).isSome
  · rw [if_pos hc]
    exact ⟨[], by simp⟩
  · rw [if_neg hc]
    exact ⟨[p], rfl⟩

theorem handleRelatedTtps_append (related : List (String × RelTTP)) :
    ∀ ctx, ∃ e, handleRelatedTtps related ctx = ctx ++ e := by
  induction related with
  | nil =>
    intro ctx
    exact ⟨[], by simp [handleRelatedTtps]⟩
  | cons p t ih =>
    intro ctx
    have hre : handleRelatedTtps (p :: t) ctx = handleRelatedTtps t (ctxTtpStep ctx p) := rfl
    obtain ⟨e1, he1⟩ := ctxTtpStep_append ctx p
    obtain ⟨e2, he2⟩ := ih (ctxTtpStep ctx p)
    exact ⟨e1 ++ e2, by rw [hre, he2, he1, List.append_assoc]⟩

theorem handleRelatedTtps_mem (related : List (String × RelTTP)) :
    ∀ ctx p, p ∈ handleRelatedTtps related ctx → p ∈ ctx ∨ p ∈ related := by
  induction related with
  | nil =>
    intro ctx p hp
    exact Or.inl hp
  | cons q t ih =>
    intro ctx p hp
    have hre : handleRelatedTtps (q :: t) ctx = handleRelatedTtps t (ctxTtpStep ctx q) := rfl
    rw [hre] at hp
    rcases ih (ctxTtpStep ctx q) p hp with hp2 | hp2
    · unfold ctxTtpStep at hp2
      by_cases hc : (alookup ctx q.1).isSome
      · rw [if_pos hc] at hp2
        exact Or.inl hp2
      · rw [if_neg hc] at hp2
        rcases List.mem_append.mp hp2 with hp3 | hp3
        · exact Or.inl hp3
        · exact Or.inr (List.mem_cons.mpr (Or.inl (List.mem_singleton.mp hp3)))
    · exact Or.inr (List.mem_cons_of_mem _ hp2)

theorem handleRelatedTtps_isSome_pres (related : List (String × RelTTP))
    (ctx : List (String × RelTTP)) (u : String) (h : (alookup ctx u).isSome) :
    (alookup (handleRelatedTtps related ctx) u).isSome := by
  obtain ⟨e, he⟩ := handleRelatedTtps_append related ctx
  rw [he]
  exact alookup_append_isSome _ _ _ h

theorem handleRelatedTtps_isSome (related : List (String × RelTTP)) :
    ∀ ctx u, (alookup related u).isSome →
      (alookup (handleRelatedTtps related ctx) u).isSome := by
  induction related with
  | nil =>
    intro ctx u h
    simp [alookup] at h
  | cons p t ih =>
    intro ctx u h
    have hre : handleRelatedTtps (p :: t) ctx = handleRelatedTtps t (ctxTtpStep ctx p) := rfl
    rw [hre]
    by_cases hpu : p.1 = u
    · apply handleRelatedTtps_isSome_pres
      unfold ctxTtpStep
      by_cases hc : (alookup ctx p.1).isSome
      · rw [if_pos hc, ← hpu]
        exact hc
      · rw [if_neg hc, ← hpu]
        rw [alookup_append_of_none _ _ _ (Option.not_isSome_iff_eq_none.mp hc)]
        rw [show alookup [p] p.1 = some p.2 from alookup_single_self p.1 p.2]
        rfl
    · rw [alookup_cons, if_neg hpu] at h
      exact ih (ctxTtpStep ctx p) u h

theorem coaEventGalaxy_fold_spec (ns : String) (clusters : List Cluster) :
    ∀ st, stInv ns st →
      stInv ns (clusters.foldl (coaEventStep ns) st) ∧
      cacheGrows st (clusters.foldl (coaEventStep ns) st) ∧
      (clusters.foldl (coaEventStep ns) st).ctxTtps = st.ctxTtps := by
  induction clusters with
  | nil =>
    intro st hinv
    exact ⟨hinv, cacheGrows_refl st, rfl⟩
  | cons c cs ih =>
    intro st hinv
    obtain ⟨hT, ⟨hCn, hCi⟩, hA, hRel, hXT, hXC, hXA⟩ := hinv
    have hstep : stInv ns (coaEventStep ns st c) ∧ cacheGrows st (coaEventStep ns st c) ∧
        (coaEventStep ns st c).ctxTtps = st.ctxTtps := by
      unfold coaEventStep
      cases hl : alookup st.coursesOfAction c.uuid with
      | some coa =>
        simp only []
        refine ⟨⟨hT, ⟨hCn, hCi⟩, hA, hRel, hXT, ?_, hXA⟩, cacheGrows_refl st, by trivial⟩
        intro p hp
        rcases mem_dinsert hp with hp2 | hp2
        · exact hXC p hp2
        · rw [hp2]
          exact ⟨coa, hl, rfl⟩
      | none =>
        simp only []
        have hnotin : c.uuid ∉ st.coursesOfAction.map Prod.fst :=
          key_notMem_of_alookup_none _ _ hl
        refine ⟨⟨hT, ⟨?_, ?_⟩, hA, ?_, hXT, ?_, hXA⟩,
          ⟨⟨[], by simp⟩, ⟨[(c.uuid, createCoaFromGalaxy ns c)], rfl⟩, ⟨[], by simp⟩⟩,
          by trivial⟩
        · rw [List.map_append]
          exact nodup_append_single hCn (by simpa using hnotin)
        · intro p hp
          rcases List.mem_append.mp hp with hp2 | hp2
          · exact hCi p hp2
          · rw [List.mem_singleton.mp hp2]
            rfl
        · intro ri hri
          exact indOk_mono ⟨[], by simp⟩ ⟨[(c.uuid, createCoaFromGalaxy ns c)], rfl⟩ (hRel ri hri)
        · intro p hp
          rcases mem_dinsert hp with hp2 | hp2
          · obtain ⟨c2, ha, hi⟩ := hXC p hp2
            refine ⟨c2, ?_, hi⟩
            show alookup (st.coursesOfAction ++ [(c.uuid, createCoaFromGalaxy ns c)]) p.1 = some c2
            rw [alookup_append_of_isSome _ _ _ (by rw [ha]; rfl)]
            exact ha
          · rw [hp2]
            refine ⟨createCoaFromGalaxy ns c, ?_, rfl⟩
            show alookup (st.coursesOfAction ++ [(c.uuid, createCoaFromGalaxy ns c)]) c.uuid =
              some (createCoaFromGalaxy ns c)
            rw [alookup_append_of_none _ _ _ hl]
            exact alookup_single_self _ _
    obtain ⟨hinv1, hgrow1, hctx1⟩ := hstep
    obtain ⟨hinv2, hgrow2, hctx2⟩ := ih (coaEventStep ns st c) hinv1
    rw [List.foldl_cons]
    exact ⟨hinv2, cacheGrows_trans hgrow1 hgrow2, by rw [hctx2, hctx1]⟩

theorem taEventGalaxy_fold_spec (ns gname : String) (clusters : List Cluster) :
    ∀ st, stInv ns st →
      stInv ns (clusters.foldl (taEventStep ns gname) st) ∧
      cacheGrows st (clusters.foldl (taEventStep ns gname) st) ∧
      (clusters.foldl (taEventStep ns gname) st).ctxTtps = st.ctxTtps := by
  induction clusters with
  | nil =>
    intro st hinv
    exact ⟨hinv, cacheGrows_refl st, rfl⟩
  | cons c cs ih =>
    intro st hinv
    obtain ⟨hT, hC, ⟨hAn, hAi⟩, hRel, hXT, hXC, hXA⟩ := hinv
    have hstep : stInv ns (taEventStep ns gname st c) ∧ cacheGrows st (taEventStep ns gname st c) ∧
        (taEventStep ns gname st c).ctxTtps = st.ctxTtps := by
      unfold taEventStep
      by_cases hctx : (alookup st.ctxTas c.uuid).isSome
      · rw [if_pos hctx]
        exact ⟨⟨hT, hC, ⟨hAn, hAi⟩, hRel, hXT, hXC, hXA⟩, cacheGrows_refl st, rfl⟩
      · rw [if_neg hctx]
        cases hl : alookup st.threatActors c.uuid with
        | some ta =>
          simp only []
          refine ⟨⟨hT, hC, ⟨hAn, hAi⟩, hRel, hXT, hXC, ?_⟩, cacheGrows_refl st, by trivial⟩
          intro p hp
          rcases List.mem_append.mp hp with hp2 | hp2
          · exact hXA p hp2
          · rw [List.mem_singleton.mp hp2]
            exact ⟨ta, hl, rfl⟩
        | none =>
          simp only []
          have hnotin : c.uuid ∉ st.threatActors.map Prod.fst :=
            key_notMem_of_alookup_none _ _ hl
          refine ⟨⟨hT, hC, ⟨?_, ?_⟩, ?_, hXT, hXC, ?_⟩,
            ⟨⟨[], by simp⟩, ⟨[], by simp⟩, ⟨[(c.uuid, createTaFromGalaxy ns c)], rfl⟩⟩,
            by trivial⟩
          · rw [List.map_append]
            exact nodup_append_single hAn (by simpa using hnotin)
          · intro p hp
            rcases List.mem_append.mp hp with hp2 | hp2
            · exact hAi p hp2
            · rw [List.mem_singleton.mp hp2]
              rfl
          · intro ri hri
            exact indOk_mono ⟨[], by simp⟩ ⟨[], by simp⟩ (hRel ri hri)
          · intro p hp
            rcases List.mem_append.mp hp with hp2 | hp2
            · obtain ⟨t2, ha, hi⟩ := hXA p hp2
              refine ⟨t2, ?_, hi⟩
              show alookup (st.threatActors ++ [(c.uuid, createTaFromGalaxy ns c)]) p.1 = some t2
              rw [alookup_append_of_isSome _ _ _ (by rw [ha]; rfl)]
              exact ha
            · rw [List.mem_singleton.mp hp2]
              refine ⟨createTaFromGalaxy ns c, ?_, rfl⟩
              show alookup (st.threatActors ++ [(c.uuid, createTaFromGalaxy ns c)]) c.uuid =
                some (createTaFromGalaxy ns c)
              rw [alookup_append_of_none _ _ _ hl]
              exact alookup_single_self _ _
    obtain ⟨hinv1, hgrow1, hctx1⟩ := hstep
    obtain ⟨hinv2, hgrow2, hctx2⟩ := ih (taEventStep ns gname st c) hinv1
    rw [List.foldl_cons]
    exact ⟨hinv2, cacheGrows_trans hgrow1 hgrow2, by rw [hctx2, hctx1]⟩

theorem handleEventGalaxy_spec (ns : String) (g : Galaxy) (st : P1State) (hinv : stInv ns st) :
    stInv ns (handleEventGalaxy ns g st).2 ∧
    cacheGrows st (handleEventGalaxy ns g st).2 ∧
    (∃ e, (handleEventGalaxy ns g st).2.ctxTtps = st.ctxTtps ++ e) ∧
    (∀ f, galaxyTypesMapping g.gtype = some (.ttpKind f) →
      ∀ c ∈ g.clusters, (alookup (handleEventGalaxy ns g st).2.ctxTtps c.uuid).isSome) := by
  obtain ⟨⟨hTn, hTi⟩, ⟨hCn, hCi⟩, ⟨hAn, hAi⟩, hRel, hXT, hXC, hXA⟩ := hinv
  unfold handleEventGalaxy
  cases hm : galaxyTypesMapping g.gtype with
  | none =>
    simp only []
    refine ⟨⟨⟨hTn, hTi⟩, ⟨hCn, hCi⟩, ⟨hAn, hAi⟩, hRel, hXT, hXC, hXA⟩,
      cacheGrows_refl st, ⟨[], by simp⟩, ?_⟩
    intro f hf
    simp at hf
  | some k =>
    cases k with
    | ttpKind f =>
      simp only []
      obtain ⟨e1, he1, hn1, hi1, hr1, hp1⟩ := getRelatedTtps_spec ns g st.ttps hTn hTi
      refine ⟨?_, ⟨⟨e1, he1⟩, ⟨[], by simp⟩, ⟨[], by simp⟩⟩,
        handleRelatedTtps_append _ _, ?_⟩
      · refine ⟨⟨hn1, hi1⟩, ⟨hCn, hCi⟩, ⟨hAn, hAi⟩, ?_, ?_, hXC, hXA⟩
        · intro ri hri
          exact indOk_mono ⟨e1, he1⟩ ⟨[], by simp⟩ (hRel ri hri)
        · intro p hp
          rcases handleRelatedTtps_mem _ _ p hp with hp2 | hp2
          · obtain ⟨t, ha, hi⟩ := hXT p hp2
            refine ⟨t, ?_, hi⟩
            show alookup (getRelatedTtps ns g st.ttps).2 p.1 = some t
            rw [he1, alookup_append_of_isSome _ _ _ (by rw [ha]; rfl)]
            exact ha
          · exact hr1 p hp2
      · intro f2 hf2 c hc
        exact handleRelatedTtps_isSome _ _ _ (hp1 c hc)
    | coaKind =>
      simp only []
      obtain ⟨hinv2, hgrow2, hctx2⟩ :=
        coaEventGalaxy_fold_spec ns g.clusters st
          ⟨⟨hTn, hTi⟩, ⟨hCn, hCi⟩, ⟨hAn, hAi⟩, hRel, hXT, hXC, hXA⟩
      refine ⟨hinv2, hgrow2,
        ⟨[], by
          show (g.clusters.foldl (coaEventStep ns) st).ctxTtps = st.ctxTtps ++ []
          rw [hctx2]
          simp⟩, ?_⟩
      intro f hf
      simp at hf
    | taKind =>
      simp only []
      obtain ⟨hinv2, hgrow2, hctx2⟩ :=
        taEventGalaxy_fold_spec ns g.gname g.clusters st
          ⟨⟨hTn, hTi⟩, ⟨hCn, hCi⟩, ⟨hAn, hAi⟩, hRel, hXT, hXC, hXA⟩
      refine ⟨hinv2, hgrow2,
        ⟨[], by
          show (g.clusters.foldl (taEventStep ns g.gname) st).ctxTtps = st.ctxTtps ++ []
          rw [hctx2]
          simp⟩, ?_⟩
      intro f hf
      simp at hf

theorem eventGalaxies_fold_spec (ns : String) (gs : List Galaxy) :
    ∀ (acc : List String) (st : P1State), stInv ns st →
      stInv ns (gs.foldl (eventGalaxyStep ns) (acc, st)).2 ∧
      cacheGrows st (gs.foldl (eventGalaxyStep ns) (acc, st)).2 ∧
      (∃ e, (gs.foldl (eventGalaxyStep ns) (acc, st)).2.ctxTtps = st.ctxTtps ++ e) ∧
      (∀ g ∈ gs, ∀ f, galaxyTypesMapping g.gtype = some (.ttpKind f) →
        ∀ c ∈ g.clusters,
          (alookup ((gs.foldl (eventGalaxyStep ns) (acc, st)).2.ctxTtps) c.uuid).isSome) := by
  induction gs with
  | nil =>
    intro acc st hinv
    refine ⟨hinv, cacheGrows_refl st, ⟨[], by simp⟩, ?_⟩
    intro g hg
    cases hg
  | cons g t ih =>
    intro acc st hinv
    obtain ⟨hinv1, hgrow1, ⟨e1, hctx1⟩, hpres1⟩ := handleEventGalaxy_spec ns g st hinv
    have hstep : eventGalaxyStep ns (acc, st) g =
        (acc ++ (handleEventGalaxy ns g st).1, (handleEventGalaxy ns g st).2) := rfl
    obtain ⟨hinv2, hgrow2, ⟨e2, hctx2⟩, hpres2⟩ :=
      ih (acc ++ (handleEventGalaxy ns g st).1) (handleEventGalaxy ns g st).2 hinv1
    rw [List.foldl_cons, hstep]
    refine ⟨hinv2, cacheGrows_trans hgrow1 hgrow2,
      ⟨e1 ++ e2, by rw [hctx2, hctx1, List.append_assoc]⟩, ?_⟩
    intro g2 hg2 f hf c hc
    rcases List.mem_cons.mp hg2 with rfl | hg2
    · rw [hctx2]
      exact alookup_append_isSome _ _ _ (hpres1 f hf c hc)
    · exact hpres2 g2 hg2 f hf c hc

theorem handleTagsAndGalaxies_spec (ns : String) (ev : Event1) (st : P1State)
    (hinv : stInv ns st) :
    stInv ns (handleTagsAndGalaxies ns ev st).2 ∧
    cacheGrows st (handleTagsAndGalaxies ns ev st).2 ∧
    (∃ e, (handleTagsAndGalaxies ns ev st).2.ctxTtps = st.ctxTtps ++ e) ∧
    (∀ g ∈ ev.galaxies, ∀ f, galaxyTypesMapping g.gtype = some (.ttpKind f) →
      ∀ c ∈ g.clusters,
        (alookup ((handleTagsAndGalaxies ns ev st).2.ctxTtps) c.uuid).isSome) := by
  unfold handleTagsAndGalaxies
  by_cases hgal : ev.galaxies.isEmpty
  · rw [if_pos hgal]
    refine ⟨hinv, cacheGrows_refl st, ⟨[], by simp⟩, ?_⟩
    intro g hg
    rw [List.isEmpty_iff.mp hgal] at hg
    cases hg
  · rw [if_neg hgal]
    exact eventGalaxies_fold_spec ns ev.galaxies [] st hinv

/-! ## Master specification of `parse_misp_event` (STIX 1) -/

theorem parseMispEvent1_spec (table : String → Option (Attr1 → Except Unit Observable1))
    (otable : String → Option (MispObj → Except Unit Observable1)) (ns : String)
    (ev : Event1) (st0 : P1State) (hinv : stInv ns st0) :
    ∀ pkg st1, parseMispEvent1 table otable ns ev st0 = .ok (pkg, st1) →
      stInv ns st1 ∧ cacheGrows st0 st1 ∧
      (∃ e, st1.ctxTtps = st0.ctxTtps ++ e) ∧
      (∀ g ∈ ev.galaxies, ∀ f, galaxyTypesMapping g.gtype = some (.ttpKind f) →
        ∀ c ∈ g.clusters, (alookup st1.ctxTtps c.uuid).isSome) ∧
      pkg.relInd = st1.relInd ∧
      pkg.leveragedTtps = st1.ctxTtps.map Prod.snd ∧
      pkg.coasTaken = st1.ctxCoas.map Prod.snd ∧
      pkg.attributedTas = st1.ctxTas.map Prod.snd ∧
      pkg.pkgTtps = st1.ttps.map Prod.snd ∧
      pkg.pkgCoas = st1.coursesOfAction.map Prod.snd ∧
      pkg.pkgTas = st1.threatActors.map Prod.snd := by
  intro pkg st1 h
  have hinvA : stInv ns { st0 with relInd := [], relObs := [] } := by
    obtain ⟨hT, hC, hA, _, hXT, hXC, hXA⟩ := hinv
    refine ⟨hT, hC, hA, ?_, hXT, hXC, hXA⟩
    intro ri hri
    cases hri
  obtain ⟨hinv1, hgrow1, ⟨e1, hctx1⟩, hpres1⟩ :=
    handleTagsAndGalaxies_spec ns ev { st0 with relInd := [], relObs := [] } hinvA
  obtain ⟨hinv2, hgrow2, hctx2⟩ :=
    resolveAttributes_spec table ns ev.attributes
      (handleTagsAndGalaxies ns ev { st0 with relInd := [], relObs := [] }).2 hinv1
  unfold parseMispEvent1 at h
  simp only [] at h
  cases hif : (if (handleTagsAndGalaxies ns ev { st0 with relInd := [], relObs := [] }).1.isEmpty
      then some none
      else (setHandling
        (handleTagsAndGalaxies ns ev { st0 with relInd := [], relObs := [] }).1).map some) with
  | none =>
    rw [hif] at h
    cases h
  | some handling =>
    rw [hif] at h
    simp only [] at h
    cases hro : resolveObjects otable ns
        (resolveAttributes table ns
          (handleTagsAndGalaxies ns ev { st0 with relInd := [], relObs := [] }).2 ev.attributes)
        ev.objects with
    | error st2 =>
      rw [hro] at h
      cases h
    | ok st2 =>
      rw [hro] at h
      cases h
      obtain ⟨hinv3, ho1, ho2, ho3, ho4⟩ :=
        (resolveObjects_spec otable ns ev.objects
          (resolveAttributes table ns
            (handleTagsAndGalaxies ns ev { st0 with relInd := [], relObs := [] }).2 ev.attributes)
          hinv2).2 st1 hro
      have hgrowObj : cacheGrows
          (resolveAttributes table ns
            (handleTagsAndGalaxies ns ev { st0 with relInd := [], relObs := [] }).2 ev.attributes)
          st1 :=
        ⟨⟨[], by rw [ho1]; simp⟩, ⟨[], by rw [ho2]; simp⟩, ⟨[], by rw [ho3]; simp⟩⟩
      have hgrow0 : cacheGrows st0 { st0 with relInd := [], relObs := [] } :=
        ⟨⟨[], by simp⟩, ⟨[], by simp⟩, ⟨[], by simp⟩⟩
      refine ⟨hinv3, cacheGrows_trans hgrow0
        (cacheGrows_trans hgrow1 (cacheGrows_trans hgrow2 hgrowObj)), ?_, ?_,
        rfl, rfl, rfl, rfl, rfl, rfl, rfl⟩
      · refine ⟨e1, ?_⟩
        rw [ho4, hctx2, hctx1]
      · intro g hg f hf c hc
        rw [ho4, hctx2]
        exact hpres1 g hg f hf c hc

theorem map_snd_id_eq {β : Type} (idOf : β → String) (pre : String) (l : List (String × β))
    (hid : ∀ p ∈ l, idOf p.2 = pre ++ p.1) :
    (l.map Prod.snd).map idOf = (l.map Prod.fst).map (fun u => pre ++ u) := by
  induction l with
  | nil => rfl
  | cons p t ih =>
    simp only [List.map_cons]
    rw [hid p (List.mem_cons_self _ _), ih (fun q hq => hid q (List.mem_cons_of_mem _ hq))]

/-- C8: converting one event on a fresh parser yields an output graph in which
every descriptor kind (TTP, course of action, threat actor) carries
duplicate-free identifiers — at most one entity per (source UUID, kind) — and
every relationship handle attached to a related indicator or to the incident's
contextualised lists references exactly one emitted descriptor entity.  In
particular two attributes referencing the same cluster both reference the
single descriptor emitted for that cluster. -/
theorem c8_dedup_idempotence (table : String → Option (Attr1 → Except Unit Observable1))
    (otable : String → Option (MispObj → Except Unit Observable1)) (ns : String) (ev : Event1)
    (pkg : Package1) (st1 : P1State)
    (h : parseMispEvent1 table otable ns ev initState = .ok (pkg, st1)) :
    (pkg.pkgTtps.map TTP.id_).Nodup ∧
    (pkg.pkgCoas.map COA.id_).Nodup ∧
    (pkg.pkgTas.map ThreatActorE.id_).Nodup ∧
    (∀ ri ∈ pkg.relInd,
      (∀ rt ∈ ri.indicator.indicatedTtps,
        ∃ t ∈ pkg.pkgTtps, rt.idref = t.id_ ∧
          pkg.pkgTtps.countP (fun t2 => t2.id_ == rt.idref) = 1) ∧
      (∀ rc ∈ ri.indicator.suggestedCoas,
        ∃ c ∈ pkg.pkgCoas, rc.idref = c.id_ ∧
          pkg.pkgCoas.countP (fun c2 => c2.id_ == rc.idref) = 1)) ∧
    (∀ rt ∈ pkg.leveragedTtps, ∃ t ∈ pkg.pkgTtps, rt.idref = t.id_) ∧
    (∀ ct ∈ pkg.coasTaken, ∃ c ∈ pkg.pkgCoas, ct.idref = c.id_) ∧
    (∀ ra ∈ pkg.attributedTas, ∃ t ∈ pkg.pkgTas, ra.idref = t.id_) := by
  obtain ⟨hinv, _, _, _, hEq1, hEq2, hEq3, hEq4, hEq5, hEq6, hEq7⟩ :=
    parseMispEvent1_spec table otable ns ev initState (stInv_init ns) pkg st1 h
  obtain ⟨⟨hTn, hTi⟩, ⟨hCn, hCi⟩, ⟨hAn, hAi⟩, hRel, hXT, hXC, hXA⟩ := hinv
  have hndT : (pkg.pkgTtps.map TTP.id_).Nodup := by
    rw [hEq5, map_snd_id_eq TTP.id_ (ns ++ ":TTP-") st1.ttps hTi]
    exact List.Nodup.map (str_tag_injective _) hTn
  have hndC : (pkg.pkgCoas.map COA.id_).Nodup := by
    rw [hEq6, map_snd_id_eq COA.id_ (ns ++ ":CourseOfAction-") st1.coursesOfAction hCi]
    exact List.Nodup.map (str_tag_injective _) hCn
  have hndA : (pkg.pkgTas.map ThreatActorE.id_).Nodup := by
    rw [hEq7, map_snd_id_eq ThreatActorE.id_ (ns ++ ":ThreatActor-") st1.threatActors hAi]
    exact List.Nodup.map (str_tag_injective _) hAn
  refine ⟨hndT, hndC, hndA, ?_, ?_, ?_, ?_⟩
  · intro ri hri
    rw [hEq1] at hri
    have hio := hRel ri hri
    constructor
    · intro rt hrt
      obtain ⟨u, t, ha, hi⟩ := hio.1 rt hrt
      have hmem : t ∈ pkg.pkgTtps := by
        rw [hEq5]
        exact List.mem_map_of_mem Prod.snd (mem_of_alookup _ _ _ ha)
      refine ⟨t, hmem, hi, ?_⟩
      rw [hi]
      exact countP_eq_one_of_nodup_map TTP.id_ pkg.pkgTtps hndT hmem
    · intro rc hrc
      obtain ⟨u, c, ha, hi⟩ := hio.2 rc hrc
      have hmem : c ∈ pkg.pkgCoas := by
        rw [hEq6]
        exact List.mem_map_of_mem Prod.snd (mem_of_alookup _ _ _ ha)
      refine ⟨c, hmem, hi, ?_⟩
      rw [hi]
      exact countP_eq_one_of_nodup_map COA.id_ pkg.pkgCoas hndC hmem
  · intro rt hrt
    rw [hEq2] at hrt
    rcases List.mem_map.mp hrt with ⟨p, hp, hpe⟩
    obtain ⟨t, ha, hi⟩ := hXT p hp
    refine ⟨t, ?_, ?_⟩
    · rw [hEq5]
      exact List.mem_map_of_mem Prod.snd (mem_of_alookup _ _ _ ha)
    · rw [← hpe]
      exact hi
  · intro ct hct
    rw [hEq3] at hct
    rcases List.mem_map.mp hct with ⟨p, hp, hpe⟩
    obtain ⟨c, ha, hi⟩ := hXC p hp
    refine ⟨c, ?_, ?_⟩
    · rw [hEq6]
      exact List.mem_map_of_mem Prod.snd (mem_of_alookup _ _ _ ha)
    · rw [← hpe]
      exact hi
  · intro ra hra
    rw [hEq4] at hra
    rcases List.mem_map.mp hra with ⟨p, hp, hpe⟩
    obtain ⟨t, ha, hi⟩ := hXA p hp
    refine ⟨t, ?_, ?_⟩
    · rw [hEq7]
      exact List.mem_map_of_mem Prod.snd (mem_of_alookup _ _ _ ha)
    · rw [← hpe]
      exact hi

/-- Witness for C8 at a concrete event whose two attributes reference the same
galaxy cluster, converted on a fresh parser instance. -/
theorem c8_dedup_idempotence_witness :
    (c8Pkg.pkgTtps.map TTP.id_).Nodup ∧
    (c8Pkg.pkgCoas.map COA.id_).Nodup ∧
    (c8Pkg.pkgTas.map ThreatActorE.id_).Nodup ∧
    (∀ ri ∈ c8Pkg.relInd,
      (∀ rt ∈ ri.indicator.indicatedTtps,
        ∃ t ∈ c8Pkg.pkgTtps, rt.idref = t.id_ ∧
          c8Pkg.pkgTtps.countP (fun t2 => t2.id_ == rt.idref) = 1) ∧
      (∀ rc ∈ ri.indicator.suggestedCoas,
        ∃ c ∈ c8Pkg.pkgCoas, rc.idref = c.id_ ∧
          c8Pkg.pkgCoas.countP (fun c2 => c2.id_ == rc.idref) = 1)) ∧
    (∀ rt ∈ c8Pkg.leveragedTtps, ∃ t ∈ c8Pkg.pkgTtps, rt.idref = t.id_) ∧
    (∀ ct ∈ c8Pkg.coasTaken, ∃ c ∈ c8Pkg.pkgCoas, ct.idref = c.id_) ∧
    (∀ ra ∈ c8Pkg.attributedTas, ∃ t ∈ c8Pkg.pkgTas, ra.idref = t.id_) :=
  c8_dedup_idempotence c1Table noObjTable "MISP" c8Event c8Pkg c8St rfl

/-- C2 (amended): when event B, parsed on the same instance after event A,
references at event level a cluster UUID already converted during A, the
cached descriptor is reused: no new descriptor is built (the cache still maps
the UUID to A's entity), B's contextualised data holds a lightweight
relationship whose idref is A's output identifier and which reaches B's
incident — but, contrary to the claim as stated, the cached full descriptor
entity itself is also re-emitted into B's output package (every package emits
all instance-cached descriptors), exactly once. -/
theorem c2_cross_event_reuse (table : String → Option (Attr1 → Except Unit Observable1))
    (otable : String → Option (MispObj → Except Unit Observable1)) (ns : String)
    (evA evB : Event1) (st0 : P1State) (pkgA : Package1) (st1 : P1State)
    (pkgB : Package1) (st2 : P1State) (u : String) (t : TTP) (g : Galaxy) (f : TtpFeature)
    (hinv0 : stInv ns st0)
    (hA : parseMispEvent1 table otable ns evA st0 = .ok (pkgA, st1))
    (ht : alookup st1.ttps u = some t)
    (hg : g ∈ evB.galaxies)
    (hmap : galaxyTypesMapping g.gtype = some (.ttpKind f))
    (hu : u ∈ g.clusters.map Cluster.uuid)
    (hB : parseMispEvent1 table otable ns evB st1 = .ok (pkgB, st2)) :
    alookup st2.ttps u = some t ∧
    (∃ rt, alookup st2.ctxTtps u = some rt ∧ rt.idref = t.id_ ∧ rt ∈ pkgB.leveragedTtps) ∧
    t ∈ pkgB.pkgTtps ∧
    pkgB.pkgTtps.countP (fun t2 => t2.id_ == t.id_) = 1 := by
  obtain ⟨hinv1, _, _, _, _, _, _, _, _, _, _⟩ :=
    parseMispEvent1_spec table otable ns evA st0 hinv0 pkgA st1 hA
  obtain ⟨hinv2, hgrow2, _, hpres2, _, hLev, _, _, hPkgT, _, _⟩ :=
    parseMispEvent1_spec table otable ns evB st1 hinv1 pkgB st2 hB
  obtain ⟨⟨hTn2, hTi2⟩, hC2, hA2, hRel2, hXT2, hXC2, hXA2⟩ := hinv2
  obtain ⟨⟨e2, he2⟩, _, _⟩ := hgrow2
  have h1 : alookup st2.ttps u = some t := by
    rw [he2, alookup_append_of_isSome _ _ _ (by rw [ht]; rfl)]
    exact ht
  obtain ⟨c, hc, hcu⟩ := List.mem_map.mp hu
  have hpres : (alookup st2.ctxTtps u).isSome := by
    rw [← hcu]
    exact hpres2 g hg f hmap c hc
  obtain ⟨rt, hrt⟩ := Option.isSome_iff_exists.mp hpres
  have hmemctx : (u, rt) ∈ st2.ctxTtps := mem_of_alookup _ _ _ hrt
  obtain ⟨t2, ht2, hi2⟩ := hXT2 (u, rt) hmemctx
  have htt : t2 = t := by
    have := ht2.symm.trans h1
    exact Option.some.inj this
  have hmemt : t ∈ pkgB.pkgTtps := by
    rw [hPkgT]
    exact List.mem_map_of_mem Prod.snd (mem_of_alookup _ _ _ h1)
  refine ⟨h1, ⟨rt, hrt, by rw [hi2, htt], ?_⟩, hmemt, ?_⟩
  · rw [hLev]
    exact List.mem_map_of_mem Prod.snd hmemctx
  · have hndT : (pkgB.pkgTtps.map TTP.id_).Nodup := by
      rw [hPkgT, map_snd_id_eq TTP.id_ (ns ++ ":TTP-") st2.ttps hTi2]
      exact List.Nodup.map (str_tag_injective _) hTn2
    exact countP_eq_one_of_nodup_map TTP.id_ pkgB.pkgTtps hndT hmemt

/-- Witness for C2's amended statement at a concrete two-event run on one
engine instance. -/
theorem c2_cross_event_reuse_witness :
    alookup c2St2.ttps "cluster-u" = some c2Ttp ∧
    (∃ rt, alookup c2St2.ctxTtps "cluster-u" = some rt ∧ rt.idref = c2Ttp.id_ ∧
      rt ∈ c2PkgB.leveragedTtps) ∧
    c2Ttp ∈ c2PkgB.pkgTtps ∧
    c2PkgB.pkgTtps.countP (fun t2 => t2.id_ == c2Ttp.id_) = 1 :=
  c2_cross_event_reuse c1Table noObjTable "MISP" c2Event c2Event initState c2PkgA c2St1
    c2PkgB c2St2 "cluster-u" c2Ttp c8Galaxy TtpFeature.malware (stInv_init "MISP")
    rfl (by decide) (by decide) (by decide) (by decide) rfl

/-- Counterexample for C2 as stated: after converting the same event twice on
one engine instance, the second event's output package still contains the
full TTP descriptor entity for the already-converted cluster UUID — not only
the lightweight relationship the claim allows. -/
theorem c2_counterexample_full_descriptor_reemitted :
    c2RunB.map Package1.pkgTtps = some [c2Ttp] ∧
    c2RunB.map (fun p => p.leveragedTtps.map RelTTP.idref) = some ["MISP:TTP-cluster-u"] := by
  decide

end Stix1

namespace Stix2

open MispStix

/-! ## C4: marking drop semantics -/

theorem c4_counterexample_nocolon_escapes :
    handleMarkings acceptAll supplyA init2 ["nocolon", "good:stmt"] = .error init2 := by
  decide

theorem handleMarkings_ok_of_wellformed (validate : String → String → Bool)
    (supply : Nat → String) (markings : List String) :
    ∀ (st : P2St) (ids0 : List String),
      (∀ m ∈ markings, (alookup tlpMarkingsV20 m).isSome ∨ (pySplit m ':').length = 2) →
      ∃ st1 ids, markings.foldl (handleMarkingsStep validate supply) (.ok (st, ids0)) =
        .ok (st1, ids) := by
  induction markings with
  | nil =>
    intro st ids0 _
    exact ⟨st, ids0, rfl⟩
  | cons m rest ih =>
    intro st ids0 hwf
    rw [List.foldl_cons]
    have hm := hwf m (List.mem_cons_self _ _)
    have hrest : ∀ m2 ∈ rest, (alookup tlpMarkingsV20 m2).isSome ∨ (pySplit m2 ':').length = 2 :=
      fun m2 hm2 => hwf m2 (List.mem_cons_of_mem _ hm2)
    have hstep : ∃ st2 ids2, handleMarkingsStep validate supply (.ok (st, ids0)) m =
        .ok (st2, ids2) := by
      unfold handleMarkingsStep
      cases hc : alookup st.mcache m with
      | some mid =>
        simp only [hc]
        exact ⟨st, ids0 ++ [mid], rfl⟩
      | none =>
        simp only [hc]
        unfold createMarking
        cases htlp : alookup tlpMarkingsV20 m with
        | some mid =>
          simp only [htlp]
          exact ⟨_, _, rfl⟩
        | none =>
          simp only [htlp]
          rcases hm with hm | hm
          · rw [htlp] at hm
            simp at hm
          · unfold createMarkingDefinitionArgs
            obtain ⟨a, b, hab⟩ : ∃ a b, pySplit m ':' = [a, b] := by
              cases hsp : pySplit m ':' with
              | nil => rw [hsp] at hm; simp at hm
              | cons x xs =>
                cases xs with
                | nil => rw [hsp] at hm; simp at hm
                | cons y ys =>
                  cases ys with
                  | nil => exact ⟨x, y, rfl⟩
                  | cons z zs => rw [hsp] at hm; simp at hm
            simp only [hab]
            cases hv : validate a b with
            | true => exact ⟨_, _, rfl⟩
            | false => exact ⟨_, _, rfl⟩
    obtain ⟨st2, ids2, hs⟩ := hstep
    rw [hs]
    exact ih st2 ids2 hrest

theorem createMarking_silent_drop (validate : String → String → Bool) (supply : Nat → String)
    (st : P2St) (m dt d : String) (hsp : pySplit m ':' = [dt, d])
    (hv : validate dt d = false) (htlp : alookup tlpMarkingsV20 m = none) :
    createMarking validate supply st m = .ok ({ st with ctr := st.ctr + 1 }, none) := by
  unfold createMarking
  simp only [htlp]
  unfold createMarkingDefinitionArgs
  simp only [hsp, hv]
  rfl

/-- C4 (amended): a tag matching the TLP vocabulary or splitting into exactly
two parts on the colon never raises — in particular a two-part tag failing
target-schema validation is silently dropped (no identifier is produced, the
cache is untouched, no error or warning accumulator is even reachable from
`_create_marking`) and the loop continues with the remaining tags; but a tag
that does not split into exactly two parts raises a `ValueError` outside the
`try` block, which escapes marking resolution (refuting the claim as
stated). -/
theorem c4_marking_silent_drop (validate : String → String → Bool) (supply : Nat → String)
    (st : P2St) :
    (∀ markings : List String,
      (∀ m ∈ markings, (alookup tlpMarkingsV20 m).isSome ∨ (pySplit m ':').length = 2) →
      ∃ st1 ids, handleMarkings validate supply st markings = .ok (st1, ids)) ∧
    (∀ m dt d, pySplit m ':' = [dt, d] → validate dt d = false →
      alookup tlpMarkingsV20 m = none →
      createMarking validate supply st m = .ok ({ st with ctr := st.ctr + 1 }, none)) ∧
    (∀ m rest dt d, pySplit m ':' = [dt, d] → validate dt d = false →
      alookup tlpMarkingsV20 m = none → alookup st.mcache m = none →
      handleMarkings validate supply st (m :: rest) =
        handleMarkings validate supply { st with ctr := st.ctr + 1 } rest) := by
  refine ⟨?_, ?_, ?_⟩
  · intro markings hwf
    exact handleMarkings_ok_of_wellformed validate supply markings st [] hwf
  · intro m dt d hsp hv htlp
    exact createMarking_silent_drop validate supply st m dt d hsp hv htlp
  · intro m rest dt d hsp hv htlp hcache
    have hstep : handleMarkingsStep validate supply (.ok (st, [])) m =
        .ok ({ st with ctr := st.ctr + 1 }, []) := by
      unfold handleMarkingsStep
      simp only [hcache, createMarking_silent_drop validate supply st m dt d hsp hv htlp]
    show (m :: rest).foldl (handleMarkingsStep validate supply) (.ok (st, [])) =
      rest.foldl (handleMarkingsStep validate supply) (.ok ({ st with ctr := st.ctr + 1 }, []))
    rw [List.foldl_cons, hstep]


/-- Witness for C4's amended statement: with a validator rejecting the `bad`
definition type, the tag list resolves without exception, the rejected
two-part tag is silently dropped, and the loop continues with the rest. -/
theorem c4_marking_silent_drop_witness :
    (∃ st1 ids, handleMarkings rejectBad supplyA init2 ["tlp:green", "bad:stmt", "ok:stmt"] =
      .ok (st1, ids)) ∧
    createMarking rejectBad supplyA init2 "bad:stmt" = .ok ({ init2 with ctr := 1 }, none) ∧
    handleMarkings rejectBad supplyA init2 ["bad:stmt", "ok:stmt"] =
      handleMarkings rejectBad supplyA { init2 with ctr := 1 } ["ok:stmt"] :=
  ⟨(c4_marking_silent_drop rejectBad supplyA init2).1 ["tlp:green", "bad:stmt", "ok:stmt"]
      (by decide),
   (c4_marking_silent_drop rejectBad supplyA init2).2.1 "bad:stmt" "bad" "stmt"
      (by decide) (by decide) (by decide),
   (c4_marking_silent_drop rejectBad supplyA init2).2.2 "bad:stmt" ["ok:stmt"] "bad" "stmt"
      (by decide) (by decide) (by decide) (by decide)⟩

/-! ## State-shape lemmas for the STIX 2 pipeline -/

theorem coreEq_refl (a : P2St) : coreEq a a :=
  ⟨rfl, rfl, rfl, rfl, rfl, rfl⟩

theorem coreEq_trans {a b c : P2St} (h1 : coreEq a b) (h2 : coreEq b c) : coreEq a c :=
  ⟨h1.1.trans h2.1, h1.2.1.trans h2.2.1, h1.2.2.1.trans h2.2.2.1,
   h1.2.2.2.1.trans h2.2.2.2.1, h1.2.2.2.2.1.trans h2.2.2.2.2.1,
   h1.2.2.2.2.2.trans h2.2.2.2.2.2⟩

theorem createMarking_coreEq (validate : String → String → Bool) (supply : Nat → String)
    (st : P2St) (m : String) : coreEq (exMark (createMarking validate supply st m)) st := by
  unfold createMarking
  cases htlp : alookup tlpMarkingsV20 m with
  | some mid =>
    simp only [htlp]
    exact coreEq_refl _
  | none =>
    simp only [htlp]
    cases hargs : createMarkingDefinitionArgs m (supply st.ctr) with
    | none =>
      simp only [hargs]
      exact coreEq_refl _
    | some triple =>
      simp only [hargs]
      obtain ⟨mid, dt, d⟩ := triple
      cases hv : validate dt d with
      | true => exact coreEq_refl _
      | false => exact coreEq_refl _

theorem handleMarkingsStep_coreEq (validate : String → String → Bool) (supply : Nat → String)
    (acc : Except P2St (P2St × List String)) (m : String) :
    coreEq (exMarks (handleMarkingsStep validate supply acc m)) (exMarks acc) := by
  unfold handleMarkingsStep
  cases acc with
  | error e => exact coreEq_refl _
  | ok p =>
    obtain ⟨st, ids⟩ := p
    cases hc : alookup st.mcache m with
    | some mid =>
      simp only [hc]
      exact coreEq_refl _
    | none =>
      simp only [hc]
      have hcm := createMarking_coreEq validate supply st m
      cases hr : createMarking validate supply st m with
      | error st1 =>
        simp only [hr]
        rw [hr] at hcm
        exact hcm
      | ok q =>
        obtain ⟨st1, mid?⟩ := q
        rw [hr] at hcm
        cases mid? with
        | some mid =>
          simp only [hr]
          exact hcm
        | none =>
          simp only [hr]
          exact hcm

theorem handleMarkings_fold_coreEq (validate : String → String → Bool) (supply : Nat → String)
    (ms : List String) :
    ∀ acc : Except P2St (P2St × List String),
      coreEq (exMarks (ms.foldl (handleMarkingsStep validate supply) acc)) (exMarks acc) := by
  induction ms with
  | nil => intro acc; exact coreEq_refl _
  | cons m rest ih =>
    intro acc
    rw [List.foldl_cons]
    exact coreEq_trans (ih _) (handleMarkingsStep_coreEq validate supply acc m)

theorem handleMarkings_coreEq (validate : String → String → Bool) (supply : Nat → String)
    (st : P2St) (ms : List String) :
    coreEq (exMarks (handleMarkings validate supply st ms)) st :=
  handleMarkings_fold_coreEq validate supply ms (.ok (st, []))

theorem appendOnly_refl (st : P2St) : appendOnly st st :=
  ⟨⟨[], (List.append_nil _).symm, fun _ ho => absurd ho (List.not_mem_nil _)⟩, rfl, rfl⟩

theorem appendOnly_trans {a b c : P2St} (h1 : appendOnly a b) (h2 : appendOnly b c) :
    appendOnly a c := by
  obtain ⟨⟨t1, ho1, hk1⟩, hi1, hg1⟩ := h1
  obtain ⟨⟨t2, ho2, hk2⟩, hi2, hg2⟩ := h2
  refine ⟨⟨t1 ++ t2, ?_, ?_⟩, hi2.trans hi1, hg2.trans hg1⟩
  · rw [ho2, ho1, List.append_assoc]
  · intro o ho
    rcases List.mem_append.1 ho with ho | ho
    · exact hk1 o ho
    · exact hk2 o ho

theorem appendOnly_of_coreEq {a b : P2St} (h : coreEq b a) : appendOnly a b :=
  ⟨⟨[], by rw [h.2.2.1, List.append_nil], fun _ ho => absurd ho (List.not_mem_nil _)⟩,
   h.2.1, h.1⟩

theorem appendSDO_appendOnly (st : P2St) (o : SDO2)
    (ho : o.isIdentity = false ∧ o.isReport = false) : appendOnly st (appendSDO st o) :=
  ⟨⟨[o], rfl, fun x hx => by rw [List.mem_singleton] at hx; rw [hx]; exact ho⟩, rfl, rfl⟩

theorem handleAttributeIndicator_ok_appendOnly (validate : String → String → Bool)
    (supply : Nat → String) (st st1 : P2St) (a : Attr2) (pattern : String)
    (h : handleAttributeIndicator validate supply st a pattern = .ok st1) :
    appendOnly st st1 := by
  unfold handleAttributeIndicator at h
  by_cases he : (a.tags).isEmpty
  · rw [if_pos he] at h
    cases h
    exact appendSDO_appendOnly st _ ⟨rfl, rfl⟩
  · rw [if_neg he] at h
    have hcm := handleMarkings_coreEq validate supply st a.tags
    cases hr : handleMarkings validate supply st a.tags with
    | error st2 =>
      rw [hr] at h
      cases h
    | ok q =>
      obtain ⟨st2, mids⟩ := q
      rw [hr] at h hcm
      cases h
      exact appendOnly_trans (appendOnly_of_coreEq hcm) (appendSDO_appendOnly st2 _ ⟨rfl, rfl⟩)

theorem handleAttributeIndicator_error_appendOnly (validate : String → String → Bool)
    (supply : Nat → String) (st st1 : P2St) (a : Attr2) (pattern : String)
    (h : handleAttributeIndicator validate supply st a pattern = .error st1) :
    appendOnly st st1 := by
  unfold handleAttributeIndicator at h
  by_cases he : (a.tags).isEmpty
  · rw [if_pos he] at h
    cases h
  · rw [if_neg he] at h
    have hcm := handleMarkings_coreEq validate supply st a.tags
    cases hr : handleMarkings validate supply st a.tags with
    | error st2 =>
      rw [hr] at h hcm
      cases h
      exact appendOnly_of_coreEq hcm
    | ok q =>
      obtain ⟨st2, mids⟩ := q
      rw [hr] at h
      cases h

theorem attrFinish_appendOnly (st : P2St) (a : Attr2) (res : Except P2St P2St)
    (h : ∀ st1, res = .ok st1 ∨ res = .error st1 → appendOnly st st1) :
    appendOnly st (attrCatch st a res) := by
  unfold attrCatch
  cases res with
  | ok st1 => exact h st1 (Or.inl rfl)
  | error st1 => exact h st1 (Or.inr rfl)

theorem attributeStep2_appendOnly (table : String → Option (Attr2 → Except Unit String))
    (validate : String → String → Bool) (supply : Nat → String) (st : P2St) (a : Attr2) :
    appendOnly st (attributeStep2 table validate supply st a) := by
  unfold attributeStep2
  refine attrFinish_appendOnly st a _ ?_
  intro st1 h1
  cases htab : table a.atype with
  | none =>
    rw [htab] at h1
    rcases h1 with h1 | h1
    · have h2 : Except.ok (ε := P2St) { parseCustomAttribute2 st a with
          warnings := sadd (parseCustomAttribute2 st a).warnings
            ("MISP Attribute type " ++ a.atype ++ " not mapped.") } = Except.ok st1 := h1
      cases h2
      exact ⟨⟨[.customO ("x-misp-object--" ++ a.uuid) a.atype a.value], rfl,
        fun x hx => by rw [List.mem_singleton] at hx; rw [hx]; exact ⟨rfl, rfl⟩⟩, rfl, rfl⟩
    · have h2 : Except.ok (ε := P2St) { parseCustomAttribute2 st a with
          warnings := sadd (parseCustomAttribute2 st a).warnings
            ("MISP Attribute type " ++ a.atype ++ " not mapped.") } = Except.error st1 := h1
      cases h2
  | some producer =>
    rw [htab] at h1
    have h2 : ((match producer a with
        | Except.error _ => Except.error st
        | Except.ok pattern =>
          if a.to_ids then handleAttributeIndicator validate supply st a pattern
          else Except.ok st) = Except.ok st1 ∨
        (match producer a with
        | Except.error _ => Except.error st
        | Except.ok pattern =>
          if a.to_ids then handleAttributeIndicator validate supply st a pattern
          else Except.ok st) = Except.error st1) := h1
    cases hp : producer a with
    | error e =>
      rw [hp] at h2
      rcases h2 with h2 | h2
      · have h3 : (Except.error st : Except P2St P2St) = Except.ok st1 := h2
        cases h3
      · have h3 : (Except.error st : Except P2St P2St) = Except.error st1 := h2
        cases h3
        exact appendOnly_refl st
    | ok pattern =>
      rw [hp] at h2
      have h3 : ((if a.to_ids then handleAttributeIndicator validate supply st a pattern
          else Except.ok st) = Except.ok st1 ∨
          (if a.to_ids then handleAttributeIndicator validate supply st a pattern
          else Except.ok st) = Except.error st1) := h2
      cases hti : a.to_ids with
      | false =>
        rw [hti] at h3
        have h4 : ((Except.ok st : Except P2St P2St) = Except.ok st1 ∨
            (Except.ok st : Except P2St P2St) = Except.error st1) := h3
        rcases h4 with h4 | h4
        · cases h4
          exact appendOnly_refl st
        · cases h4
      | true =>
        rw [hti] at h3
        have h4 : (handleAttributeIndicator validate supply st a pattern = Except.ok st1 ∨
            handleAttributeIndicator validate supply st a pattern = Except.error st1) := h3
        rcases h4 with h4 | h4
        · exact handleAttributeIndicator_ok_appendOnly validate supply st st1 a pattern h4
        · exact handleAttributeIndicator_error_appendOnly validate supply st st1 a pattern h4

theorem resolveAttributes2_appendOnly (table : String → Option (Attr2 → Except Unit String))
    (validate : String → String → Bool) (supply : Nat → String) (attrs : List Attr2) :
    ∀ st : P2St, appendOnly st (resolveAttributes2 table validate supply st attrs) := by
  induction attrs with
  | nil => intro st; exact appendOnly_refl st
  | cons a rest ih =>
    intro st
    show appendOnly st ((a :: rest).foldl (attributeStep2 table validate supply) st)
    rw [List.foldl_cons]
    exact appendOnly_trans (attributeStep2_appendOnly table validate supply st a) (ih _)

theorem markFold_appendOnly (l : List (String × String)) :
    ∀ st : P2St, appendOnly st (l.foldl (fun st p => appendSDO st (.markingO p.2)) st) := by
  induction l with
  | nil => intro st; exact appendOnly_refl st
  | cons p rest ih =>
    intro st
    rw [List.foldl_cons]
    exact appendOnly_trans (appendSDO_appendOnly st (.markingO p.2) ⟨rfl, rfl⟩)
      (ih (appendSDO st (.markingO p.2)))

theorem mcacheAppend_appendOnly (st : P2St) : appendOnly st (mcacheAppend st) := by
  unfold mcacheAppend
  by_cases he : st.mcache.isEmpty
  · rw [if_pos he]
    exact appendOnly_refl st
  · rw [if_neg he]
    exact markFold_appendOnly st.mcache st

theorem generateReportTail_ok (ev : Event2) (S : Except P2St (P2St × List String))
    (st2 : P2St) (rep : SDO2)
    (h : (match S with
          | .error st1 => (.error st1 : Except P2St (P2St × SDO2))
          | .ok (st1, mrefs) =>
            .ok (mcacheAppend st1, .reportO ("report--" ++ ev.uuid) ev.info
              (mcacheAppend st1).identityId
              (if ev.published then some ev.publishTimestamp else none) mrefs
              (mcacheAppend st1).refs)) = .ok (st2, rep)) :
    appendOnly (exMarks S) st2 ∧ rep.isReport = true ∧
      rep.createdByRef? = some st2.identityId ∧ rep.sid = "report--" ++ ev.uuid := by
  cases S with
  | error e =>
    have h2 : (Except.error e : Except P2St (P2St × SDO2)) = .ok (st2, rep) := h
    cases h2
  | ok p =>
    obtain ⟨st1, mrefs⟩ := p
    have h2 : Except.ok (ε := P2St)
        ((mcacheAppend st1, SDO2.reportO ("report--" ++ ev.uuid) ev.info
          (mcacheAppend st1).identityId
          (if ev.published then some ev.publishTimestamp else none) mrefs
          (mcacheAppend st1).refs) : P2St × SDO2) = Except.ok (st2, rep) := h
    injection h2 with h3
    have h4 : mcacheAppend st1 = st2 := congrArg Prod.fst h3
    have h5 : SDO2.reportO ("report--" ++ ev.uuid) ev.info (mcacheAppend st1).identityId
        (if ev.published then some ev.publishTimestamp else none) mrefs
        (mcacheAppend st1).refs = rep := congrArg Prod.snd h3
    subst h4
    rw [← h5]
    exact ⟨mcacheAppend_appendOnly st1, rfl, rfl, rfl⟩

theorem generateEventReport_ok (validate : String → String → Bool) (supply : Nat → String)
    (ev : Event2) (st st2 : P2St) (rep : SDO2)
    (h : generateEventReport validate supply ev st = .ok (st2, rep)) :
    appendOnly st st2 ∧ rep.isReport = true ∧
      rep.createdByRef? = some st2.identityId ∧ st2.identityId = st.identityId ∧
      rep.sid = "report--" ++ ev.uuid := by
  have hT := generateReportTail_ok ev
    (if (handleEventTagsAndGalaxies ev).isEmpty then (.ok (st, []) : Except P2St (P2St × List String))
     else handleMarkings validate supply st (handleEventTagsAndGalaxies ev)) st2 rep h
  have hcore : coreEq (exMarks
      (if (handleEventTagsAndGalaxies ev).isEmpty then (.ok (st, []) : Except P2St (P2St × List String))
       else handleMarkings validate supply st (handleEventTagsAndGalaxies ev))) st := by
    by_cases hemp : (handleEventTagsAndGalaxies ev).isEmpty
    · rw [if_pos hemp]
      exact coreEq_refl st
    · rw [if_neg hemp]
      exact handleMarkings_coreEq validate supply st (handleEventTagsAndGalaxies ev)
  have hAO : appendOnly st st2 := appendOnly_trans (appendOnly_of_coreEq hcore) hT.1
  exact ⟨hAO, hT.2.1, hT.2.2.1, hAO.2.1, hT.2.2.2⟩

theorem parseFinish_ok (idx : Nat) (res : Except P2St (P2St × SDO2)) (stF : P2St)
    (objs : List SDO2) (h : parseFinish idx res = .ok (stF, objs)) :
    ∃ st1 rep, res = .ok (st1, rep) ∧
      stF = { st1 with objects := pyinsert idx rep st1.objects } ∧
      objs = pyinsert idx rep st1.objects := by
  cases res with
  | error e =>
    have h2 : (Except.error e : Except P2St (P2St × List SDO2)) = .ok (stF, objs) := h
    cases h2
  | ok p =>
    obtain ⟨st1, rep⟩ := p
    have h2 : Except.ok (ε := P2St)
        (({ st1 with objects := pyinsert idx rep st1.objects }, pyinsert idx rep st1.objects) :
          P2St × List SDO2) = Except.ok (stF, objs) := h
    injection h2 with h3
    exact ⟨st1, rep, rfl, (congrArg Prod.fst h3).symm, (congrArg Prod.snd h3).symm⟩

theorem setIdentity_emit (ids : List String) (ev : Event2) (st : P2St)
    (hfresh : ev.orgc.uuid ∉ st.orgs) (hid : ("identity--" ++ ev.orgc.uuid) ∉ ids) :
    setIdentity ids ev st = (1,
      { st with identityId := "identity--" ++ ev.orgc.uuid
                orgs := st.orgs ++ [ev.orgc.uuid]
                objects := st.objects ++
                  [.identityO ("identity--" ++ ev.orgc.uuid) ev.orgc.oname] }) := by
  unfold setIdentity
  rw [if_pos ⟨hfresh, hid⟩]

theorem setIdentity_suppress (ids : List String) (ev : Event2) (st : P2St)
    (hsup : ev.orgc.uuid ∈ st.orgs ∨ ("identity--" ++ ev.orgc.uuid) ∈ ids) :
    setIdentity ids ev st = (0, { st with identityId := "identity--" ++ ev.orgc.uuid }) := by
  unfold setIdentity
  rw [if_neg (fun hc => hsup.elim (fun hin => hc.1 hin) (fun hin => hc.2 hin))]

theorem pyinsert_one {α : Type} (x a : α) (l : List α) : pyinsert 1 x (a :: l) = a :: x :: l := by
  unfold pyinsert
  simp

theorem pyinsert_zero {α : Type} (x : α) (l : List α) : pyinsert 0 x l = x :: l := by
  unfold pyinsert
  simp

theorem parsePipeline_shape (table : String → Option (Attr2 → Except Unit String))
    (validate : String → String → Bool) (supply : Nat → String) (ev : Event2)
    (idx : Nat) (stB stF : P2St) (objs : List SDO2)
    (h : parseFinish idx (generateEventReport validate supply ev
          (resolveAttributes2 table validate supply stB ev.attributes)) = .ok (stF, objs)) :
    ∃ rep tail, objs = pyinsert idx rep (stB.objects ++ tail) ∧ rep.isReport = true ∧
      rep.createdByRef? = some stB.identityId ∧ rep.sid = "report--" ++ ev.uuid ∧
      tailOk tail ∧ stF.orgs = stB.orgs := by
  obtain ⟨st1, rep, hg, hstF, hobjs⟩ := parseFinish_ok _ _ _ _ h
  have hGR := generateEventReport_ok validate supply ev _ st1 rep hg
  have hRA := resolveAttributes2_appendOnly table validate supply ev.attributes stB
  have hAO : appendOnly stB st1 := appendOnly_trans hRA hGR.1
  obtain ⟨⟨tail, hobj, htail⟩, hiid, horgs⟩ := hAO
  refine ⟨rep, tail, ?_, hGR.2.1, ?_, hGR.2.2.2.2, htail, ?_⟩
  · rw [hobjs, hobj]
  · rw [hGR.2.2.1, hiid]
  · rw [hstF]
    exact horgs

theorem parseMispEvent2_shape_emit (table : String → Option (Attr2 → Except Unit String))
    (validate : String → String → Bool) (supply : Nat → String) (ids : List String)
    (ev : Event2) (st0 stF : P2St) (objs : List SDO2)
    (h : parseMispEvent2 table validate supply ids ev st0 = .ok (stF, objs))
    (hfresh : ev.orgc.uuid ∉ st0.orgs) (hid : ("identity--" ++ ev.orgc.uuid) ∉ ids) :
    ∃ rep tail,
      objs = .identityO ("identity--" ++ ev.orgc.uuid) ev.orgc.oname :: rep :: tail ∧
      rep.isReport = true ∧ rep.createdByRef? = some ("identity--" ++ ev.orgc.uuid) ∧
      rep.sid = "report--" ++ ev.uuid ∧ tailOk tail ∧
      stF.orgs = st0.orgs ++ [ev.orgc.uuid] := by
  unfold parseMispEvent2 at h
  simp only [] at h
  rw [setIdentity_emit ids ev
    { st0 with objects := [], refs := [], errors := [], warnings := [] } hfresh hid] at h
  have h2 : parseFinish 1 (generateEventReport validate supply ev
      (resolveAttributes2 table validate supply
        { st0 with identityId := "identity--" ++ ev.orgc.uuid
                   orgs := st0.orgs ++ [ev.orgc.uuid]
                   objects := [.identityO ("identity--" ++ ev.orgc.uuid) ev.orgc.oname]
                   refs := [], errors := [], warnings := [] }
        ev.attributes)) = .ok (stF, objs) := h
  obtain ⟨rep, tail, hobjs, hrep, hcreated, hsid, htail, horgs⟩ :=
    parsePipeline_shape table validate supply ev 1 _ stF objs h2
  have hobjs2 : objs =
      pyinsert 1 rep (.identityO ("identity--" ++ ev.orgc.uuid) ev.orgc.oname :: tail) := hobjs
  rw [pyinsert_one] at hobjs2
  have hcreated2 : rep.createdByRef? = some ("identity--" ++ ev.orgc.uuid) := hcreated
  have horgs2 : stF.orgs = st0.orgs ++ [ev.orgc.uuid] := horgs
  exact ⟨rep, tail, hobjs2, hrep, hcreated2, hsid, htail, horgs2⟩

theorem parseMispEvent2_shape_suppress (table : String → Option (Attr2 → Except Unit String))
    (validate : String → String → Bool) (supply : Nat → String) (ids : List String)
    (ev : Event2) (st0 stF : P2St) (objs : List SDO2)
    (h : parseMispEvent2 table validate supply ids ev st0 = .ok (stF, objs))
    (hsup : ev.orgc.uuid ∈ st0.orgs ∨ ("identity--" ++ ev.orgc.uuid) ∈ ids) :
    ∃ rep tail, objs = rep :: tail ∧
      rep.isReport = true ∧ rep.createdByRef? = some ("identity--" ++ ev.orgc.uuid) ∧
      rep.sid = "report--" ++ ev.uuid ∧ tailOk tail ∧ stF.orgs = st0.orgs := by
  unfold parseMispEvent2 at h
  simp only [] at h
  rw [setIdentity_suppress ids ev
    { st0 with objects := [], refs := [], errors := [], warnings := [] } hsup] at h
  have h2 : parseFinish 0 (generateEventReport validate supply ev
      (resolveAttributes2 table validate supply
        { st0 with identityId := "identity--" ++ ev.orgc.uuid
                   objects := [], refs := [], errors := [], warnings := [] }
        ev.attributes)) = .ok (stF, objs) := h
  obtain ⟨rep, tail, hobjs, hrep, hcreated, hsid, htail, horgs⟩ :=
    parsePipeline_shape table validate supply ev 0 _ stF objs h2
  have hobjs2 : objs = pyinsert 0 rep tail := hobjs
  rw [pyinsert_zero] at hobjs2
  have hcreated2 : rep.createdByRef? = some ("identity--" ++ ev.orgc.uuid) := hcreated
  have horgs2 : stF.orgs = st0.orgs := horgs
  exact ⟨rep, tail, hobjs2, hrep, hcreated2, hsid, htail, horgs2⟩

/-! ## C5: position of the report in the flat object sequence -/

theorem isIdentity_false_of_isReport (o : SDO2) (h : o.isReport = true) :
    o.isIdentity = false := by
  cases o with
  | identityO i n => cases h
  | indicatorO i p m c => rfl
  | customO i t v => rfl
  | markingO i => rfl
  | reportO i n c p m r => rfl

/-- C5 (amended): when the organisation identity is newly emitted, the flat
object sequence is led by the identity entity, and the report is inserted at
index 1 — immediately after the identity and BEFORE every other entity of the
event (`self._objects.insert(index, report)` with the index `_set_identity`
returned), the report's creator reference being the identity's identifier.
The claim's "trailed by the report" is refuted: the report is the last
element only when the event produced no other objects. -/
theorem c5_sequence_order (table : String → Option (Attr2 → Except Unit String))
    (validate : String → String → Bool) (supply : Nat → String) (ids : List String)
    (ev : Event2) (st0 stF : P2St) (objs : List SDO2)
    (h : parseMispEvent2 table validate supply ids ev st0 = .ok (stF, objs))
    (hfresh : ev.orgc.uuid ∉ st0.orgs) (hid : ("identity--" ++ ev.orgc.uuid) ∉ ids) :
    objs.head? = some (.identityO ("identity--" ++ ev.orgc.uuid) ev.orgc.oname) ∧
    ∃ rep tail,
      objs = .identityO ("identity--" ++ ev.orgc.uuid) ev.orgc.oname :: rep :: tail ∧
      rep.isReport = true ∧ rep.createdByRef? = some ("identity--" ++ ev.orgc.uuid) ∧
      tailOk tail := by
  obtain ⟨rep, tail, hobjs, hrep, hcreated, hsid, htail, horgs⟩ :=
    parseMispEvent2_shape_emit table validate supply ids ev st0 stF objs h hfresh hid
  refine ⟨?_, rep, tail, hobjs, hrep, hcreated, htail⟩
  rw [hobjs]
  rfl

/-- Witness for C5's amended statement at a concrete event with one indicator
attribute. -/
theorem c5_sequence_order_witness :
    c5Objects.head? = some (.identityO ("identity--" ++ c5Event.orgc.uuid) c5Event.orgc.oname) ∧
    ∃ rep tail,
      c5Objects = .identityO ("identity--" ++ c5Event.orgc.uuid) c5Event.orgc.oname
        :: rep :: tail ∧
      rep.isReport = true ∧ rep.createdByRef? = some ("identity--" ++ c5Event.orgc.uuid) ∧
      tailOk tail :=
  c5_sequence_order table2AS acceptAll supplyA [] c5Event init2 c5St c5Objects rfl
    (by decide) (by decide)

/-- C5 counterexample: for an event with one indicator attribute the flat
sequence is identity, report, indicator — the report is not the last element
of the sequence. -/
theorem c5_counterexample_report_not_last :
    c5Objects.map SDO2.sid = ["identity--org-u", "report--ev-u", "indicator--attr-u1"] ∧
    (c5Objects.getLast?).map SDO2.isReport = some false := by
  decide

/-! ## C9: identity singleton per organisation within one instance run -/

theorem tailOk_countP_identity {tail : List SDO2} (h : tailOk tail) :
    tail.countP (fun o => o.isIdentity) = 0 :=
  List.countP_eq_zero.mpr (fun o ho => by simp [(h o ho).1])

theorem tailOk_filter_report {tail : List SDO2} (h : tailOk tail) :
    tail.filter (fun o => o.isReport) = [] :=
  List.filter_eq_nil_iff.mpr (fun o ho => by simp [(h o ho).2])

/-- C9: two events of the same organisation converted on one parser instance
emit exactly one identity entity between them — the first parse appends it,
the second finds the organisation uuid cached in `self._orgs` and suppresses
re-emission — while both reports still carry the identity's identifier as
their creator reference; and on any instance, an event whose identity
identifier is in the caller-supplied seen-identifiers set emits no identity
at all. -/
theorem c9_identity_singleton (table : String → Option (Attr2 → Except Unit String))
    (validate : String → String → Bool) (supply : Nat → String) (ids : List String)
    (ev1 ev2 ev3 : Event2) (ids3 : List String) (st0 st3 : P2St) (u : String)
    (st1 : P2St) (objs1 : List SDO2) (st2 : P2St) (objs2 : List SDO2)
    (stR : P2St) (objsR : List SDO2)
    (hu1 : ev1.orgc.uuid = u) (hu2 : ev2.orgc.uuid = u) (hu3 : ev3.orgc.uuid = u)
    (hfresh : u ∉ st0.orgs) (hid : ("identity--" ++ u) ∉ ids)
    (h1 : parseMispEvent2 table validate supply ids ev1 st0 = .ok (st1, objs1))
    (h2 : parseMispEvent2 table validate supply ids ev2 st1 = .ok (st2, objs2))
    (hid3 : ("identity--" ++ u) ∈ ids3)
    (h3 : parseMispEvent2 table validate supply ids3 ev3 st3 = .ok (stR, objsR)) :
    (objs1 ++ objs2).countP (fun o => o.isIdentity) = 1 ∧
    (objs1.filter (fun o => o.isReport)).map SDO2.createdByRef? =
      [some ("identity--" ++ u)] ∧
    (objs2.filter (fun o => o.isReport)).map SDO2.createdByRef? =
      [some ("identity--" ++ u)] ∧
    objsR.countP (fun o => o.isIdentity) = 0 := by
  subst hu1
  obtain ⟨rep1, tail1, hobjs1, hrep1, hcreated1, hsid1, htail1, horgs1⟩ :=
    parseMispEvent2_shape_emit table validate supply ids ev1 st0 st1 objs1 h1 hfresh hid
  have hsup2 : ev2.orgc.uuid ∈ st1.orgs ∨ ("identity--" ++ ev2.orgc.uuid) ∈ ids := by
    left
    rw [hu2, horgs1]
    exact List.mem_append_right _ (List.mem_singleton_self _)
  obtain ⟨rep2, tail2, hobjs2, hrep2, hcreated2, hsid2, htail2, horgs2⟩ :=
    parseMispEvent2_shape_suppress table validate supply ids ev2 st1 st2 objs2 h2 hsup2
  have hsup3 : ev3.orgc.uuid ∈ st3.orgs ∨ ("identity--" ++ ev3.orgc.uuid) ∈ ids3 := by
    right
    rw [hu3]
    exact hid3
  obtain ⟨repR, tailR, hobjsR, hrepR, hcreatedR, hsidR, htailR, horgsR⟩ :=
    parseMispEvent2_shape_suppress table validate supply ids3 ev3 st3 stR objsR h3 hsup3
  refine ⟨?_, ?_, ?_, ?_⟩
  · rw [List.countP_append, hobjs1, hobjs2, List.countP_cons, List.countP_cons,
      List.countP_cons, tailOk_countP_identity htail1, tailOk_countP_identity htail2]
    simp only [isIdentity_false_of_isReport rep1 hrep1,
      isIdentity_false_of_isReport rep2 hrep2]
    simp [SDO2.isIdentity]
  · rw [hobjs1, List.filter_cons, List.filter_cons, tailOk_filter_report htail1]
    simp only [hrep1]
    simp [SDO2.isReport, hcreated1]
  · rw [hobjs2, List.filter_cons, tailOk_filter_report htail2]
    simp only [hrep2]
    simp [hcreated2, hu2]
  · rw [hobjsR, List.countP_cons, tailOk_countP_identity htailR]
    simp only [isIdentity_false_of_isReport repR hrepR]
    simp

/-- Witness for C9 at the concrete two-event run plus a suppressed parse. -/
theorem c9_identity_singleton_witness :
    (c9Objects1 ++ c9Objects2).countP (fun o => o.isIdentity) = 1 ∧
    (c9Objects1.filter (fun o => o.isReport)).map SDO2.createdByRef? =
      [some ("identity--" ++ "org-u")] ∧
    (c9Objects2.filter (fun o => o.isReport)).map SDO2.createdByRef? =
      [some ("identity--" ++ "org-u")] ∧
    c9Objects3.countP (fun o => o.isIdentity) = 0 :=
  c9_identity_singleton table2AS acceptAll supplyA [] c9Event1 c9Event2 c9Event2 c9Ids3
    init2 init2 "org-u" c9St1 c9Objects1 c9St2 c9Objects2 c9St3 c9Objects3
    rfl rfl rfl (by decide) (by decide) rfl rfl (by decide) rfl

/-! ## C3: determinism of output identifiers -/

theorem handleMarkingsStep_tlp_indep (validate : String → String → Bool)
    (s1 s2 : Nat → String) (m : String) (hm : (alookup tlpMarkingsV20 m).isSome = true)
    (st : P2St) (ids0 : List String) :
    handleMarkingsStep validate s1 (.ok (st, ids0)) m =
      handleMarkingsStep validate s2 (.ok (st, ids0)) m ∧
    ∃ st1 ids1, handleMarkingsStep validate s1 (.ok (st, ids0)) m = .ok (st1, ids1) := by
  unfold handleMarkingsStep
  cases hc : alookup st.mcache m with
  | some mid =>
    simp only [hc]
    exact ⟨by trivial, st, ids0 ++ [mid], rfl⟩
  | none =>
    simp only [hc]
    unfold createMarking
    cases htlp : alookup tlpMarkingsV20 m with
    | none =>
      rw [htlp] at hm
      cases hm
    | some mid =>
      simp only [htlp]
      exact ⟨by trivial, _, _, rfl⟩

theorem handleMarkings_fold_tlp_indep (validate : String → String → Bool)
    (s1 s2 : Nat → String) (ms : List String) :
    ∀ (st : P2St) (ids0 : List String),
      (∀ m ∈ ms, (alookup tlpMarkingsV20 m).isSome = true) →
      ms.foldl (handleMarkingsStep validate s1) (.ok (st, ids0)) =
        ms.foldl (handleMarkingsStep validate s2) (.ok (st, ids0)) := by
  induction ms with
  | nil => intro st ids0 _; rfl
  | cons m rest ih =>
    intro st ids0 hms
    rw [List.foldl_cons, List.foldl_cons]
    obtain ⟨heq, st1, ids1, hok⟩ :=
      handleMarkingsStep_tlp_indep validate s1 s2 m (hms m (List.mem_cons_self _ _)) st ids0
    rw [← heq, hok]
    exact ih st1 ids1 (fun m2 hm2 => hms m2 (List.mem_cons_of_mem _ hm2))

theorem handleMarkings_tlp_indep (validate : String → String → Bool) (s1 s2 : Nat → String)
    (st : P2St) (ms : List String)
    (hms : ∀ m ∈ ms, (alookup tlpMarkingsV20 m).isSome = true) :
    handleMarkings validate s1 st ms = handleMarkings validate s2 st ms :=
  handleMarkings_fold_tlp_indep validate s1 s2 ms st [] hms

theorem handleAttributeIndicator_tlp_indep (validate : String → String → Bool)
    (s1 s2 : Nat → String) (st : P2St) (a : Attr2) (pattern : String)
    (ha : ∀ m ∈ a.tags, (alookup tlpMarkingsV20 m).isSome = true) :
    handleAttributeIndicator validate s1 st a pattern =
      handleAttributeIndicator validate s2 st a pattern := by
  unfold handleAttributeIndicator
  simp only []
  rw [handleMarkings_tlp_indep validate s1 s2 st a.tags ha]

theorem attributeStep2_tlp_indep (table : String → Option (Attr2 → Except Unit String))
    (validate : String → String → Bool) (s1 s2 : Nat → String) (st : P2St) (a : Attr2)
    (ha : ∀ m ∈ a.tags, (alookup tlpMarkingsV20 m).isSome = true) :
    attributeStep2 table validate s1 st a = attributeStep2 table validate s2 st a := by
  have hX : (match table a.atype with
      | some producer =>
        match producer a with
        | Except.error _ => (Except.error st : Except P2St P2St)
        | Except.ok pattern =>
          if a.to_ids then handleAttributeIndicator validate s1 st a pattern
          else Except.ok st
      | none =>
        Except.ok { parseCustomAttribute2 st a with
          warnings := sadd (parseCustomAttribute2 st a).warnings
            ("MISP Attribute type " ++ a.atype ++ " not mapped.") }) =
      (match table a.atype with
      | some producer =>
        match producer a with
        | Except.error _ => (Except.error st : Except P2St P2St)
        | Except.ok pattern =>
          if a.to_ids then handleAttributeIndicator validate s2 st a pattern
          else Except.ok st
      | none =>
        Except.ok { parseCustomAttribute2 st a with
          warnings := sadd (parseCustomAttribute2 st a).warnings
            ("MISP Attribute type " ++ a.atype ++ " not mapped.") }) := by
    cases htab : table a.atype with
    | none => rfl
    | some producer =>
      show (match producer a with
          | Except.error _ => (Except.error st : Except P2St P2St)
          | Except.ok pattern =>
            if a.to_ids then handleAttributeIndicator validate s1 st a pattern
            else Except.ok st) =
        (match producer a with
          | Except.error _ => (Except.error st : Except P2St P2St)
          | Except.ok pattern =>
            if a.to_ids then handleAttributeIndicator validate s2 st a pattern
            else Except.ok st)
      cases hp : producer a with
      | error e => rfl
      | ok pattern =>
        show (if a.to_ids then handleAttributeIndicator validate s1 st a pattern
            else Except.ok st) =
          (if a.to_ids then handleAttributeIndicator validate s2 st a pattern
            else Except.ok st)
        cases hti : a.to_ids with
        | true =>
          show handleAttributeIndicator validate s1 st a pattern =
            handleAttributeIndicator validate s2 st a pattern
          exact handleAttributeIndicator_tlp_indep validate s1 s2 st a pattern ha
        | false => rfl
  exact congrArg (attrCatch st a) hX

theorem resolveAttributes2_tlp_indep (table : String → Option (Attr2 → Except Unit String))
    (validate : String → String → Bool) (s1 s2 : Nat → String) (attrs : List Attr2) :
    ∀ st : P2St,
      (∀ a ∈ attrs, ∀ m ∈ a.tags, (alookup tlpMarkingsV20 m).isSome = true) →
      resolveAttributes2 table validate s1 st attrs =
        resolveAttributes2 table validate s2 st attrs := by
  induction attrs with
  | nil => intro st _; rfl
  | cons a rest ih =>
    intro st hall
    show (a :: rest).foldl (attributeStep2 table validate s1) st =
      (a :: rest).foldl (attributeStep2 table validate s2) st
    rw [List.foldl_cons, List.foldl_cons,
      attributeStep2_tlp_indep table validate s1 s2 st a (hall a (List.mem_cons_self _ _))]
    exact ih _ (fun a2 h2 => hall a2 (List.mem_cons_of_mem _ h2))

theorem generateEventReport_tlp_indep (validate : String → String → Bool)
    (s1 s2 : Nat → String) (ev : Event2) (st : P2St)
    (hev : ∀ m ∈ ev.tags, (alookup tlpMarkingsV20 m).isSome = true) :
    generateEventReport validate s1 ev st = generateEventReport validate s2 ev st := by
  unfold generateEventReport
  simp only []
  rw [handleMarkings_tlp_indep validate s1 s2 st (handleEventTagsAndGalaxies ev) hev]

theorem parseMispEvent2_tlp_indep (table : String → Option (Attr2 → Except Unit String))
    (validate : String → String → Bool) (s1 s2 : Nat → String) (ids : List String)
    (ev : Event2) (st0 : P2St)
    (hev : ∀ m ∈ ev.tags, (alookup tlpMarkingsV20 m).isSome = true)
    (hattrs : ∀ a ∈ ev.attributes, ∀ m ∈ a.tags, (alookup tlpMarkingsV20 m).isSome = true) :
    parseMispEvent2 table validate s1 ids ev st0 =
      parseMispEvent2 table validate s2 ids ev st0 := by
  unfold parseMispEvent2
  simp only []
  rw [resolveAttributes2_tlp_indep table validate s1 s2 ev.attributes _ hattrs,
    generateEventReport_tlp_indep validate s1 s2 ev _ hev]

/-- C3 (amended): conversion is deterministic for every output entity kind
whose identifier is derived from a source item's stable UUID — STIX 1
observables (`<ns>:Observable-<uuid>`), and the whole STIX 2 parse whenever
every event-level and attribute-level tag resolves inside the prebuilt TLP
vocabulary (the pipeline then never draws randomness, so two runs with
different uuid4 sources coincide) — but a marking definition built by
`_create_marking_definition_args` gets `marking-definition--<uuid4()>`: its
identifier embeds a fresh random draw, not a function of the source item, so
repeated fresh-instance runs differ on non-vocabulary marking tags (refuting
the claim as stated for marking definitions). -/
theorem c3_determinism (table : String → Option (Attr2 → Except Unit String))
    (validate : String → String → Bool) (s1 s2 : Nat → String) (ids : List String)
    (ev : Event2) (st0 : P2St) (ns : String) (payload : Stix1.Payload)
    (uuid feature : String) (m fresh mid dt d : String)
    (hev : ∀ mk ∈ ev.tags, (alookup tlpMarkingsV20 mk).isSome = true)
    (hattrs : ∀ a ∈ ev.attributes, ∀ mk ∈ a.tags, (alookup tlpMarkingsV20 mk).isSome = true)
    (hm : createMarkingDefinitionArgs m fresh = some (mid, dt, d)) :
    parseMispEvent2 table validate s1 ids ev st0 =
      parseMispEvent2 table validate s2 ids ev st0 ∧
    (Stix1.createObservable ns payload uuid feature).id_ = ns ++ ":Observable-" ++ uuid ∧
    mid = "marking-definition--" ++ fresh := by
  refine ⟨parseMispEvent2_tlp_indep table validate s1 s2 ids ev st0 hev hattrs, rfl, ?_⟩
  unfold createMarkingDefinitionArgs at hm
  cases hsp : pySplit m ':' with
  | nil =>
    rw [hsp] at hm
    cases hm
  | cons x xs =>
    cases xs with
    | nil =>
      rw [hsp] at hm
      cases hm
    | cons y ys =>
      cases ys with
      | nil =>
        rw [hsp] at hm
        have hm2 : some ("marking-definition--" ++ fresh, x, y) = some (mid, dt, d) := hm
        injection hm2 with h3
        exact (congrArg Prod.fst h3).symm
      | cons z zs =>
        rw [hsp] at hm
        cases hm

/-- Witness for C3's amended statement: a TLP-only event parses identically
under two different randomness sources, a concrete observable identifier is
namespace-and-uuid derived, and a concrete marking-definition identifier
embeds the fresh draw. -/
theorem c3_determinism_witness :
    parseMispEvent2 table2AS acceptAll supplyA [] c3EvTLP init2 =
      parseMispEvent2 table2AS acceptAll supplyB [] c3EvTLP init2 ∧
    (Stix1.createObservable "MISP" (Stix1.Payload.produced "AS") "attr-u" "AS").id_ =
      "MISP" ++ ":Observable-" ++ "attr-u" ∧
    "marking-definition--f0" = "marking-definition--" ++ "f0" :=
  c3_determinism table2AS acceptAll supplyA supplyB [] c3EvTLP init2 "MISP"
    (Stix1.Payload.produced "AS") "attr-u" "AS" "a:b" "f0" "marking-definition--f0" "a" "b"
    (by decide) (by decide) (by decide)

/-- C3 counterexample: the same event, parsed twice on fresh instances that
differ only in the ambient uuid4 randomness, yields different outputs — the
marking-definition identifiers embed the random draw — while every
non-marking identifier coincides. -/
theorem c3_counterexample_marking_ids_random :
    c3Objects1 ≠ c3Objects2 ∧
    (c3Objects1.filter (fun o => o.isMarking)).map SDO2.sid =
      ["marking-definition--aaaa-0"] ∧
    (c3Objects2.filter (fun o => o.isMarking)).map SDO2.sid =
      ["marking-definition--bbbb-0"] ∧
    (c3Objects1.filter (fun o => !o.isMarking)).map SDO2.sid =
      (c3Objects2.filter (fun o => !o.isMarking)).map SDO2.sid := by
  decide

end Stix2
